import Mathlib

/-!
# Scene description parsing of the duality client

A shallow embedding of `SceneParser.cpp` and `SceneLoader.cpp` (duality-client) together with
the part of the JsonCpp value interface these files call. JsonCpp is taken with the behaviour of
its 1.x releases: `isArray()` holds for arrays only, `asString()` converts null, booleans and
numbers, and an access that the type of a value does not allow fails.

Conventions of the embedding
* A C++ exception is a value of `Failure`; every function that can throw returns `Except Failure _`.
* The parser object is the record `SceneParser`; a member function that mutates the parser takes
  the record and returns the new one next to its result.
* `float` values are kept as the exact number they stand for (`Flt`). The parser observes only
  their identity and computes nothing with them; the arithmetic of `indicesTransparentSorted`
  rounds every result to a float (`roundToFloat`).
* Handles to collaborators (`m_rpc`, `m_dataCache`, the logger behind `LWARNING`) carry no data
  the parser reads and are left out of the records.
-/

namespace Duality

/-! ## JsonCpp values -/

/-- Value of a C++ `float`: the exact number it stands for. -/
abbrev Flt := Rat

/-- A JSON number as the parser observes it: JsonCpp hands a number out through `asString()`
(its decimal text) and through `asFloat()` only. -/
structure Number where
  text : String
  value : Flt
deriving DecidableEq, Repr

/-- A `JsonCpp::Value`. An object is a list of bindings; the first binding of a key is the one
the value holds, and members are visited in list order. -/
inductive Json where
  | null
  | bool (b : Bool)
  | num (n : Number)
  | str (s : String)
  | arr (xs : List Json)
  | obj (kvs : List (String × Json))
deriving Repr

mutual

/-- Equality of JSON values can be decided (`Value::operator==`). -/
def Json.decEq : (a b : Json) → Decidable (a = b)
  | .null, .null => isTrue rfl
  | .null, .bool _ => isFalse (fun h => by cases h)
  | .null, .num _ => isFalse (fun h => by cases h)
  | .null, .str _ => isFalse (fun h => by cases h)
  | .null, .arr _ => isFalse (fun h => by cases h)
  | .null, .obj _ => isFalse (fun h => by cases h)
  | .bool _, .null => isFalse (fun h => by cases h)
  | .bool x, .bool y =>
    if h : x = y then isTrue (by rw [h]) else isFalse (fun h2 => h (by cases h2; rfl))
  | .bool _, .num _ => isFalse (fun h => by cases h)
  | .bool _, .str _ => isFalse (fun h => by cases h)
  | .bool _, .arr _ => isFalse (fun h => by cases h)
  | .bool _, .obj _ => isFalse (fun h => by cases h)
  | .num _, .null => isFalse (fun h => by cases h)
  | .num _, .bool _ => isFalse (fun h => by cases h)
  | .num x, .num y =>
    if h : x = y then isTrue (by rw [h]) else isFalse (fun h2 => h (by cases h2; rfl))
  | .num _, .str _ => isFalse (fun h => by cases h)
  | .num _, .arr _ => isFalse (fun h => by cases h)
  | .num _, .obj _ => isFalse (fun h => by cases h)
  | .str _, .null => isFalse (fun h => by cases h)
  | .str _, .bool _ => isFalse (fun h => by cases h)
  | .str _, .num _ => isFalse (fun h => by cases h)
  | .str x, .str y =>
    if h : x = y then isTrue (by rw [h]) else isFalse (fun h2 => h (by cases h2; rfl))
  | .str _, .arr _ => isFalse (fun h => by cases h)
  | .str _, .obj _ => isFalse (fun h => by cases h)
  | .arr _, .null => isFalse (fun h => by cases h)
  | .arr _, .bool _ => isFalse (fun h => by cases h)
  | .arr _, .num _ => isFalse (fun h => by cases h)
  | .arr _, .str _ => isFalse (fun h => by cases h)
  | .arr x, .arr y =>
    match Json.decEqList x y with
    | isTrue h => isTrue (by rw [h])
    | isFalse h => isFalse (fun h2 => h (by cases h2; rfl))
  | .arr _, .obj _ => isFalse (fun h => by cases h)
  | .obj _, .null => isFalse (fun h => by cases h)
  | .obj _, .bool _ => isFalse (fun h => by cases h)
  | .obj _, .num _ => isFalse (fun h => by cases h)
  | .obj _, .str _ => isFalse (fun h => by cases h)
  | .obj _, .arr _ => isFalse (fun h => by cases h)
  | .obj x, .obj y =>
    match Json.decEqMembers x y with
    | isTrue h => isTrue (by rw [h])
    | isFalse h => isFalse (fun h2 => h (by cases h2; rfl))

/-- Equality of lists of JSON values can be decided. -/
def Json.decEqList : (a b : List Json) → Decidable (a = b)
  | [], [] => isTrue rfl
  | [], _ :: _ => isFalse (fun h => by cases h)
  | _ :: _, [] => isFalse (fun h => by cases h)
  | x :: xs, y :: ys =>
    match Json.decEq x y, Json.decEqList xs ys with
    | isTrue h1, isTrue h2 => isTrue (by rw [h1, h2])
    | isFalse h1, _ => isFalse (fun h => h1 (by cases h; rfl))
    | _, isFalse h2 => isFalse (fun h => h2 (by cases h; rfl))

/-- Equality of member lists can be decided. -/
def Json.decEqMembers : (a b : List (String × Json)) → Decidable (a = b)
  | [], [] => isTrue rfl
  | [], _ :: _ => isFalse (fun h => by cases h)
  | _ :: _, [] => isFalse (fun h => by cases h)
  | (k, x) :: xs, (l, y) :: ys =>
    if hk : k = l then
      match Json.decEq x y, Json.decEqMembers xs ys with
      | isTrue h1, isTrue h2 => isTrue (by rw [hk, h1, h2])
      | isFalse h1, _ => isFalse (fun h => h1 (by cases h; rfl))
      | _, isFalse h2 => isFalse (fun h => h2 (by cases h; rfl))
    else isFalse (fun h => hk (by cases h; rfl))

end

instance : DecidableEq Json := Json.decEq

deriving instance DecidableEq for Except

/-- What a C++ function throws: `error` is `duality::Error` raised by the parser itself, `fault`
is a failure raised below it (a JsonCpp type assertion, a missing table entry). -/
inductive Failure where
  | error (msg : String)
  | fault (msg : String)
deriving DecidableEq, Repr

/-- Bindings of an object with shadowed duplicates of a key removed (`seen` holds the keys
already met). -/
def dedupKeys (seen : List String) : List (String × Json) → List (String × Json)
  | [] => []
  | (k, v) :: rest =>
    if k ∈ seen then dedupKeys seen rest else (k, v) :: dedupKeys (k :: seen) rest

/-- Keys `"0"`, `"1"`, ... that `iterator::key().asString()` yields on an array. -/
def indexed (i : Nat) : List Json → List (String × Json)
  | [] => []
  | x :: rest => (toString i, x) :: indexed (i + 1) rest

namespace Json

/-- Embedding of `Value::isArray()`. -/
def isArray : Json → Bool
  | arr _ => true
  | _ => false

/-- The members an iterator from `begin()` to `end()` visits, with `key().asString()`:
the elements of an array, the members of an object, nothing for any other value. -/
def items : Json → List (String × Json)
  | arr xs => indexed 0 xs
  | obj kvs => dedupKeys [] kvs
  | _ => []

/-- The values an iterator from `begin()` to `end()` visits. -/
def elems : Json → List Json
  | arr xs => xs
  | obj kvs => (dedupKeys [] kvs).map Prod.snd
  | _ => []

/-- Embedding of `Value::size()`: number of elements of an array or object, 0 otherwise. -/
def size : Json → Nat
  | arr xs => xs.length
  | obj kvs => (dedupKeys [] kvs).length
  | _ => 0

/-- Embedding of `Value::find`: the member named `key`; only null and objects can be searched. -/
def find (v : Json) (key : String) : Except Failure (Option Json) :=
  match v with
  | null => .ok none
  | obj kvs => .ok (kvs.lookup key)
  | _ => .error (.fault "requires objectValue or nullValue")

/-- Embedding of `Value::isMember(key)`. -/
def isMember (v : Json) (key : String) : Except Failure Bool :=
  match v.find key with
  | .ok r => .ok r.isSome
  | .error e => .error e

/-- Embedding of `Value::operator[](key)`: the member, or null when there is none. -/
def get (v : Json) (key : String) : Except Failure Json :=
  match v.find key with
  | .ok r => .ok (r.getD null)
  | .error e => .error e

/-- Embedding of `Value::operator[](index)`: the element, or null when there is none; only
null and arrays can be indexed. -/
def index (v : Json) (i : Nat) : Except Failure Json :=
  match v with
  | null => .ok null
  | arr xs => .ok (xs.getD i null)
  | _ => .error (.fault "requires arrayValue")

/-- Embedding of `Value::asString()`. -/
def asString : Json → Except Failure String
  | null => .ok ""
  | bool b => .ok (if b then "true" else "false")
  | num n => .ok n.text
  | str s => .ok s
  | _ => .error (.fault "Type is not convertible to string")

/-- Embedding of `Value::asFloat()`. -/
def asFloat : Json → Except Failure Flt
  | null => .ok 0
  | bool b => .ok (if b then 1 else 0)
  | num n => .ok n.value
  | _ => .error (.fault "Value is not convertible to float")

/-- Embedding of `value == false` / `value == true`: equal only to a boolean of that value. -/
def eqBool : Json → Bool → Bool
  | bool b, c => b == c
  | _, _ => false

/-- Embedding of `value == "text"`: equal only to a string with that text. -/
def eqString : Json → String → Bool
  | str s, t => s == t
  | _, _ => false

end Json

/-! ## `std::map<std::string, T>` -/

/-- A `std::map` keyed by strings, as its list of entries (keys pairwise distinct). -/
abbrev Map (α : Type) := List (String × α)

namespace Map

/-- Embedding of `m.find(key)`, also `m.count(key) != 0` when the result is `some`. -/
def find? {α : Type} (m : Map α) (key : String) : Option α :=
  List.lookup key m

/-- Embedding of `m[key] = value`: replaces the entry of `key` or adds one. -/
def insert {α : Type} (key : String) (value : α) : Map α → Map α
  | [] => [(key, value)]
  | (k, v) :: rest => if k = key then (key, value) :: rest else (k, v) :: insert key value rest

/-- The keys of the map. -/
def keys {α : Type} (m : Map α) : List String :=
  m.map Prod.fst

end Map

/-! ## The typed scene -/

/-- Embedding of `IVDA::Mat4f`, as the sixteen constructor arguments in order. -/
structure Mat4f where
  entries : List Flt
deriving DecidableEq, Repr

/-- Embedding of `IVDA::Vec3f`. -/
structure Vec3f where
  x : Flt
  y : Flt
  z : Flt
deriving DecidableEq, Repr

/-- Embedding of `IVDA::Vec2f`. -/
structure Vec2f where
  x : Flt
  y : Flt
deriving DecidableEq, Repr

/-- Embedding of `duality::Color`. -/
structure Color where
  r : Flt
  g : Flt
  b : Flt
  a : Flt
deriving DecidableEq, Repr

/-- Embedding of `enum class Visibility`. -/
inductive Visibility where
  | VisibleNone
  | Visible2D
  | Visible3D
  | VisibleBoth
deriving DecidableEq, Repr

structure FloatVariableInfo where
  index : Nat
  lowerBound : Flt
  upperBound : Flt
  stepSize : Flt
deriving DecidableEq, Repr

structure EnumVariableInfo where
  index : Nat
  values : List String
deriving DecidableEq, Repr

structure FloatVariable where
  name : String
  label : Option String
  info : FloatVariableInfo
  value : Flt
deriving DecidableEq, Repr

structure EnumVariable where
  name : String
  label : Option String
  info : EnumVariableInfo
  value : String
deriving DecidableEq, Repr

structure Variables where
  floatVariables : List FloatVariable
  enumVariables : List EnumVariable
deriving DecidableEq, Repr

/-- Embedding of `DownloadProvider` / `PythonProvider`, as their constructor arguments. The python
provider receives the node's `Variables` object as it stands when the provider is created. -/
inductive DataProvider where
  | download (sceneName fileName : String)
  | python (sceneName fileName : String) (vars : Variables)
deriving DecidableEq, Repr

structure GeometryDataset where
  provider : DataProvider
  transforms : List Mat4f
  color : Option Color
deriving DecidableEq, Repr

structure VolumeDataset where
  provider : DataProvider
deriving DecidableEq, Repr

/-- Embedding of `TransferFunction`; `provider` is `none` for `TransferFunction(nullptr)`. -/
structure TransferFunction where
  provider : Option DataProvider
deriving DecidableEq, Repr

/-- Embedding of `GeometryNode` / `VolumeNode`. -/
inductive SceneNode where
  | geometry (name : String) (visibility : Visibility) (dataset : GeometryDataset)
  | volume (name : String) (visibility : Visibility) (dataset : VolumeDataset)
      (tf : TransferFunction)
deriving DecidableEq, Repr

namespace SceneNode

def name : SceneNode → String
  | geometry n _ _ => n
  | volume n _ _ _ => n

def visibility : SceneNode → Visibility
  | geometry _ v _ => v
  | volume _ v _ _ => v

/-- Whether the node is a `GeometryNode` (otherwise it is a `VolumeNode`). -/
def isGeometry : SceneNode → Bool
  | geometry _ _ _ => true
  | volume _ _ _ _ => false

end SceneNode

structure SceneMetadata where
  name : String
  description : String
deriving DecidableEq, Repr

structure Scene where
  m_metadata : SceneMetadata
  m_nodes : List SceneNode
  m_variables : Map Variables
  m_webViewURL : String
deriving DecidableEq, Repr

/-! ## `SceneParser` -/

/-- The data members of `SceneParser` that the parse reads or writes. `m_varIndex` is an `int`
in the source; it counts the entries of one `variables` list and is kept as a natural number. -/
structure SceneParser where
  m_root : Json
  m_sceneName : String
  m_nodeName : String
  m_varIndex : Nat
  m_variables : Map Variables
  m_transforms : Map Mat4f
deriving DecidableEq, Repr

/-- Embedding of `SceneParser::parseMatrix`. -/
def parseMatrix (node : Json) : Except Failure Mat4f :=
  if node.size != 16 then
    .error (.error "Invalid matrix definition in JSON")
  else do
    let entries ← (List.range 16).mapM (fun i => do (← node.index i).asFloat)
    pure ⟨entries⟩

/-- Embedding of `SceneParser::parseVector3`. -/
def parseVector3 (node : Json) : Except Failure Vec3f :=
  if node.size != 3 then
    .error (.error "Invalid 3D vector definition in JSON")
  else do
    pure ⟨← (← node.index 0).asFloat, ← (← node.index 1).asFloat,
      ← (← node.index 2).asFloat⟩

/-- Embedding of `SceneParser::parseVector2`. -/
def parseVector2 (node : Json) : Except Failure Vec2f :=
  if node.size != 2 then
    .error (.error "Invalid 2D vector definition in JSON")
  else do
    pure ⟨← (← node.index 0).asFloat, ← (← node.index 1).asFloat⟩

/-- Embedding of `SceneParser::parseColor`. -/
def parseColor (node : Json) : Except Failure Color :=
  if !node.isArray || !(node.size == 4) then
    .error (.error "Invalid color")
  else do
    pure ⟨← (← node.index 0).asFloat, ← (← node.index 1).asFloat,
      ← (← node.index 2).asFloat, ← (← node.index 3).asFloat⟩

/-- The loop of the constructor: `m_transforms[it.key().asString()] = parseMatrix(*it)` for
every member of the `transforms` table. -/
def buildTransforms : List (String × Json) → Map Mat4f → Except Failure (Map Mat4f)
  | [], m => .ok m
  | (key, value) :: rest, m =>
    match parseMatrix value with
    | .ok matrix => buildTransforms rest (Map.insert key matrix m)
    | .error e => .error e

/-- Embedding of `SceneParser::SceneParser(root, rpc, dataCache)`. -/
def SceneParser.new (root : Json) : Except Failure SceneParser := do
  let parser : SceneParser :=
    { m_root := root, m_sceneName := "", m_nodeName := "", m_varIndex := 0,
      m_variables := [], m_transforms := [] }
  let hasTransforms ← root.isMember "transforms"
  (if hasTransforms then do
    let transformsJson ← root.get "transforms"
    let table ← buildTransforms transformsJson.items parser.m_transforms
    pure { parser with m_transforms := table }
  else
    pure parser)

/-- Embedding of `SceneParser::parseMetadata`. -/
def parseMetadata (root : Json) : Except Failure SceneMetadata := do
  let name ← (← (← root.get "metadata").get "name").asString
  let description ← (← (← root.get "metadata").get "description").asString
  pure ⟨name, description⟩

/-- The test `node.isMember(key) && node[key] == false` of `parseVisibility`. -/
def isFalseMember (node : Json) (key : String) : Except Failure Bool := do
  let member ← node.isMember key
  (if member then do pure ((← node.get key).eqBool false) else pure false)

/-- Embedding of `SceneParser::parseVisibility`. The third test is `a && b` with the two tests
above it, the second one evaluated only when the first holds; its `LWARNING` writes to the log
only. -/
def parseVisibility (node : Json) : Except Failure Visibility := do
  let visibility := Visibility.VisibleBoth
  let no2d ← isFalseMember node "view2d"
  let visibility := (if no2d then Visibility.Visible3D else visibility)
  let no3d ← isFalseMember node "view3d"
  let visibility := (if no3d then Visibility.Visible2D else visibility)
  let no2d ← isFalseMember node "view2d"
  let both ← (if no2d then isFalseMember node "view3d" else pure false)
  let visibility := (if both then Visibility.VisibleNone else visibility)
  pure visibility

namespace SceneParser

/-- Embedding of `SceneParser::parseTransform`. -/
def parseTransform (p : SceneParser) (node : Json) : Except Failure Mat4f :=
  if node.isArray then
    parseMatrix node
  else do
    let refName ← node.asString
    match p.m_transforms.find? refName with
    | none => .error (.error ("Transform \x27" ++ refName ++ "\x27 does not exist"))
    | some matrix => pure matrix

/-- Embedding of `m_variables[m_nodeName]->floatVariables.push_back(var)` and its enum twin:
change the `Variables` object registered under the current node name (`parseProvider` has
registered one before any variable is parsed; without one the access is a null dereference). -/
def updateVariables (p : SceneParser) (f : Variables → Variables) : Except Failure SceneParser :=
  match p.m_variables.find? p.m_nodeName with
  | some vars => .ok { p with m_variables := Map.insert p.m_nodeName (f vars) p.m_variables }
  | none => .error (.fault "no Variables object for the node")

/-- The optional `label` of a variable. -/
def parseLabel (node : Json) : Except Failure (Option String) := do
  let member ← node.isMember "label"
  (if member then do pure (some (← (← node.get "label").asString)) else pure none)

/-- Embedding of `SceneParser::parseFloatVariable`. -/
def parseFloatVariable (p : SceneParser) (node : Json) : Except Failure SceneParser := do
  let name ← (← node.get "name").asString
  let label ← parseLabel node
  let lowerBound ← (← node.get "lowerBound").asFloat
  let upperBound ← (← node.get "upperBound").asFloat
  let stepSize ← (← node.get "stepSize").asFloat
  let defaultValue ← (← node.get "defaultValue").asFloat
  let info : FloatVariableInfo := ⟨p.m_varIndex, lowerBound, upperBound, stepSize⟩
  let var : FloatVariable := ⟨name, label, info, defaultValue⟩
  p.updateVariables (fun vars => { vars with floatVariables := vars.floatVariables ++ [var] })

/-- The loop of `parseEnumVariable` over `node["values"]`. -/
def parseEnumValues : List Json → Except Failure (List String)
  | [] => .ok []
  | v :: rest =>
    match v.asString with
    | .ok s =>
      match parseEnumValues rest with
      | .ok ss => .ok (s :: ss)
      | .error e => .error e
    | .error e => .error e

/-- Embedding of `SceneParser::parseEnumVariable`. -/
def parseEnumVariable (p : SceneParser) (node : Json) : Except Failure SceneParser := do
  let name ← (← node.get "name").asString
  let label ← parseLabel node
  let valuesNode ← node.get "values"
  let values ← parseEnumValues valuesNode.elems
  let defaultValue ← (← node.get "defaultValue").asString
  let info : EnumVariableInfo := ⟨p.m_varIndex, values⟩
  let var : EnumVariable := ⟨name, label, info, defaultValue⟩
  p.updateVariables (fun vars => { vars with enumVariables := vars.enumVariables ++ [var] })

/-- One round of the loop of `parseParams`: the entry is parsed when its `type` is `"float"` or
`"enum"` (the source reads `paramNode["type"]` for each of the two tests), and `m_varIndex` is
incremented in every case. -/
def parseParam (p : SceneParser) (paramNode : Json) : Except Failure SceneParser := do
  let type ← paramNode.get "type"
  let p ←
    (if type.eqString "float" then
      p.parseFloatVariable paramNode
    else if type.eqString "enum" then
      p.parseEnumVariable paramNode
    else
      pure p)
  pure { p with m_varIndex := p.m_varIndex + 1 }

/-- The loop of `parseParams` over the entries of the `variables` list. -/
def parseParamsLoop (p : SceneParser) : List Json → Except Failure SceneParser
  | [] => .ok p
  | paramNode :: rest =>
    match p.parseParam paramNode with
    | .ok p => parseParamsLoop p rest
    | .error e => .error e

/-- Embedding of `SceneParser::parseParams`. -/
def parseParams (p : SceneParser) (node : Json) : Except Failure SceneParser :=
  p.parseParamsLoop node.elems

/-- Embedding of `SceneParser::parseDownload`. -/
def parseDownload (p : SceneParser) (node : Json) : Except Failure DataProvider := do
  pure (.download p.m_sceneName (← (← node.get "filename").asString))

/-- Embedding of `SceneParser::parsePython`; `m_variables[m_nodeName]` is the object
`parseProvider` has registered just before the call. -/
def parsePython (p : SceneParser) (node : Json) :
    Except Failure (DataProvider × SceneParser) := do
  let fileName ← (← node.get "filename").asString
  let p ← p.parseParams (← node.get "variables")
  match p.m_variables.find? p.m_nodeName with
  | some vars => pure (.python p.m_sceneName fileName vars, p)
  | none => .error (.fault "no Variables object for the node")

/-- Embedding of `SceneParser::parseProvider`. -/
def parseProvider (p : SceneParser) (node : Json) :
    Except Failure (DataProvider × SceneParser) := do
  let type ← (← node.get "type").asString
  let p := { p with m_variables := Map.insert p.m_nodeName ⟨[], []⟩ p.m_variables }
  (if type == "download" then do
    pure (← p.parseDownload node, p)
  else if type == "python" then
    p.parsePython node
  else
    .error (.error ("Invalid data source type: " ++ type)))

/-- The loop of `parseGeometryDataset` over `node["transforms"]`. -/
def parseTransforms (p : SceneParser) : List Json → Except Failure (List Mat4f)
  | [] => .ok []
  | transform :: rest =>
    match p.parseTransform transform with
    | .ok matrix =>
      match parseTransforms p rest with
      | .ok matrices => .ok (matrix :: matrices)
      | .error e => .error e
    | .error e => .error e

/-- Embedding of `SceneParser::parseGeometryDataset`. -/
def parseGeometryDataset (p : SceneParser) (node : Json) :
    Except Failure (GeometryDataset × SceneParser) := do
  let (provider, p) ← p.parseProvider (← node.get "source")
  let hasTransforms ← node.isMember "transforms"
  let transforms ←
    (if hasTransforms then do
      p.parseTransforms (← node.get "transforms").elems
    else
      pure [])
  let hasColor ← node.isMember "color"
  let color ←
    (if hasColor then do
      pure (some (← parseColor (← node.get "color")))
    else
      pure none)
  pure (⟨provider, transforms, color⟩, p)

/-- Embedding of `SceneParser::parseGeometryNode`. -/
def parseGeometryNode (p : SceneParser) (node : Json) :
    Except Failure (SceneNode × SceneParser) := do
  let p := { p with m_nodeName := ← (← node.get "name").asString }
  let visibility ← parseVisibility node
  let (dataset, p) ← p.parseGeometryDataset (← node.get "dataset")
  pure (.geometry p.m_nodeName visibility dataset, p)

/-- Embedding of `SceneParser::parseVolumeDataset`. -/
def parseVolumeDataset (p : SceneParser) (node : Json) :
    Except Failure (VolumeDataset × SceneParser) := do
  let (provider, p) ← p.parseProvider (← node.get "source")
  pure (⟨provider⟩, p)

/-- Embedding of `SceneParser::parseTransferFunction`. -/
def parseTransferFunction (p : SceneParser) (node : Json) :
    Except Failure (TransferFunction × SceneParser) := do
  let (provider, p) ← p.parseProvider (← node.get "source")
  pure (⟨some provider⟩, p)

/-- Embedding of `SceneParser::parseVolumeNode`. -/
def parseVolumeNode (p : SceneParser) (node : Json) :
    Except Failure (SceneNode × SceneParser) := do
  let p := { p with m_nodeName := ← (← node.get "name").asString }
  let visibility ← parseVisibility node
  let (dataset, p) ← p.parseVolumeDataset (← node.get "dataset")
  let hasTf ← node.isMember "tf"
  let (tf, p) ←
    (if hasTf then do
      p.parseTransferFunction (← node.get "tf")
    else
      pure (⟨none⟩, p))
  pure (.volume p.m_nodeName visibility dataset tf, p)

/-- One round of the loop of `parseScene`: reset `m_varIndex`, dispatch on the `type`. -/
def parseSceneNode (p : SceneParser) (sceneNode : Json) :
    Except Failure (SceneNode × SceneParser) := do
  let p := { p with m_varIndex := 0 }
  let type ← (← sceneNode.get "type").asString
  (if type == "geometry" then
    p.parseGeometryNode sceneNode
  else if type == "volume" then
    p.parseVolumeNode sceneNode
  else
    .error (.error ("Invalid node type: " ++ type)))

/-- The loop of `parseScene` over the entries of `m_root["scene"]`. -/
def parseSceneNodes (p : SceneParser) : List Json → Except Failure (List SceneNode × SceneParser)
  | [] => .ok ([], p)
  | sceneNode :: rest =>
    match p.parseSceneNode sceneNode with
    | .ok (node, p) =>
      match parseSceneNodes p rest with
      | .ok (nodes, p) => .ok (node :: nodes, p)
      | .error e => .error e
    | .error e => .error e

/-- Embedding of `SceneParser::parseScene`. The variable registry is moved into the scene,
which leaves the parser with an empty one. -/
def parseScene (p : SceneParser) : Except Failure (Scene × SceneParser) := do
  let metadata ← parseMetadata p.m_root
  let p := { p with m_sceneName := metadata.name }
  let hasUrl ← p.m_root.isMember "webViewURL"
  let url ←
    (if hasUrl then do
      (← p.m_root.get "webViewURL").asString
    else
      pure "")
  let sceneJson ← p.m_root.get "scene"
  let (nodes, p) ← p.parseSceneNodes sceneJson.elems
  pure (⟨metadata, nodes, p.m_variables, url⟩, { p with m_variables := [] })

end SceneParser

/-- Construct a parser for `root` and run `parseScene` on it. -/
def parseDescription (root : Json) : Except Failure Scene := do
  let parser ← SceneParser.new root
  let (scene, _) ← parser.parseScene
  pure scene

/-! ## Initial view parameters and `SceneLoaderImpl` -/

/-- Embedding of `enum CoordinateAxis`. -/
inductive CoordinateAxis where
  | X_Axis
  | Y_Axis
  | Z_Axis
deriving DecidableEq, Repr

/-- Embedding of `RenderParameters3D(translation, rotation)`. -/
structure RenderParameters3D where
  translation : Vec3f
  rotation : Mat4f
deriving DecidableEq, Repr

/-- Embedding of `SliderParameter(slice, depth)`. -/
structure SliderParameter where
  slice : Flt
  depth : Flt
deriving DecidableEq, Repr

/-- Embedding of `RenderParameters2D(translation, rotation, zoom, axis, sliderParameter)`. -/
structure RenderParameters2D where
  translation : Vec2f
  rotationAngle : Flt
  zoom : Flt
  axis : CoordinateAxis
  sliderParameter : SliderParameter
deriving DecidableEq, Repr

/-- Embedding of `Mat4f()`, the identity matrix. -/
def Mat4f.identity : Mat4f :=
  ⟨[1, 0, 0, 0, 0, 1, 0, 0, 0, 0, 1, 0, 0, 0, 0, 1]⟩

namespace SceneParser

/-- Embedding of `SceneParser::initialParameters3D`; `none` is the empty `Nullable`. -/
def initialParameters3D (p : SceneParser) : Except Failure (Option RenderParameters3D) := do
  let hasView ← p.m_root.isMember "initialView"
  let present ←
    (if hasView then do
      (← p.m_root.get "initialView").isMember "3d"
    else
      pure false)
  if present then
    let node ← (← p.m_root.get "initialView").get "3d"
    let translation ← parseVector3 (← node.get "translation")
    let rotation ← p.parseTransform (← node.get "rotation")
    pure (some ⟨translation, rotation⟩)
  else
    pure none

/-- Embedding of `SceneParser::initialParameters2D`. The table behind
`coordinateAxisMapper().getBySecond` is not part of these sources and is the parameter `axisOf`. -/
def initialParameters2D (axisOf : String → Except Failure CoordinateAxis) (p : SceneParser) :
    Except Failure (Option RenderParameters2D) := do
  let hasView ← p.m_root.isMember "initialView"
  let present ←
    (if hasView then do
      (← p.m_root.get "initialView").isMember "2d"
    else
      pure false)
  if present then
    let node ← (← p.m_root.get "initialView").get "2d"
    let translation ← parseVector2 (← node.get "translation")
    let rotation ← (← node.get "rotation").asFloat
    let zoom ← (← node.get "zoom").asFloat
    let axis ← axisOf (← (← node.get "axis").asString)
    let depth ← (← node.get "depth").asFloat
    let sliderParameter : SliderParameter := ⟨0, depth⟩
    pure (some ⟨translation, rotation, zoom, axis, sliderParameter⟩)
  else
    pure none

end SceneParser

/-- A scene controller, as the scene and the initial parameters it was created from. -/
structure SceneController2D where
  scene : Scene
  initialParameters : RenderParameters2D
deriving DecidableEq, Repr

/-- A scene controller, as the scene and the initial parameters it was created from. -/
structure SceneController3D where
  scene : Scene
  initialParameters : RenderParameters3D
deriving DecidableEq, Repr

/-- The data members of `SceneLoaderImpl` that `loadScene` and `unloadScene` write; `none` is
a null pointer. -/
structure SceneLoaderImpl where
  m_scene : Option Scene
  m_initialParameters2D : RenderParameters2D
  m_initialParameters3D : RenderParameters3D
  m_sceneController2D : Option SceneController2D
  m_sceneController3D : Option SceneController3D
deriving DecidableEq, Repr

namespace SceneLoaderImpl

/-- The body of the loop of `loadScene` once the description named `name` is found: every
assignment takes effect in turn, and an exception leaves the loader as it is at that point. -/
def loadFound (axisOf : String → Except Failure CoordinateAxis) (default2D : RenderParameters2D)
    (l : SceneLoaderImpl) (parser : SceneParser) : Except Failure Unit × SceneLoaderImpl :=
  match parser.parseScene with
  | .error e => (.error e, l)
  | .ok (scene, parser) =>
    let l := { l with m_scene := some scene }
    let default3D : RenderParameters3D := ⟨⟨0, 0, -3⟩, Mat4f.identity⟩
    match parser.initialParameters3D with
    | .error e => (.error e, l)
    | .ok parameters3D =>
      let l := { l with m_initialParameters3D := parameters3D.getD default3D }
      match parser.initialParameters2D axisOf with
      | .error e => (.error e, l)
      | .ok parameters2D =>
        let l := { l with m_initialParameters2D := parameters2D.getD default2D }
        let l := { l with m_sceneController2D := none }
        let l := { l with m_sceneController3D := none }
        (.ok (), l)

/-- The loop of `loadScene` over the descriptions the server lists. -/
def loadSceneLoop (axisOf : String → Except Failure CoordinateAxis)
    (default2D : RenderParameters2D) (l : SceneLoaderImpl) (name : String) :
    List Json → Except Failure Unit × SceneLoaderImpl
  | [] => (.error (.error ("Scene named \x27" ++ name ++ "\x27 does not exist")), l)
  | description :: rest =>
    match SceneParser.new description with
    | .error e => (.error e, l)
    | .ok parser =>
      match parseMetadata description with
      | .error e => (.error e, l)
      | .ok metadata =>
        if metadata.name == name then
          loadFound axisOf default2D l parser
        else
          loadSceneLoop axisOf default2D l name rest

/-- Embedding of `SceneLoaderImpl::loadScene(name)`. `root` is the answer of the server to
`listScenes`, `default2D` is `RenderParameters2D()`. The result pairs the outcome of the call
(`.error` for a thrown exception) with the loader after it. -/
def loadScene (axisOf : String → Except Failure CoordinateAxis) (default2D : RenderParameters2D)
    (l : SceneLoaderImpl) (root : Json) (name : String) : Except Failure Unit × SceneLoaderImpl :=
  loadSceneLoop axisOf default2D l name root.elems

/-- Embedding of `SceneLoaderImpl::unloadScene`. -/
def unloadScene (l : SceneLoaderImpl) : SceneLoaderImpl :=
  { l with m_scene := none, m_sceneController2D := none, m_sceneController3D := none }

/-- Embedding of `SceneLoaderImpl::isSceneLoaded`. -/
def isSceneLoaded (l : SceneLoaderImpl) : Bool :=
  l.m_scene.isSome

/-- Embedding of `SceneLoaderImpl::metadata`. -/
def metadata (l : SceneLoaderImpl) : Except Failure SceneMetadata :=
  match l.m_scene with
  | some scene => .ok scene.m_metadata
  | none => .error (.error "No scene loaded")

/-- Embedding of `SceneLoaderImpl::webViewURL`. -/
def webViewURL (l : SceneLoaderImpl) : Except Failure String :=
  match l.m_scene with
  | some scene => .ok scene.m_webViewURL
  | none => .error (.error "No scene loaded")

end SceneLoaderImpl

/-! ## `Scene`: the variable map of a view and variable edits -/

/-- The entry of a name in a variable map, empty when the map has no such key (what
`result[name]` is when it is first touched). -/
def entryOf (m : Map Variables) (name : String) : Variables :=
  (m.find? name).getD ⟨[], []⟩

/-- Embedding of `result[name].floatVariables.push_back(var)`. -/
def pushFloat (name : String) (result : Map Variables) (var : FloatVariable) : Map Variables :=
  Map.insert name
    ⟨(entryOf result name).floatVariables ++ [var], (entryOf result name).enumVariables⟩ result

/-- Embedding of `result[name].enumVariables.push_back(var)`. -/
def pushEnum (name : String) (result : Map Variables) (var : EnumVariable) : Map Variables :=
  Map.insert name
    ⟨(entryOf result name).floatVariables, (entryOf result name).enumVariables ++ [var]⟩ result

/-- The position `mocca::findMemberEqual(begin, end, member, value)` returns: the first element
whose member equals `value`, `none` standing for `end`. -/
def findMemberEqual {α : Type} (member : α → String) (value : String) : List α → Option Nat
  | [] => none
  | x :: rest =>
    if member x = value then some 0
    else (findMemberEqual member value rest).map (· + 1)

/-- The assignment `it->value = ...` through an iterator at position `i`. -/
def assignAt {α : Type} (f : α → α) : Nat → List α → List α
  | _, [] => []
  | 0, x :: rest => f x :: rest
  | i + 1, x :: rest => x :: assignAt f i rest

/-- The provider with another content of the `Variables` object it points to; a download
provider holds no such pointer. -/
def DataProvider.withVariables (vars : Variables) : DataProvider → DataProvider
  | .download sceneName fileName => .download sceneName fileName
  | .python sceneName fileName _ => .python sceneName fileName vars

/-- The provider that the last run of `parseProvider` for the node has made: the one of the
transfer function when the node has one, the one of the dataset otherwise. -/
def SceneNode.lastProvider : SceneNode → DataProvider
  | .geometry _ _ dataset => dataset.provider
  | .volume _ _ dataset tf => tf.provider.getD dataset.provider

/-- The node, with the content `vars` in the `Variables` object that its last provider points
to. -/
def SceneNode.withShared (vars : Variables) : SceneNode → SceneNode
  | .geometry name visibility dataset =>
    .geometry name visibility { dataset with provider := dataset.provider.withVariables vars }
  | .volume name visibility dataset tf =>
    match tf.provider with
    | some provider => .volume name visibility dataset ⟨some (provider.withVariables vars)⟩
    | none => .volume name visibility ⟨dataset.provider.withVariables vars⟩ tf

/-- What a write through the pointer `m_variables[name]` does to the nodes. The `Variables`
object registered under a name is the one that the last run of `parseProvider` under that name
has made (`m_variables[m_nodeName] = std::make_shared<Variables>()` replaces any earlier one),
and `parsePython` hands that same pointer to the `PythonProvider` it creates. So the object is
shared with the last provider of the last node of that name, when that provider is a python
provider, and with no other provider; the embedding keeps the content of the object in the
registry and in that provider, and a write reaches both. -/
def writeThrough (name : String) (vars : Variables) : List SceneNode → List SceneNode
  | [] => []
  | node :: rest =>
    if rest.any (fun n => n.name == name) then
      node :: writeThrough name vars rest
    else if node.name == name then
      node.withShared vars :: rest
    else
      node :: rest

/-- The value handed to `Scene::setVariable`: the `float` overload or the `std::string`
overload. -/
inductive VariableValue where
  | float (value : Flt)
  | string (value : String)
deriving DecidableEq, Repr

namespace Scene

/-- The loop of `Scene::variableMap` over the nodes. `isVisibleInView` is a member of `SceneNode`
that is not part of these sources and is a parameter. `m_variables[name]` is a null pointer
when the registry has no entry for the name, and dereferencing it is a fault. -/
def variableMapLoop {View : Type} (isVisibleInView : SceneNode → View → Bool)
    (registry : Map Variables) (view : View) :
    List SceneNode → Map Variables → Except Failure (Map Variables)
  | [], result => .ok result
  | node :: rest, result =>
    if isVisibleInView node view then
      match registry.find? node.name with
      | some vars =>
        let result := vars.floatVariables.foldl (pushFloat node.name) result
        let result := vars.enumVariables.foldl (pushEnum node.name) result
        variableMapLoop isVisibleInView registry view rest result
      | none => .error (.fault "no Variables object for the node")
    else
      variableMapLoop isVisibleInView registry view rest result

/-- Embedding of `Scene::variableMap(view)`. -/
def variableMap {View : Type} (isVisibleInView : SceneNode → View → Bool) (s : Scene)
    (view : View) : Except Failure (Map Variables) :=
  variableMapLoop isVisibleInView s.m_variables view s.m_nodes []

/-- Embedding of the two overloads of `Scene::setVariable(objectName, variableName, value)`.
A failed `assert` is a fault; the result pairs the outcome of the call with the scene after
it. The assignment `it->value = value` goes through the shared pointer
`m_variables[objectName]`: the registry entry has the new content, and so has the python
provider that holds the same object (`writeThrough`). -/
def setVariable (s : Scene) (objectName variableName : String) (value : VariableValue) :
    Except Failure Unit × Scene :=
  match s.m_variables.find? objectName with
  | none => (.error (.fault "assert(m_variables.count(objectName) != 0)"), s)
  | some vars =>
    match value with
    | .float x =>
      match findMemberEqual FloatVariable.name variableName vars.floatVariables with
      | none => (.error (.fault "assert(it != end(vars))"), s)
      | some i =>
        let floats := assignAt (fun v => { v with value := x }) i vars.floatVariables
        let written : Variables := ⟨floats, vars.enumVariables⟩
        let registry := Map.insert objectName written s.m_variables
        let nodes := writeThrough objectName written s.m_nodes
        (.ok (), { s with m_nodes := nodes, m_variables := registry })
    | .string t =>
      match findMemberEqual EnumVariable.name variableName vars.enumVariables with
      | none => (.error (.fault "assert(it != end(vars))"), s)
      | some i =>
        let enums := assignAt (fun v => { v with value := t }) i vars.enumVariables
        let written : Variables := ⟨vars.floatVariables, enums⟩
        let registry := Map.insert objectName written s.m_variables
        let nodes := writeThrough objectName written s.m_nodes
        (.ok (), { s with m_nodes := nodes, m_variables := registry })

end Scene

/-! ## `GeometryDataset`: transparent primitives back to front -/

/-- Embedding of `G3D::PrimitiveType`; `other` stands for any type but the three that
`permuteIndicesTransparent` handles. -/
inductive PrimitiveType where
  | Point
  | Line
  | Triangle
  | other
deriving DecidableEq, Repr

/-- The members of `GeometryDataset` that `indicesTransparentSorted` reads once `readData` has
filled them: the primitive type of `m_geometry->info`, the index buffer of the transparent
primitives and their centroids. -/
structure LoadedGeometry where
  primitiveType : PrimitiveType
  m_indicesTransparent : List Nat
  m_centroids : List Vec3f
deriving DecidableEq, Repr

/-- Whether `2 ^ e ≤ n / d`, for a denominator `d` that is not zero. -/
def reachesTwoPow (n d : Nat) (e : Int) : Bool :=
  if e < 0 then decide (d ≤ n * 2 ^ (-e).toNat) else decide (d * 2 ^ e.toNat ≤ n)

/-- The exponent `e` with `2 ^ e ≤ n / d < 2 ^ (e + 1)`, searched by bisection between `lo` and
`hi`, where `2 ^ lo ≤ n / d < 2 ^ hi`; nine rounds settle the range from -150 to 128. -/
def binaryExponent (n d : Nat) : Nat → Int → Int → Int
  | 0, lo, _ => lo
  | fuel + 1, lo, hi =>
    if hi - lo ≤ 1 then lo
    else
      let mid := (lo + hi) / 2
      if reachesTwoPow n d mid then binaryExponent n d fuel mid hi
      else binaryExponent n d fuel lo mid

/-- The value of type `float` (IEEE 754 binary32: 24 significant bits, exponents of the leading
bit from -126 to 127, subnormal numbers below) that an exact result is rounded to, to the
nearest float and to the one with the even last bit at a tie. A magnitude that rounds beyond
the largest float gives infinity, for which `2 ^ 128` stands here; a magnitude of at most
`2 ^ (-150)` gives zero. -/
def roundToFloat (q : Flt) : Flt :=
  let n := q.num.natAbs
  let d := q.den
  if reachesTwoPow n d 128 then (if q.num < 0 then -mkRat (2 ^ 128) 1 else mkRat (2 ^ 128) 1)
  else if !reachesTwoPow n d (-150) then 0
  else
    let e : Int := binaryExponent n d 9 (-150) 128
    let k : Int := max e (-126) - 23
    let num : Nat := if k < 0 then n * 2 ^ (-k).toNat else n
    let den : Nat := if k < 0 then d else d * 2 ^ k.toNat
    let m : Nat := num / den
    let r : Nat := num % den
    let m : Nat :=
      if 2 * r < den then m else if den < 2 * r then m + 1 else if m % 2 = 0 then m else m + 1
    let magnitude : Flt :=
      if k < 0 then mkRat m (2 ^ (-k).toNat) else mkRat (m * 2 ^ k.toNat) 1
    let magnitude : Flt :=
      if mkRat (2 ^ 128) 1 ≤ magnitude then mkRat (2 ^ 128) 1 else magnitude
    if q.num < 0 then -magnitude else magnitude

/-- Modelled from the spec: `operator-` of `IVDA::Vec3f` (`IVDA/Vectors.h` is outside these
sources), the difference of two vectors component by component. The components are of type
`float`, so each difference is rounded to a float. -/
def Vec3f.sub (a b : Vec3f) : Vec3f :=
  ⟨roundToFloat (a.x - b.x), roundToFloat (a.y - b.y), roundToFloat (a.z - b.z)⟩

/-- Modelled from the spec: `Vec3f::sqLength()` of IVDA (`IVDA/Vectors.h` is outside these
sources), the squared length `x*x + y*y + z*z` of a vector. The arithmetic is that of `float`:
each product and each of the two sums, taken from left to right, is rounded to a float. With
finite components no operation meets an undefined case (infinity minus infinity, zero times
infinity), so no NaN arises. -/
def Vec3f.sqLength (a : Vec3f) : Flt :=
  roundToFloat
    (roundToFloat (roundToFloat (a.x * a.x) + roundToFloat (a.y * a.y))
      + roundToFloat (a.z * a.z))

/-- The block of `N` consecutive indices that primitive `q` occupies in an index buffer. -/
def block (N : Nat) (buffer : List Nat) (q : Nat) : List Nat :=
  (buffer.drop (q * N)).take N

/-- Modelled from the spec: `applyPermutation<N>(permutation, source, target)`, a member template
of `GeometryDataset` that is declared outside these sources. It re-expands the permutation of
the primitives into the order of the index buffer, honouring the arity `N` (1 index per point,
2 per line, 3 per triangle): the blocks of the primitives `permutation[0]`, `permutation[1]`,
... of `source` are written one after the other to the front of `target`. -/
def applyPermutation (N : Nat) (permutation source target : List Nat) : List Nat :=
  let written := permutation.flatMap (block N source)
  written.take target.length ++ target.drop written.length

namespace LoadedGeometry

/-- The lambda `sorter` of `indicesTransparentSorted`: the primitive `index1` goes before
`index2` when the squared distance of its centroid to the eye, computed and stored as a
`float` (`dist1`, `dist2`), is the greater one. -/
def sorter (g : LoadedGeometry) (transformedEyePos : Vec3f) (index1 index2 : Nat) : Bool :=
  let dist1 := ((g.m_centroids.getD index1 ⟨0, 0, 0⟩).sub transformedEyePos).sqLength
  let dist2 := ((g.m_centroids.getD index2 ⟨0, 0, 0⟩).sub transformedEyePos).sqLength
  decide (dist1 > dist2)

/-- Embedding of `GeometryDataset::permuteIndicesTransparent`. -/
def permuteIndicesTransparent (g : LoadedGeometry) (permutation : List Nat) : List Nat :=
  let result := List.replicate g.m_indicesTransparent.length 0
  match g.primitiveType with
  | .Point => applyPermutation 1 permutation g.m_indicesTransparent result
  | .Line => applyPermutation 2 permutation g.m_indicesTransparent result
  | .Triangle => applyPermutation 3 permutation g.m_indicesTransparent result
  | .other => result

/-- Embedding of `GeometryDataset::indicesTransparentSorted(mvp)`. Two library parts are
parameters: `sort` is `std::sort` (it receives the comparison and the range), and
`objectSpaceEye` is the computation `(Vec4f(0, 0, 0, 1) * mvp.inverse()).dehomo()` of the eye
position in object space. -/
def indicesTransparentSorted (sort : (Nat → Nat → Bool) → List Nat → List Nat)
    (objectSpaceEye : Mat4f → Vec3f) (g : LoadedGeometry) (mvp : Mat4f) : List Nat :=
  let transformedEyePos := objectSpaceEye mvp
  let permutation := List.range g.m_centroids.length
  let permutation := sort (g.sorter transformedEyePos) permutation
  g.permuteIndicesTransparent permutation

end LoadedGeometry

/-! ## `std::sort` as GNU libstdc++ implements it

The C++ standard leaves the order of equivalent elements open. The definitions of this section
follow the implementation of `std::sort` in libstdc++ (`bits/stl_algo.h` and `bits/stl_heap.h`
of GCC 12), function by function, so that a call can be evaluated the way a program built with
that library evaluates it. The range is a list, an iterator is a position in it; a position
outside the list, which the library never reads for a strict weak ordering, reads as 0. -/

/-- Embedding of `std::iter_swap`. -/
def iterSwap (a : List Nat) (i j : Nat) : List Nat :=
  (a.set i (a.getD j 0)).set j (a.getD i 0)

/-- Embedding of `std::__move_median_to_first(result, a, b, c, comp)`; the iterators `a`, `b`,
`c` are the positions `x`, `y`, `z`. -/
def moveMedianToFirst (comp : Nat → Nat → Bool) (a : List Nat) (result x y z : Nat) :
    List Nat :=
  let elem := fun i => a.getD i 0
  if comp (elem x) (elem y) then
    if comp (elem y) (elem z) then iterSwap a result y
    else if comp (elem x) (elem z) then iterSwap a result z
    else iterSwap a result x
  else if comp (elem x) (elem z) then iterSwap a result x
  else if comp (elem y) (elem z) then iterSwap a result z
  else iterSwap a result y

/-- Embedding of `std::__unguarded_linear_insert(last, comp)` with `val` the element taken out
at `last`. The loop of the library has no guard; here it runs `last` rounds at most and so
stops at the front of the list. -/
def unguardedLinearInsert (comp : Nat → Nat → Bool) (val : Nat) :
    Nat → List Nat → Nat → List Nat
  | 0, a, last => a.set last val
  | fuel + 1, a, last =>
    let next := last - 1
    if comp val (a.getD next 0) then
      unguardedLinearInsert comp val fuel (a.set last (a.getD next 0)) next
    else a.set last val

/-- The loop of `std::__insertion_sort(first, last, comp)` from the position `i`, for `count`
more elements. -/
def insertionSortLoop (comp : Nat → Nat → Bool) (first : Nat) : Nat → List Nat → Nat → List Nat
  | 0, a, _ => a
  | count + 1, a, i =>
    let val := a.getD i 0
    let a :=
      if comp val (a.getD first 0) then
        a.take first ++ val :: (a.drop first).take (i - first) ++ a.drop (i + 1)
      else unguardedLinearInsert comp val i a i
    insertionSortLoop comp first count a (i + 1)

/-- Embedding of `std::__insertion_sort(first, last, comp)`. -/
def insertionSort (comp : Nat → Nat → Bool) (a : List Nat) (first last : Nat) : List Nat :=
  if first = last then a else insertionSortLoop comp first (last - (first + 1)) a (first + 1)

/-- Embedding of `std::__unguarded_insertion_sort(first, last, comp)`: the loop from the
position `i`, for `count` more elements. -/
def unguardedInsertionSort (comp : Nat → Nat → Bool) : Nat → List Nat → Nat → List Nat
  | 0, a, _ => a
  | count + 1, a, i =>
    unguardedInsertionSort comp count (unguardedLinearInsert comp (a.getD i 0) i a i) (i + 1)

/-- Embedding of `std::__final_insertion_sort(first, last, comp)`, with `_S_threshold = 16`. -/
def finalInsertionSort (comp : Nat → Nat → Bool) (a : List Nat) (first last : Nat) : List Nat :=
  if last - first > 16 then
    unguardedInsertionSort comp (last - (first + 16)) (insertionSort comp a first (first + 16))
      (first + 16)
  else insertionSort comp a first last

/-- The loop `while (comp(first, pivot)) ++first;` of `std::__unguarded_partition`. -/
def skipForward (comp : Nat → Nat → Bool) (a : List Nat) (pivot : Nat) : Nat → Nat → Nat
  | 0, first => first
  | fuel + 1, first =>
    if comp (a.getD first 0) (a.getD pivot 0) then skipForward comp a pivot fuel (first + 1)
    else first

/-- The loop `while (comp(pivot, last)) --last;` of `std::__unguarded_partition`. -/
def skipBackward (comp : Nat → Nat → Bool) (a : List Nat) (pivot : Nat) : Nat → Nat → Nat
  | 0, last => last
  | fuel + 1, last =>
    if comp (a.getD pivot 0) (a.getD last 0) then skipBackward comp a pivot fuel (last - 1)
    else last

/-- Embedding of `std::__unguarded_partition(first, last, pivot, comp)`: the changed range and
the position returned. Every round but the last moves `first` forward, so the length of the
list bounds the rounds. -/
def unguardedPartition (comp : Nat → Nat → Bool) (pivot : Nat) :
    Nat → List Nat → Nat → Nat → List Nat × Nat
  | 0, a, first, _ => (a, first)
  | fuel + 1, a, first, last =>
    let first := skipForward comp a pivot a.length first
    let last := last - 1
    let last := skipBackward comp a pivot a.length last
    if first < last then
      unguardedPartition comp pivot fuel (iterSwap a first last) (first + 1) last
    else (a, first)

/-- Embedding of `std::__unguarded_partition_pivot(first, last, comp)`. -/
def unguardedPartitionPivot (comp : Nat → Nat → Bool) (a : List Nat) (first last : Nat) :
    List Nat × Nat :=
  let mid := first + (last - first) / 2
  let a := moveMedianToFirst comp a first (first + 1) mid (last - 1)
  unguardedPartition comp first a.length a (first + 1) last

/-- Embedding of `std::__push_heap(first, holeIndex, topIndex, value, comp)`. -/
def pushHeap (comp : Nat → Nat → Bool) (first topIndex value : Nat) :
    Nat → List Nat → Nat → List Nat
  | 0, a, holeIndex => a.set (first + holeIndex) value
  | fuel + 1, a, holeIndex =>
    let parent := (holeIndex - 1) / 2
    if holeIndex > topIndex && comp (a.getD (first + parent) 0) value then
      pushHeap comp first topIndex value fuel
        (a.set (first + holeIndex) (a.getD (first + parent) 0)) parent
    else a.set (first + holeIndex) value

/-- The first loop of `std::__adjust_heap`: the changed range, `holeIndex` and
`secondChild`. -/
def adjustHeapLoop (comp : Nat → Nat → Bool) (first len : Nat) :
    Nat → List Nat → Nat → Nat → List Nat × Nat × Nat
  | 0, a, holeIndex, secondChild => (a, holeIndex, secondChild)
  | fuel + 1, a, holeIndex, secondChild =>
    if secondChild < (len - 1) / 2 then
      let secondChild := 2 * (secondChild + 1)
      let secondChild :=
        if comp (a.getD (first + secondChild) 0) (a.getD (first + (secondChild - 1)) 0) then
          secondChild - 1
        else secondChild
      adjustHeapLoop comp first len fuel
        (a.set (first + holeIndex) (a.getD (first + secondChild) 0)) secondChild secondChild
    else (a, holeIndex, secondChild)

/-- Embedding of `std::__adjust_heap(first, holeIndex, len, value, comp)`. The lengths are
signed in the library; `2 ≤ len` keeps `(len - 2) / 2` from being taken of a smaller length. -/
def adjustHeap (comp : Nat → Nat → Bool) (a : List Nat) (first holeIndex len value : Nat) :
    List Nat :=
  let topIndex := holeIndex
  let (a, holeIndex, secondChild) := adjustHeapLoop comp first len len a holeIndex holeIndex
  if len % 2 = 0 ∧ 2 ≤ len ∧ secondChild = (len - 2) / 2 then
    let secondChild := 2 * (secondChild + 1)
    pushHeap comp first topIndex value len
      (a.set (first + holeIndex) (a.getD (first + (secondChild - 1)) 0)) (secondChild - 1)
  else pushHeap comp first topIndex value len a holeIndex

/-- Embedding of `std::__pop_heap(first, last, result, comp)`. -/
def popHeap (comp : Nat → Nat → Bool) (a : List Nat) (first last result : Nat) : List Nat :=
  let value := a.getD result 0
  adjustHeap comp (a.set result (a.getD first 0)) first 0 (last - first) value

/-- The loop of `std::__make_heap` from `parent` down to 0. -/
def makeHeapLoop (comp : Nat → Nat → Bool) (first len : Nat) : Nat → List Nat → List Nat
  | 0, a => adjustHeap comp a first 0 len (a.getD first 0)
  | parent + 1, a =>
    makeHeapLoop comp first len parent
      (adjustHeap comp a first (parent + 1) len (a.getD (first + (parent + 1)) 0))

/-- Embedding of `std::__make_heap(first, last, comp)`. -/
def makeHeap (comp : Nat → Nat → Bool) (a : List Nat) (first last : Nat) : List Nat :=
  if last - first < 2 then a
  else makeHeapLoop comp first (last - first) ((last - first - 2) / 2) a

/-- The loop of `std::__heap_select` from the position `i`, for `count` more elements. -/
def heapSelectLoop (comp : Nat → Nat → Bool) (first middle : Nat) :
    Nat → List Nat → Nat → List Nat
  | 0, a, _ => a
  | count + 1, a, i =>
    let a := if comp (a.getD i 0) (a.getD first 0) then popHeap comp a first middle i else a
    heapSelectLoop comp first middle count a (i + 1)

/-- Embedding of `std::__heap_select(first, middle, last, comp)`. -/
def heapSelect (comp : Nat → Nat → Bool) (a : List Nat) (first middle last : Nat) : List Nat :=
  heapSelectLoop comp first middle (last - middle) (makeHeap comp a first middle) middle

/-- Embedding of `std::__sort_heap(first, last, comp)`; every round takes one element off the
heap, so the length of the range bounds the rounds. -/
def sortHeap (comp : Nat → Nat → Bool) (first : Nat) : Nat → List Nat → Nat → List Nat
  | 0, a, _ => a
  | fuel + 1, a, last =>
    if last - first > 1 then
      sortHeap comp first fuel (popHeap comp a first (last - 1) (last - 1)) (last - 1)
    else a

/-- Embedding of `std::__partial_sort(first, middle, last, comp)`. -/
def partialSort (comp : Nat → Nat → Bool) (a : List Nat) (first middle last : Nat) : List Nat :=
  sortHeap comp first (middle - first) (heapSelect comp a first middle last) middle

/-- Embedding of `std::__introsort_loop(first, last, depth_limit, comp)`. Every round of the
loop of the library takes one off `depth_limit`, which is what the recursion follows here: the
call for the upper part and the next round for the lower part both run with the decreased
limit. -/
def introsortLoop (comp : Nat → Nat → Bool) : Nat → List Nat → Nat → Nat → List Nat
  | 0, a, first, last => if last - first > 16 then partialSort comp a first last last else a
  | depthLimit + 1, a, first, last =>
    if last - first > 16 then
      let (a, cut) := unguardedPartitionPivot comp a first last
      introsortLoop comp depthLimit (introsortLoop comp depthLimit a cut last) first cut
    else a

/-- Embedding of `std::sort(first, last, comp)` of libstdc++ on the whole list (`std::__sort`);
`std::__lg` is the binary logarithm, rounded down. -/
def stdSort (comp : Nat → Nat → Bool) (a : List Nat) : List Nat :=
  if a.length = 0 then a
  else
    finalInsertionSort comp (introsortLoop comp (Nat.log2 a.length * 2) a 0 a.length) 0
      a.length

/-! ## Notions the statements use -/

/-- Embedding of `node["type"].asString()`, the tag `parseScene` and `parseProvider` dispatch on. -/
def typeTag (node : Json) : Except Failure String := do
  (← node.get "type").asString

/-- Embedding of `node["name"].asString()`, the name a scene entry gives its node. -/
def entryName (node : Json) : Except Failure String := do
  (← node.get "name").asString

/-- The entries of the `variables` list of a source. -/
def sourceVariables (source : Json) : Except Failure (List Json) := do
  pure (← source.get "variables").elems

/-- The indices of the variables of a node, float variables first. -/
def Variables.indices (vars : Variables) : List Nat :=
  vars.floatVariables.map (fun v => v.info.index) ++ vars.enumVariables.map (fun v => v.info.index)

/-- The number of variables of a node. -/
def Variables.count (vars : Variables) : Nat :=
  vars.floatVariables.length + vars.enumVariables.length

/-- The variables carry exactly the indices `0 .. k-1`, and in each of the two vectors the
indices increase along the vector (which is the order of declaration). -/
def Numbered (vars : Variables) (k : Nat) : Prop :=
  (vars.floatVariables.map (fun v => v.info.index)).Pairwise (· < ·)
    ∧ (vars.enumVariables.map (fun v => v.info.index)).Pairwise (· < ·)
    ∧ vars.indices.Perm (List.range k)

instance (vars : Variables) (k : Nat) : Decidable (Numbered vars k) := by
  unfold Numbered; infer_instance

/-- The variables carry the indices `0 .. n-1` in declaration order, `n` being their number. -/
def IndexedFromZero (vars : Variables) : Prop :=
  Numbered vars vars.count

instance (vars : Variables) : Decidable (IndexedFromZero vars) := by
  unfold IndexedFromZero; infer_instance

/-- The entry of a `variables` list has the type tag `"float"` or `"enum"`. -/
def KnownVariableType (paramNode : Json) : Prop :=
  paramNode.get "type" = .ok (.str "float") ∨ paramNode.get "type" = .ok (.str "enum")

instance (paramNode : Json) : Decidable (KnownVariableType paramNode) := by
  unfold KnownVariableType; infer_instance

/-- The entries of the `variables` list of the dataset source of a scene entry (none when
the path to the list cannot be followed). -/
def datasetVariables (e : Json) : List Json :=
  match (do sourceVariables (← (← e.get "dataset").get "source")) with
  | .ok vs => vs
  | .error _ => []

/-- The parser `q` differs from `p` at most in the index counter and in the registry entry of
the node being parsed. -/
def Frame (p q : SceneParser) : Prop :=
  q.m_root = p.m_root ∧ q.m_sceneName = p.m_sceneName ∧ q.m_nodeName = p.m_nodeName
    ∧ q.m_transforms = p.m_transforms
    ∧ ∀ name, name ≠ p.m_nodeName → q.m_variables.find? name = p.m_variables.find? name

/-- The registry holds an entry for the node being parsed, numbered up to the counter. -/
def Registered (p : SceneParser) : Prop :=
  ∃ vars, p.m_variables.find? p.m_nodeName = some vars ∧ Numbered vars p.m_varIndex

/-- The source has one of the two tags `parseProvider` knows. -/
def KnownSource (source : Json) : Prop :=
  typeTag source = .ok "download" ∨ typeTag source = .ok "python"

instance (source : Json) : Decidable (KnownSource source) := by
  unfold KnownSource; infer_instance

/-- What a successful round of the loop of `parseScene` has established about the entry `e` and
the node made from it, for a parser with the transform table of `p`: name, visibility and kind
come from the entry, every source the round reads has a known tag, and every reference in the
`transforms` list of a geometry dataset has been resolved, in order. -/
def EntryParsed (p : SceneParser) (e : Json) (n : SceneNode) : Prop :=
  entryName e = .ok n.name ∧ parseVisibility e = .ok n.visibility
    ∧ ∃ datasetJson source, e.get "dataset" = .ok datasetJson
      ∧ datasetJson.get "source" = .ok source ∧ KnownSource source
      ∧ ((typeTag e = .ok "geometry"
            ∧ ∃ dataset transforms, n = .geometry n.name n.visibility dataset
              ∧ datasetJson.get "transforms" = .ok transforms
              ∧ List.Forall₂ (fun ref matrix => p.parseTransform ref = .ok matrix)
                  transforms.elems dataset.transforms)
          ∨ (typeTag e = .ok "volume" ∧ n.isGeometry = false
            ∧ (e.isMember "tf" = .ok true → ∃ tfJson tfSource, e.get "tf" = .ok tfJson
                ∧ tfJson.get "source" = .ok tfSource ∧ KnownSource tfSource)))

/-- The entry is not a volume node with a `tf` field, and every entry of the `variables` list
of its dataset source has a known type tag. -/
def PlainEntry (e : Json) : Prop :=
  ¬ (typeTag e = .ok "volume" ∧ e.isMember "tf" = .ok true)
    ∧ ∀ v ∈ datasetVariables e, KnownVariableType v

instance (e : Json) : Decidable (PlainEntry e) := by
  unfold PlainEntry; infer_instance

/-- What a round of the loop of `parseScene` leaves untouched: root, scene name and transform
table, and the registry entries of all names but the one of the node just parsed. -/
def RoundFrame (p q : SceneParser) (name : String) : Prop :=
  q.m_root = p.m_root ∧ q.m_sceneName = p.m_sceneName ∧ q.m_transforms = p.m_transforms
    ∧ ∀ other, other ≠ name → q.m_variables.find? other = p.m_variables.find? other

/-- The parser `p` with another root. -/
def withRoot (root : Json) (p : SceneParser) : SceneParser :=
  { p with m_root := root }

/-- The outcome `x` of a parse step, with another root in the parser it returns. -/
def liftRoot (root : Json) {α : Type} (x : Except Failure (α × SceneParser)) :
    Except Failure (α × SceneParser) :=
  match x with
  | .ok (a, q) => .ok (a, withRoot root q)
  | .error e => .error e

/-- The outcome `x` of a parse step that returns a parser only, with another root in it. -/
def liftRootOnly (root : Json) (x : Except Failure SceneParser) : Except Failure SceneParser :=
  match x with
  | .ok q => .ok (withRoot root q)
  | .error e => .error e

/-- The node with another visibility. -/
def SceneNode.withVisibility (visibility : Visibility) : SceneNode → SceneNode
  | .geometry name _ dataset => .geometry name visibility dataset
  | .volume name _ dataset tf => .volume name visibility dataset tf

/-- Two member lists hold the same member under every key but `view2d` and `view3d`. -/
def SameButViews (a b : List (String × Json)) : Prop :=
  ∀ key, key ≠ "view2d" → key ≠ "view3d" → a.lookup key = b.lookup key

/-- Two member lists hold the same member under every key but `scene`. -/
def SameButScene (a b : List (String × Json)) : Prop :=
  ∀ key, key ≠ "scene" → a.lookup key = b.lookup key

/-- The parser reads the same from the entries `e` and `e2` wherever it does not read the
view flags: type, name, dataset and `tf` agree. -/
def ReadsAlike (e e2 : Json) : Prop :=
  e.get "type" = e2.get "type" ∧ e.get "name" = e2.get "name"
    ∧ e.get "dataset" = e2.get "dataset" ∧ e.isMember "tf" = e2.isMember "tf"
    ∧ e.get "tf" = e2.get "tf"

/-- The number of indices per primitive: 1 for points, 2 for lines, 3 for triangles. -/
def arity : PrimitiveType → Option Nat
  | .Point => some 1
  | .Line => some 2
  | .Triangle => some 3
  | .other => none

/-- The squared distance of the centroid of primitive `q` to the eye position as the `float`
arithmetic of the code gives it: the three differences, their three squares and the two sums
from left to right, each rounded to a float. -/
def sqDistance (g : LoadedGeometry) (eye : Vec3f) (q : Nat) : Flt :=
  let c := g.m_centroids.getD q ⟨0, 0, 0⟩
  let dx := roundToFloat (c.x - eye.x)
  let dy := roundToFloat (c.y - eye.y)
  let dz := roundToFloat (c.z - eye.z)
  roundToFloat
    (roundToFloat (roundToFloat (dx * dx) + roundToFloat (dy * dy)) + roundToFloat (dz * dz))

/-- The exact squared distance of the centroid of primitive `q` to the eye position. -/
def exactSqDistance (g : LoadedGeometry) (eye : Vec3f) (q : Nat) : Flt :=
  let c := g.m_centroids.getD q ⟨0, 0, 0⟩
  (c.x - eye.x) * (c.x - eye.x) + (c.y - eye.y) * (c.y - eye.y)
    + (c.z - eye.z) * (c.z - eye.z)

/-- The comparison is a strict weak ordering, which is what `std::sort` requires of it. -/
def StrictWeakOrder (comp : Nat → Nat → Bool) : Prop :=
  (∀ a, comp a a = false)
    ∧ (∀ a b c, comp a b = true → comp b c = true → comp a c = true)
    ∧ ∀ a b c, comp a b = false → comp b c = false → comp a c = false

/-- What the C++ standard promises of `std::sort`: for a strict weak ordering the result is a
rearrangement of the range in which no element is ordered before an earlier one. The order
of equivalent elements is left open. -/
def SortsAsStdSort (sort : (Nat → Nat → Bool) → List Nat → List Nat) : Prop :=
  ∀ comp l, StrictWeakOrder comp
    → (sort comp l).Perm l ∧ (sort comp l).Pairwise (fun a b => comp b a = false)

/-- A sort that keeps equivalent elements in their order (insertion sort). -/
def keepingSort (comp : Nat → Nat → Bool) (l : List Nat) : List Nat :=
  List.insertionSort (fun a b => comp b a = false) l

/-- Embedding of `node[key].asFloat()`, the way `parseFloatVariable` reads a bound or the
default of a variable entry. -/
def declaredFloat (v : Json) (key : String) : Except Failure Flt := do
  (← v.get key).asFloat

/-- The allowed values of a variable entry, read the way `parseEnumVariable` reads them. -/
def declaredValues (v : Json) : Except Failure (List String) := do
  SceneParser.parseEnumValues (← v.get "values").elems

/-- Embedding of `node["defaultValue"].asString()` of `parseEnumVariable`. -/
def declaredDefault (v : Json) : Except Failure String := do
  (← v.get "defaultValue").asString

/-- The variable entry declares a default between its lower and its upper bound (this is asked
only where the three numbers can be read). -/
def FloatWithinBounds (v : Json) : Prop :=
  match declaredFloat v "lowerBound", declaredFloat v "upperBound",
    declaredFloat v "defaultValue" with
  | .ok lowerBound, .ok upperBound, .ok defaultValue =>
    lowerBound ≤ defaultValue ∧ defaultValue ≤ upperBound
  | _, _, _ => True

instance (v : Json) : Decidable (FloatWithinBounds v) := by
  unfold FloatWithinBounds; split <;> infer_instance

/-- The variable entry declares a default that is one of its allowed values (this is asked
only where the values and the default can be read). -/
def EnumDefaultAllowed (v : Json) : Prop :=
  match declaredValues v, declaredDefault v with
  | .ok values, .ok defaultValue => defaultValue ∈ values
  | _, _ => True

instance (v : Json) : Decidable (EnumDefaultAllowed v) := by
  unfold EnumDefaultAllowed; split <;> infer_instance

/-- The entry of a `variables` list declares a default that satisfies its own bounds (type
`"float"`) or its own set of allowed values (type `"enum"`). -/
def WellDeclared (v : Json) : Prop :=
  match v.get "type" with
  | .ok type =>
    if type.eqString "float" then FloatWithinBounds v
    else if type.eqString "enum" then EnumDefaultAllowed v
    else True
  | .error _ => True

instance (v : Json) : Decidable (WellDeclared v) := by
  unfold WellDeclared; split <;> infer_instance

/-- The entries of the `variables` list of the source of the `tf` field of a scene entry (none
when the path to the list cannot be followed). -/
def tfVariables (e : Json) : List Json :=
  match (do sourceVariables (← (← e.get "tf").get "source")) with
  | .ok vs => vs
  | .error _ => []

/-- The default of the float variable lies between its bounds, inclusive. -/
def FloatVariable.WithinBounds (v : FloatVariable) : Prop :=
  v.info.lowerBound ≤ v.value ∧ v.value ≤ v.info.upperBound

instance (v : FloatVariable) : Decidable v.WithinBounds := by
  unfold FloatVariable.WithinBounds; infer_instance

/-- The enum variable has a non-empty list of allowed values that contains its default. -/
def EnumVariable.DefaultAllowed (v : EnumVariable) : Prop :=
  v.info.values ≠ [] ∧ v.value ∈ v.info.values

instance (v : EnumVariable) : Decidable v.DefaultAllowed := by
  unfold EnumVariable.DefaultAllowed; infer_instance

/-- Every variable of the node satisfies its own bounds or allowed set. -/
def Variables.Valid (vars : Variables) : Prop :=
  (∀ v ∈ vars.floatVariables, v.WithinBounds) ∧ ∀ v ∈ vars.enumVariables, v.DefaultAllowed

instance (vars : Variables) : Decidable vars.Valid := by
  unfold Variables.Valid; infer_instance

/-- Every entry of the variable registry is valid. -/
def RegistryValid (m : Map Variables) : Prop :=
  ∀ name vars, m.find? name = some vars → vars.Valid

/-- The variables carry exactly the indices `start .. start + n - 1`, and in each of the two
vectors the indices increase along the vector. -/
def NumberedFrom (vars : Variables) (start n : Nat) : Prop :=
  (vars.floatVariables.map (fun v => v.info.index)).Pairwise (· < ·)
    ∧ (vars.enumVariables.map (fun v => v.info.index)).Pairwise (· < ·)
    ∧ vars.indices.Perm (List.range' start n)

instance (vars : Variables) (start n : Nat) : Decidable (NumberedFrom vars start n) := by
  unfold NumberedFrom; infer_instance

/-- The registry holds an entry for the node being parsed whose variables are numbered from
`start` up to the counter. -/
def RegisteredFrom (start : Nat) (p : SceneParser) : Prop :=
  ∃ vars n, p.m_variables.find? p.m_nodeName = some vars ∧ p.m_varIndex = start + n
    ∧ NumberedFrom vars start n

/-- The entries of the `variables` list that `parseProvider` parses for a source: those of a
python source; the list of a download source is not read. -/
def variablesRead (source : Json) : List Json :=
  if typeTag source = .ok "python" then
    match sourceVariables source with
    | .ok vs => vs
    | .error _ => []
  else
    []

/-- The description can be loaded on its own: the parser can be constructed, the metadata and
the scene can be parsed, and so can the initial parameters of both views. -/
def wellFormed (axisOf : String → Except Failure CoordinateAxis) (description : Json) : Bool :=
  match SceneParser.new description, parseMetadata description with
  | .ok parser, .ok _ =>
    match parser.parseScene with
    | .ok (_, parser) =>
      match parser.initialParameters3D, parser.initialParameters2D axisOf with
      | .ok _, .ok _ => true
      | _, _ => false
    | .error _ => false
  | _, _ => false

/-- The metadata name of the description is `name`. -/
def IsNamed (name : String) (description : Json) : Prop :=
  (parseMetadata description).map SceneMetadata.name = .ok name

instance (name : String) (description : Json) : Decidable (IsNamed name description) := by
  unfold IsNamed; infer_instance

/-- Two member lists hold the same member under every key but `dataset`. -/
def SameButDataset (a b : List (String × Json)) : Prop :=
  ∀ key, key ≠ "dataset" → a.lookup key = b.lookup key

/-- Two member lists hold the same member under every key but `transforms` and `color`. -/
def SameButTransformsAndColor (a b : List (String × Json)) : Prop :=
  ∀ key, key ≠ "transforms" → key ≠ "color" → a.lookup key = b.lookup key

/-- The number of nodes of the list that are visible in the view and named `key`. -/
def visibleCount {View : Type} (isVisibleInView : SceneNode → View → Bool) (view : View)
    (key : String) (nodes : List SceneNode) : Nat :=
  ((nodes.filter (fun n => isVisibleInView n view)).map SceneNode.name).count key

/-- The node without the contents of the `Variables` objects its providers point to: name,
visibility, kind, scene and file names of the providers, transforms and colour. -/
def SceneNode.skeleton : SceneNode → SceneNode
  | .geometry name visibility dataset =>
    .geometry name visibility
      { dataset with provider := dataset.provider.withVariables ⟨[], []⟩ }
  | .volume name visibility dataset tf =>
    .volume name visibility ⟨dataset.provider.withVariables ⟨[], []⟩⟩
      ⟨tf.provider.map (DataProvider.withVariables ⟨[], []⟩)⟩

/-! ## Example descriptions -/

/-- A JSON integer. -/
def Json.int (text : String) (value : Int) : Json :=
  .num ⟨text, value⟩

/-- A float variable entry with bounds 0 and 1, step 1 and default 0. -/
def floatEntry (name : String) : Json :=
  .obj [("type", .str "float"), ("name", .str name), ("lowerBound", .int "0" 0),
    ("upperBound", .int "1" 1), ("stepSize", .int "1" 1), ("defaultValue", .int "0" 0)]

/-- A python source declaring the given variable entries. -/
def pythonSource (fileName : String) (entries : List Json) : Json :=
  .obj [("type", .str "python"), ("filename", .str fileName), ("variables", .arr entries)]

/-- A download source. -/
def downloadSource (fileName : String) : Json :=
  .obj [("type", .str "download"), ("filename", .str fileName)]

/-- The members of a description named `demo` with the given scene entries and no other
top-level field. -/
def demoMembers (entries : List Json) : List (String × Json) :=
  [("metadata", .obj [("name", .str "demo"), ("description", .str "")]),
    ("scene", .arr entries)]

/-- A description named `demo` with the given scene entries and no other top-level field. -/
def demoScene (entries : List Json) : Json :=
  .obj (demoMembers entries)

/-- One volume node whose dataset and transfer function both come from a python source with
one float variable each. -/
def volumeWithTwoSources : Json :=
  demoScene [.obj [("type", .str "volume"), ("name", .str "v"),
    ("dataset", .obj [("source", pythonSource "d.py" [floatEntry "x"])]),
    ("tf", .obj [("source", pythonSource "tf.py" [floatEntry "y"])])]]

/-- A geometry entry named `a` with a float and an enum variable. -/
def geometryEntryA : Json :=
  .obj [("type", .str "geometry"), ("name", .str "a"),
    ("dataset", .obj [("source", pythonSource "a.py"
      [floatEntry "x", .obj [("type", .str "enum"), ("name", .str "mode"),
        ("values", .arr [.str "on", .str "off"]), ("defaultValue", .str "on")]])])]

/-- A geometry entry named `b` with one float variable. -/
def geometryEntryB : Json :=
  .obj [("type", .str "geometry"), ("name", .str "b"),
    ("dataset", .obj [("source", pythonSource "b.py" [floatEntry "y"])])]

/-- The description with the two geometry entries `a` and `b`. -/
def twoGeometryNodes : Json :=
  demoScene [geometryEntryA, geometryEntryB]

/-- The scene `parseScene` makes from `twoGeometryNodes`. -/
def twoGeometryNodesScene : Scene :=
  { m_metadata := ⟨"demo", ""⟩,
    m_nodes :=
      [.geometry "a" .VisibleBoth ⟨.python "demo" "a.py"
          ⟨[⟨"x", none, ⟨0, 0, 1, 1⟩, 0⟩], [⟨"mode", none, ⟨1, ["on", "off"]⟩, "on"⟩]⟩, [], none⟩,
       .geometry "b" .VisibleBoth ⟨.python "demo" "b.py"
          ⟨[⟨"y", none, ⟨0, 0, 1, 1⟩, 0⟩], []⟩, [], none⟩],
    m_variables :=
      [("a", ⟨[⟨"x", none, ⟨0, 0, 1, 1⟩, 0⟩], [⟨"mode", none, ⟨1, ["on", "off"]⟩, "on"⟩]⟩),
       ("b", ⟨[⟨"y", none, ⟨0, 0, 1, 1⟩, 0⟩], []⟩)],
    m_webViewURL := "" }

/-- A volume entry named `v`, downloaded, without transfer function. -/
def plainVolume : Json :=
  .obj [("type", .str "volume"), ("name", .str "v"),
    ("dataset", .obj [("source", downloadSource "v.i3m")])]

/-- The sixteen numbers of the identity matrix. -/
def identityJson : Json :=
  .arr [.int "1" 1, .int "0" 0, .int "0" 0, .int "0" 0, .int "0" 0, .int "1" 1, .int "0" 0,
    .int "0" 0, .int "0" 0, .int "0" 0, .int "1" 1, .int "0" 0, .int "0" 0, .int "0" 0,
    .int "0" 0, .int "1" 1]

/-- An array of fifteen numbers. -/
def fifteenJson : Json :=
  .arr (List.replicate 15 (.int "0" 0))

/-- A geometry entry named `g`, downloaded, with the given `transforms` list. -/
def geometryWithTransforms (refs : List Json) : Json :=
  .obj [("type", .str "geometry"), ("name", .str "g"),
    ("dataset", .obj [("source", downloadSource "g.g3d"), ("transforms", .arr refs)])]

/-- A description that declares the transform `unit` and has a volume node followed by a
geometry node that refers to `unit` by name. -/
def namedTransformScene : Json :=
  .obj [("metadata", .obj [("name", .str "demo"), ("description", .str "")]),
    ("transforms", .obj [("unit", identityJson)]),
    ("scene", .arr [plainVolume, geometryWithTransforms [.str "unit"]])]

/-- The parser the constructor returns for `namedTransformScene`. -/
def namedTransformParser : SceneParser :=
  { m_root := namedTransformScene, m_sceneName := "", m_nodeName := "", m_varIndex := 0,
    m_variables := [], m_transforms := [("unit", Mat4f.identity)] }

/-- The scene `parseScene` makes from `namedTransformScene`. -/
def namedTransformResult : Scene :=
  { m_metadata := ⟨"demo", ""⟩,
    m_nodes :=
      [.volume "v" .VisibleBoth ⟨.download "demo" "v.i3m"⟩ ⟨none⟩,
       .geometry "g" .VisibleBoth ⟨.download "demo" "g.g3d", [Mat4f.identity], none⟩],
    m_variables := [("v", ⟨[], []⟩), ("g", ⟨[], []⟩)],
    m_webViewURL := "" }

/-- A description without a `transforms` table whose geometry node refers to the transform
`missing`. -/
def danglingReferenceScene : Json :=
  demoScene [geometryWithTransforms [.str "missing"]]

/-- The parser the constructor returns for `danglingReferenceScene`. -/
def danglingReferenceParser : SceneParser :=
  { m_root := danglingReferenceScene, m_sceneName := "", m_nodeName := "", m_varIndex := 0,
    m_variables := [], m_transforms := [] }

/-- A description whose `transforms` table declares `short` with fifteen numbers. -/
def shortTableScene : Json :=
  .obj [("metadata", .obj [("name", .str "demo"), ("description", .str "")]),
    ("transforms", .obj [("short", fifteenJson)]),
    ("scene", .arr [])]

/-- A description whose geometry node has an inline matrix of fifteen numbers. -/
def shortInlineScene : Json :=
  demoScene [geometryWithTransforms [fifteenJson]]

/-- The members of a geometry entry named `h`, downloaded, with the given `view2d` and
`view3d` flags. -/
def viewMembers (view2d view3d : Json) : List (String × Json) :=
  [("type", .str "geometry"), ("name", .str "h"), ("view2d", view2d), ("view3d", view3d),
    ("dataset", .obj [("source", downloadSource "h.g3d")])]

/-- One geometry node whose python source declares a variable of type `int`. -/
def unknownVariableTypeScene : Json :=
  demoScene [.obj [("type", .str "geometry"), ("name", .str "a"),
    ("dataset", .obj [("source", pythonSource "a.py"
      [.obj [("type", .str "int"), ("name", .str "n")]])])]]

/-- A description named `demo` that is a valid scene but gives `initialView.3d.translation`
two numbers instead of three. -/
def badViewDescription : Json :=
  .obj [("metadata", .obj [("name", .str "demo"), ("description", .str "")]),
    ("initialView", .obj [("3d", .obj [("translation", .arr [.int "0" 0, .int "0" 0]),
      ("rotation", identityJson)])]),
    ("scene", .arr [geometryWithTransforms []])]

/-- The scene `parseScene` makes from `badViewDescription`. -/
def badViewScene : Scene :=
  { m_metadata := ⟨"demo", ""⟩,
    m_nodes := [.geometry "g" .VisibleBoth ⟨.download "demo" "g.g3d", [], none⟩],
    m_variables := [("g", ⟨[], []⟩)],
    m_webViewURL := "" }

/-- An empty scene named `old`. -/
def oldScene : Scene :=
  { m_metadata := ⟨"old", ""⟩, m_nodes := [], m_variables := [], m_webViewURL := "" }

/-- A loader that has loaded `oldScene` and has handed out both scene controllers. -/
def loaderWithScene : SceneLoaderImpl :=
  { m_scene := some oldScene,
    m_initialParameters2D := ⟨⟨0, 0⟩, 0, 1, .Z_Axis, ⟨0, 0⟩⟩,
    m_initialParameters3D := ⟨⟨0, 0, -3⟩, Mat4f.identity⟩,
    m_sceneController2D := some ⟨oldScene, ⟨⟨0, 0⟩, 0, 1, .Z_Axis, ⟨0, 0⟩⟩⟩,
    m_sceneController3D := some ⟨oldScene, ⟨⟨0, 0, -3⟩, Mat4f.identity⟩⟩ }

/-- The scene `parseScene` makes from the description with the entries
`geometryWithTransforms []`, `.obj (viewMembers (.bool true) (.bool true))` and `plainVolume`. -/
def threeNodesScene : Scene :=
  { m_metadata := ⟨"demo", ""⟩,
    m_nodes :=
      [.geometry "g" .VisibleBoth ⟨.download "demo" "g.g3d", [], none⟩,
       .geometry "h" .VisibleBoth ⟨.download "demo" "h.g3d", [], none⟩,
       .volume "v" .VisibleBoth ⟨.download "demo" "v.i3m"⟩ ⟨none⟩],
    m_variables := [("g", ⟨[], []⟩), ("h", ⟨[], []⟩), ("v", ⟨[], []⟩)],
    m_webViewURL := "" }

/-- A visibility test under which every node is visible in the one view there is. -/
def everywhere (_ : SceneNode) (_ : Unit) : Bool :=
  true

/-- Two geometry entries that are both named `a`, each with one float variable. -/
def twoNodesNamedA : Json :=
  demoScene [
    .obj [("type", .str "geometry"), ("name", .str "a"),
      ("dataset", .obj [("source", pythonSource "a1.py" [floatEntry "x"])])],
    .obj [("type", .str "geometry"), ("name", .str "a"),
      ("dataset", .obj [("source", pythonSource "a2.py" [floatEntry "y"])])]]

/-- The scene `parseScene` makes from `twoNodesNamedA`. -/
def twoNodesNamedAScene : Scene :=
  { m_metadata := ⟨"demo", ""⟩,
    m_nodes :=
      [.geometry "a" .VisibleBoth
          ⟨.python "demo" "a1.py" ⟨[⟨"x", none, ⟨0, 0, 1, 1⟩, 0⟩], []⟩, [], none⟩,
       .geometry "a" .VisibleBoth
          ⟨.python "demo" "a2.py" ⟨[⟨"y", none, ⟨0, 0, 1, 1⟩, 0⟩], []⟩, [], none⟩],
    m_variables := [("a", ⟨[⟨"y", none, ⟨0, 0, 1, 1⟩, 0⟩], []⟩)],
    m_webViewURL := "" }

/-- A scene with one node `a` that has a float variable `speed` and an enum variable `mode`. -/
def editableScene : Scene :=
  { m_metadata := ⟨"demo", ""⟩,
    m_nodes := [.geometry "a" .VisibleBoth ⟨.download "demo" "a.g3d", [], none⟩],
    m_variables :=
      [("a", ⟨[⟨"size", none, ⟨0, 0, 9, 1⟩, 1⟩, ⟨"speed", none, ⟨1, 0, 9, 1⟩, 2⟩],
        [⟨"mode", none, ⟨2, ["on", "off"]⟩, "on"⟩]⟩)],
    m_webViewURL := "" }

/-- Three transparent triangles with the centroids `(0,0,1)`, `(0,0,3)` and `(0,0,1)`. -/
def threeTriangles : LoadedGeometry :=
  { primitiveType := .Triangle,
    m_indicesTransparent := [0, 1, 2, 3, 4, 5, 6, 7, 8],
    m_centroids := [⟨0, 0, 1⟩, ⟨0, 0, 3⟩, ⟨0, 0, 1⟩] }

/-- An eye at the origin of object space, whatever the matrix. -/
def eyeAtOrigin (_ : Mat4f) : Vec3f :=
  ⟨0, 0, 0⟩

/-- An eye at `(0,0,4)` in object space, whatever the matrix. -/
def eyeOnAxis (_ : Mat4f) : Vec3f :=
  ⟨0, 0, 4⟩

/-- Two transparent points with the indices 10 and 11 and the centroids `(4096,0,0)` and
`(4096,1,0)`, at the squared distances `2^24` and `2^24 + 1` from the origin. -/
def twoPoints : LoadedGeometry :=
  { primitiveType := .Point,
    m_indicesTransparent := [10, 11],
    m_centroids := [⟨4096, 0, 0⟩, ⟨4096, 1, 0⟩] }

/-- Twenty transparent points with the indices 0 to 19 and centroids on the z axis at the
heights 0, 2, 4, 1, 3, 0, 2, 4, 1, 3, ... -/
def twentyPoints : LoadedGeometry :=
  { primitiveType := .Point,
    m_indicesTransparent :=
      [0, 1, 2, 3, 4, 5, 6, 7, 8, 9, 10, 11, 12, 13, 14, 15, 16, 17, 18, 19],
    m_centroids :=
      [⟨0, 0, 0⟩, ⟨0, 0, 2⟩, ⟨0, 0, 4⟩, ⟨0, 0, 1⟩, ⟨0, 0, 3⟩, ⟨0, 0, 0⟩, ⟨0, 0, 2⟩, ⟨0, 0, 4⟩,
        ⟨0, 0, 1⟩, ⟨0, 0, 3⟩, ⟨0, 0, 0⟩, ⟨0, 0, 2⟩, ⟨0, 0, 4⟩, ⟨0, 0, 1⟩, ⟨0, 0, 3⟩, ⟨0, 0, 0⟩,
        ⟨0, 0, 2⟩, ⟨0, 0, 4⟩, ⟨0, 0, 1⟩, ⟨0, 0, 3⟩] }

/-- Seventeen transparent points with the indices 100 to 116, all with the centroid
`(0,0,1)`. -/
def seventeenPoints : LoadedGeometry :=
  { primitiveType := .Point,
    m_indicesTransparent :=
      [100, 101, 102, 103, 104, 105, 106, 107, 108, 109, 110, 111, 112, 113, 114, 115, 116],
    m_centroids := List.replicate 17 ⟨0, 0, 1⟩ }

/-- A description that gives `initialView.2d.translation` three numbers instead of two. -/
def badView2dDescription : Json :=
  .obj [("metadata", .obj [("name", .str "demo"), ("description", .str "")]),
    ("initialView", .obj [("2d", .obj [("translation", .arr [.int "0" 0, .int "0" 0, .int "0" 0]),
      ("rotation", .int "0" 0), ("zoom", .int "1" 1), ("axis", .str "z"),
      ("depth", .int "0" 0)])]),
    ("scene", .arr [geometryWithTransforms []])]

/-- A geometry entry named `c`, downloaded, with the given `color`. -/
def geometryWithColor (color : Json) : Json :=
  .obj [("type", .str "geometry"), ("name", .str "c"),
    ("dataset", .obj [("source", downloadSource "c.g3d"), ("color", color)])]

/-- A description whose geometry node has a `color` of three numbers. -/
def badColorDescription : Json :=
  demoScene [geometryWithColor (.arr [.int "1" 1, .int "0" 0, .int "0" 0])]

/-- A parser on the given root, as the constructor leaves it when the description has no
`transforms` table. -/
def parserOn (root : Json) : SceneParser :=
  { m_root := root, m_sceneName := "", m_nodeName := "", m_varIndex := 0,
    m_variables := [], m_transforms := [] }

/-- A table for `coordinateAxisMapper().getBySecond` that knows the axes `x`, `y` and `z`. -/
def demoAxisOf (name : String) : Except Failure CoordinateAxis :=
  if name = "x" then .ok .X_Axis
  else if name = "y" then .ok .Y_Axis
  else if name = "z" then .ok .Z_Axis
  else .error (.fault "no such axis")

/-- A volume entry named `v` whose dataset is downloaded, although its source carries a
`variables` list with one entry, and whose transfer function comes from a python source with
one float variable. -/
def volumeWithStrayVariables : Json :=
  .obj [("type", .str "volume"), ("name", .str "v"),
    ("dataset", .obj [("source", .obj [("type", .str "download"), ("filename", .str "v.i3m"),
      ("variables", .arr [floatEntry "x"])])]),
    ("tf", .obj [("source", pythonSource "tf.py" [floatEntry "y"])])]

/-- The volume entry of `volumeWithTwoSources`. -/
def volumeEntryTwoSources : Json :=
  .obj [("type", .str "volume"), ("name", .str "v"),
    ("dataset", .obj [("source", pythonSource "d.py" [floatEntry "x"])]),
    ("tf", .obj [("source", pythonSource "tf.py" [floatEntry "y"])])]

/-- A description named `other` with an empty scene. -/
def otherDescription : Json :=
  .obj [("metadata", .obj [("name", .str "other"), ("description", .str "")]),
    ("scene", .arr [])]

/-- A description named `other` whose `transforms` table declares `short` with fifteen
numbers. -/
def brokenOtherDescription : Json :=
  .obj [("metadata", .obj [("name", .str "other"), ("description", .str "")]),
    ("transforms", .obj [("short", fifteenJson)]),
    ("scene", .arr [])]

/-- The scene `parseScene` makes from `demoScene [plainVolume]`. -/
def plainVolumeScene : Scene :=
  { m_metadata := ⟨"demo", ""⟩,
    m_nodes := [.volume "v" .VisibleBoth ⟨.download "demo" "v.i3m"⟩ ⟨none⟩],
    m_variables := [("v", ⟨[], []⟩)],
    m_webViewURL := "" }

/-- The members of a dataset downloaded from `v.i3m`, followed by the given members. -/
def volumeDatasetMembers (extras : List (String × Json)) : List (String × Json) :=
  ("source", downloadSource "v.i3m") :: extras

/-- The members of a volume entry named `v` with the given dataset. -/
def volumeMembers (dataset : Json) : List (String × Json) :=
  [("type", .str "volume"), ("name", .str "v"), ("dataset", dataset)]

/-- A `transforms` list with an undeclared name and a matrix of fifteen numbers, and a `color`
of three numbers. -/
def brokenExtras : List (String × Json) :=
  [("transforms", .arr [.str "missing", fifteenJson]),
    ("color", .arr [.int "1" 1, .int "0" 0, .int "0" 0])]

/-- The scene `parseScene` makes from `demoScene [volumeWithStrayVariables]`. -/
def strayVariablesScene : Scene :=
  { m_metadata := ⟨"demo", ""⟩,
    m_nodes :=
      [.volume "v" .VisibleBoth ⟨.download "demo" "v.i3m"⟩
        ⟨some (.python "demo" "tf.py" ⟨[⟨"y", none, ⟨0, 0, 1, 1⟩, 0⟩], []⟩)⟩],
    m_variables := [("v", ⟨[⟨"y", none, ⟨0, 0, 1, 1⟩, 0⟩], []⟩)],
    m_webViewURL := "" }

/-- The scene `parseScene` makes from `demoScene [volumeEntryTwoSources]`. -/
def twoSourcesScene : Scene :=
  { m_metadata := ⟨"demo", ""⟩,
    m_nodes :=
      [.volume "v" .VisibleBoth ⟨.python "demo" "d.py" ⟨[⟨"x", none, ⟨0, 0, 1, 1⟩, 0⟩], []⟩⟩
        ⟨some (.python "demo" "tf.py" ⟨[⟨"y", none, ⟨1, 0, 1, 1⟩, 0⟩], []⟩)⟩],
    m_variables := [("v", ⟨[⟨"y", none, ⟨1, 0, 1, 1⟩, 0⟩], []⟩)],
    m_webViewURL := "" }

/-- The scene `twoGeometryNodesScene` after the float variable `x` of the node `a` has been
set to 1: the registry entry of `a` and the python provider of the node `a`, which share one
`Variables` object, both show the new value. -/
def twoGeometryNodesEdited : Scene :=
  { m_metadata := ⟨"demo", ""⟩,
    m_nodes :=
      [.geometry "a" .VisibleBoth ⟨.python "demo" "a.py"
          ⟨[⟨"x", none, ⟨0, 0, 1, 1⟩, 1⟩], [⟨"mode", none, ⟨1, ["on", "off"]⟩, "on"⟩]⟩, [], none⟩,
       .geometry "b" .VisibleBoth ⟨.python "demo" "b.py"
          ⟨[⟨"y", none, ⟨0, 0, 1, 1⟩, 0⟩], []⟩, [], none⟩],
    m_variables :=
      [("a", ⟨[⟨"x", none, ⟨0, 0, 1, 1⟩, 1⟩], [⟨"mode", none, ⟨1, ["on", "off"]⟩, "on"⟩]⟩),
       ("b", ⟨[⟨"y", none, ⟨0, 0, 1, 1⟩, 0⟩], []⟩)],
    m_webViewURL := "" }

/-! ## Facts about the JsonCpp interface and the map -/

theorem Json.get_obj (kvs : List (String × Json)) (key : String) :
    (Json.obj kvs).get key = .ok ((kvs.lookup key).getD .null) := rfl

theorem Json.isMember_obj (kvs : List (String × Json)) (key : String) :
    (Json.obj kvs).isMember key = .ok (kvs.lookup key).isSome := rfl

theorem dedupKeys_lookup (seen : List String) (kvs : List (String × Json)) (key : String) :
    (dedupKeys seen kvs).lookup key = if key ∈ seen then none else kvs.lookup key := by
  induction kvs generalizing seen with
  | nil => simp [dedupKeys]
  | cons kv rest ih =>
    obtain ⟨k, v⟩ := kv
    unfold dedupKeys
    by_cases hk : k ∈ seen
    · simp only [hk, if_true, ih]
      by_cases hkey : key ∈ seen
      · simp [hkey]
      · have hne : (key == k) = false := by simpa using fun (h : key = k) => hkey (h ▸ hk)
        simp [hkey, List.lookup_cons, hne]
    · simp only [hk, if_false, List.lookup_cons, ih]
      by_cases hkk : key = k
      · subst hkk; simp [hk]
      · have hne : (key == k) = false := by simpa using hkk
        simp [hne, List.mem_cons, hkk]

theorem dedupKeys_keys (seen : List String) (kvs : List (String × Json)) :
    ((dedupKeys seen kvs).map Prod.fst).Nodup
      ∧ ∀ k ∈ (dedupKeys seen kvs).map Prod.fst, k ∉ seen := by
  induction kvs generalizing seen with
  | nil => simp [dedupKeys]
  | cons kv rest ih =>
    obtain ⟨k, v⟩ := kv
    unfold dedupKeys
    by_cases hk : k ∈ seen
    · simp only [hk, if_true]; exact ih seen
    · simp only [hk, if_false, List.map_cons, List.nodup_cons]
      obtain ⟨hnd, hout⟩ := ih (k :: seen)
      refine ⟨⟨fun hmem => ?_, hnd⟩, ?_⟩
      · exact hout k hmem (List.mem_cons_self _ _)
      · intro k2 hk2
        rcases List.mem_cons.mp hk2 with h | h
        · subst h; exact hk
        · exact fun hs => hout k2 h (List.mem_cons_of_mem _ hs)

theorem Map.find?_insert_self {α : Type} (key : String) (value : α) (m : Map α) :
    (Map.insert key value m).find? key = some value := by
  induction m with
  | nil => simp [Map.insert, Map.find?, List.lookup]
  | cons kv rest ih =>
    obtain ⟨k, v⟩ := kv
    unfold Map.insert
    by_cases hk : k = key
    · simp [hk, Map.find?, List.lookup]
    · have hk2 : (key == k) = false := by simpa using fun h => hk h.symm
      simp only [hk, if_false, Map.find?, List.lookup, hk2]
      exact ih

theorem Map.find?_insert_of_ne {α : Type} (key other : String) (value : α) (m : Map α)
    (hne : other ≠ key) : (Map.insert key value m).find? other = m.find? other := by
  induction m with
  | nil =>
    have : (other == key) = false := by simpa using hne
    simp [Map.insert, Map.find?, List.lookup, this]
  | cons kv rest ih =>
    obtain ⟨k, v⟩ := kv
    unfold Map.insert
    by_cases hk : k = key
    · subst hk
      have : (other == k) = false := by simpa using hne
      simp [Map.find?, List.lookup, this]
    · simp only [hk, if_false, Map.find?, List.lookup]
      cases hok : (other == k) with
      | true => rfl
      | false => exact ih

theorem forall₂_of_mem_left {α β : Type} {R : α → β → Prop} {l1 : List α} {l2 : List β}
    (h : List.Forall₂ R l1 l2) {a : α} (ha : a ∈ l1) : ∃ b ∈ l2, R a b := by
  induction h with
  | nil => cases ha
  | cons hab _ ih =>
    rcases List.mem_cons.mp ha with h | h
    · subst h; exact ⟨_, List.mem_cons_self _ _, hab⟩
    · obtain ⟨b, hb, hr⟩ := ih h
      exact ⟨b, List.mem_cons_of_mem _ hb, hr⟩

theorem forall₂_getElem {α β : Type} {R : α → β → Prop} {l1 : List α} {l2 : List β}
    (h : List.Forall₂ R l1 l2) :
    l2.length = l1.length
      ∧ ∀ (i : Nat) (a : α), l1[i]? = some a → ∃ b : β, l2[i]? = some b ∧ R a b := by
  induction h with
  | nil => exact ⟨rfl, fun i a ha => by simp at ha⟩
  | cons hab _ ih =>
    refine ⟨by simp [ih.1], fun i a ha => ?_⟩
    cases i with
    | zero =>
      simp only [List.getElem?_cons_zero, Option.some.injEq] at ha
      subst ha
      exact ⟨_, by simp, hab⟩
    | succ j =>
      simp only [List.getElem?_cons_succ] at ha ⊢
      exact ih.2 j a ha

/-! ## Facts about `Except` -/

theorem bind_ok_iff {α β : Type} (x : Except Failure α) (f : α → Except Failure β) (b : β) :
    (x >>= f) = .ok b ↔ ∃ a, x = .ok a ∧ f a = .ok b := by
  cases x <;> simp [bind, Except.bind]

theorem pure_ok_iff {α : Type} (a b : α) :
    (pure a : Except Failure α) = .ok b ↔ a = b := by
  simp [pure, Except.pure]

/-! ## Variables: what one source does to the registry -/

theorem Frame.refl (p : SceneParser) : Frame p p :=
  ⟨rfl, rfl, rfl, rfl, fun _ _ => rfl⟩

theorem Frame.trans {p q r : SceneParser} (h1 : Frame p q) (h2 : Frame q r) : Frame p r := by
  obtain ⟨a1, b1, c1, d1, e1⟩ := h1
  obtain ⟨a2, b2, c2, d2, e2⟩ := h2
  refine ⟨a2.trans a1, b2.trans b1, c2.trans c1, d2.trans d1, fun name hne => ?_⟩
  rw [e2 name (by rw [c1]; exact hne), e1 name hne]

theorem updateVariables_ok {p q : SceneParser} {f : Variables → Variables}
    (h : p.updateVariables f = .ok q) :
    ∃ vars, p.m_variables.find? p.m_nodeName = some vars
      ∧ q.m_variables.find? p.m_nodeName = some (f vars)
      ∧ q.m_varIndex = p.m_varIndex ∧ Frame p q := by
  unfold SceneParser.updateVariables at h
  cases hf : p.m_variables.find? p.m_nodeName with
  | none => rw [hf] at h; cases h
  | some vars =>
    rw [hf] at h
    cases h
    exact ⟨vars, rfl, Map.find?_insert_self _ _ _, rfl, rfl, rfl, rfl, rfl,
      fun name hne => Map.find?_insert_of_ne _ _ _ _ hne⟩

theorem parseFloatVariable_ok {p q : SceneParser} {node : Json}
    (h : p.parseFloatVariable node = .ok q) :
    ∃ (var : FloatVariable) (vars : Variables), var.info.index = p.m_varIndex
      ∧ p.m_variables.find? p.m_nodeName = some vars
      ∧ q.m_variables.find? p.m_nodeName
          = some ⟨vars.floatVariables ++ [var], vars.enumVariables⟩
      ∧ q.m_varIndex = p.m_varIndex ∧ Frame p q := by
  unfold SceneParser.parseFloatVariable at h
  simp only [bind_ok_iff] at h
  obtain ⟨_, _, name, _, label, _, _, _, lo, _, _, _, hi, _, _, _, st, _, _, _, dv, _, h⟩ := h
  obtain ⟨vars, hv, hq, hidx, hf⟩ := updateVariables_ok h
  exact ⟨⟨name, label, ⟨p.m_varIndex, lo, hi, st⟩, dv⟩, vars, rfl, hv, hq, hidx, hf⟩

theorem parseEnumVariable_ok {p q : SceneParser} {node : Json}
    (h : p.parseEnumVariable node = .ok q) :
    ∃ (var : EnumVariable) (vars : Variables), var.info.index = p.m_varIndex
      ∧ p.m_variables.find? p.m_nodeName = some vars
      ∧ q.m_variables.find? p.m_nodeName
          = some ⟨vars.floatVariables, vars.enumVariables ++ [var]⟩
      ∧ q.m_varIndex = p.m_varIndex ∧ Frame p q := by
  unfold SceneParser.parseEnumVariable at h
  simp only [bind_ok_iff] at h
  obtain ⟨_, _, name, _, label, _, _, _, values, _, _, _, dv, _, h⟩ := h
  obtain ⟨vars, hv, hq, hidx, hf⟩ := updateVariables_ok h
  exact ⟨⟨name, label, ⟨p.m_varIndex, values⟩, dv⟩, vars, rfl, hv, hq, hidx, hf⟩

theorem parseParam_frame {p q : SceneParser} {paramNode : Json}
    (h : p.parseParam paramNode = .ok q) : Frame p q ∧ q.m_varIndex = p.m_varIndex + 1 := by
  unfold SceneParser.parseParam at h
  simp only [bind_ok_iff, pure_ok_iff] at h
  obtain ⟨type, _, p1, h1, hq⟩ := h
  subst hq
  have key : Frame p p1 ∧ p1.m_varIndex = p.m_varIndex := by
    split at h1
    · obtain ⟨_, _, _, _, _, hi, hf⟩ := parseFloatVariable_ok h1
      exact ⟨hf, hi⟩
    · split at h1
      · obtain ⟨_, _, _, _, _, hi, hf⟩ := parseEnumVariable_ok h1
        exact ⟨hf, hi⟩
      · cases h1; exact ⟨Frame.refl p, rfl⟩
  obtain ⟨⟨a, b, c, d, e⟩, hi⟩ := key
  exact ⟨⟨a, b, c, d, e⟩, by show p1.m_varIndex + 1 = _; rw [hi]⟩

theorem parseParamsLoop_frame {p q : SceneParser} {nodes : List Json}
    (h : p.parseParamsLoop nodes = .ok q) :
    Frame p q ∧ q.m_varIndex = p.m_varIndex + nodes.length := by
  induction nodes generalizing p with
  | nil => cases h; exact ⟨Frame.refl _, rfl⟩
  | cons node rest ih =>
    unfold SceneParser.parseParamsLoop at h
    cases h1 : p.parseParam node with
    | error e => rw [h1] at h; cases h
    | ok p1 =>
      rw [h1] at h
      obtain ⟨f1, i1⟩ := parseParam_frame h1
      obtain ⟨f2, i2⟩ := ih h
      refine ⟨Frame.trans f1 f2, ?_⟩
      rw [i2, i1, List.length_cons]; omega

theorem numbered_lt {vars : Variables} {k : Nat} (h : Numbered vars k) :
    ∀ i ∈ vars.indices, i < k := by
  intro i hi
  have := (h.2.2.mem_iff (a := i)).mp hi
  exact List.mem_range.mp this

theorem numbered_count {vars : Variables} {k : Nat} (h : Numbered vars k) : k = vars.count := by
  have := h.2.2.length_eq
  simp [Variables.indices] at this
  unfold Variables.count
  omega

theorem numbered_indexed {vars : Variables} {k : Nat} (h : Numbered vars k) :
    IndexedFromZero vars := by
  unfold IndexedFromZero
  rw [← numbered_count h]
  exact h

theorem numbered_empty : Numbered ⟨[], []⟩ 0 := by
  decide

theorem numbered_push_float {vars : Variables} {k : Nat} (h : Numbered vars k)
    (var : FloatVariable) (hvar : var.info.index = k) :
    Numbered ⟨vars.floatVariables ++ [var], vars.enumVariables⟩ (k + 1) := by
  have hlt := numbered_lt h
  obtain ⟨hf, he, hp⟩ := h
  refine ⟨?_, he, ?_⟩
  · simp only [List.map_append, List.map_cons, List.map_nil]
    rw [List.pairwise_append]
    refine ⟨hf, List.pairwise_singleton _ _, fun a ha b hb => ?_⟩
    rw [List.mem_singleton] at hb
    rw [hb, hvar]
    exact hlt a (List.mem_append_left _ ha)
  · unfold Variables.indices at hp ⊢
    simp only [List.map_append, List.map_cons, List.map_nil, hvar]
    rw [List.range_succ]
    have h1 : (List.map (fun v => v.info.index) vars.floatVariables ++ [k]
        ++ List.map (fun v => v.info.index) vars.enumVariables).Perm
        ((List.map (fun v => v.info.index) vars.floatVariables
        ++ List.map (fun v => v.info.index) vars.enumVariables) ++ [k]) := by
      rw [List.append_assoc, List.append_assoc]
      exact List.Perm.append_left _ List.perm_append_comm
    exact h1.trans (List.Perm.append_right _ hp)

theorem numbered_push_enum {vars : Variables} {k : Nat} (h : Numbered vars k)
    (var : EnumVariable) (hvar : var.info.index = k) :
    Numbered ⟨vars.floatVariables, vars.enumVariables ++ [var]⟩ (k + 1) := by
  have hlt := numbered_lt h
  obtain ⟨hf, he, hp⟩ := h
  refine ⟨hf, ?_, ?_⟩
  · simp only [List.map_append, List.map_cons, List.map_nil]
    rw [List.pairwise_append]
    refine ⟨he, List.pairwise_singleton _ _, fun a ha b hb => ?_⟩
    rw [List.mem_singleton] at hb
    rw [hb, hvar]
    exact hlt a (List.mem_append_right _ ha)
  · unfold Variables.indices at hp ⊢
    simp only [List.map_append, List.map_cons, List.map_nil, hvar]
    rw [List.range_succ, ← List.append_assoc]
    exact List.Perm.append_right _ hp

theorem parseParam_registered {p q : SceneParser} {paramNode : Json}
    (hreg : Registered p) (hknown : KnownVariableType paramNode)
    (h : p.parseParam paramNode = .ok q) : Registered q := by
  obtain ⟨⟨_, _, hname, _, _⟩, _⟩ := parseParam_frame h
  unfold SceneParser.parseParam at h
  simp only [bind_ok_iff, pure_ok_iff] at h
  obtain ⟨type, htype, p1, h1, hq⟩ := h
  subst hq
  obtain ⟨vars, hvars, hnum⟩ := hreg
  unfold Registered
  show ∃ vars, p1.m_variables.find? p1.m_nodeName = some vars ∧ Numbered vars (p1.m_varIndex + 1)
  have hname1 : p1.m_nodeName = p.m_nodeName := hname
  rw [hname1]
  split at h1
  · obtain ⟨var, vars2, hidx, hv2, hq, hi, _⟩ := parseFloatVariable_ok h1
    rw [hvars] at hv2
    cases hv2
    exact ⟨_, hq, by rw [hi]; exact numbered_push_float hnum var hidx⟩
  · split at h1
    · obtain ⟨var, vars2, hidx, hv2, hq, hi, _⟩ := parseEnumVariable_ok h1
      rw [hvars] at hv2
      cases hv2
      exact ⟨_, hq, by rw [hi]; exact numbered_push_enum hnum var hidx⟩
    · rename_i hnf hne
      rcases hknown with h | h
      · rw [htype] at h; cases h; simp [Json.eqString] at hnf
      · rw [htype] at h; cases h; simp [Json.eqString] at hne

theorem parseParamsLoop_registered {p q : SceneParser} {nodes : List Json}
    (hreg : Registered p) (hknown : ∀ v ∈ nodes, KnownVariableType v)
    (h : p.parseParamsLoop nodes = .ok q) : Registered q := by
  induction nodes generalizing p with
  | nil => cases h; exact hreg
  | cons node rest ih =>
    unfold SceneParser.parseParamsLoop at h
    cases h1 : p.parseParam node with
    | error e => rw [h1] at h; cases h
    | ok p1 =>
      rw [h1] at h
      exact ih (parseParam_registered hreg (hknown node (List.mem_cons_self _ _)) h1)
        (fun v hv => hknown v (List.mem_cons_of_mem _ hv)) h

theorem parsePython_ok {p q : SceneParser} {node : Json} {provider : DataProvider}
    (h : p.parsePython node = .ok (provider, q)) :
    ∃ varsJson, node.get "variables" = .ok varsJson
      ∧ p.parseParamsLoop varsJson.elems = .ok q := by
  unfold SceneParser.parsePython SceneParser.parseParams at h
  simp only [bind_ok_iff] at h
  obtain ⟨_, _, _, _, varsJson, hv, p1, hloop, h⟩ := h
  split at h
  · simp only [pure_ok_iff] at h
    cases h
    exact ⟨varsJson, hv, hloop⟩
  · cases h

/-- What a successful `parseProvider` tells: the tag is one of the two known ones, the parser
changes within the frame, and a counter at 0 leaves a registry entry numbered from 0 when the
declared varsJson have known types. -/
theorem parseProvider_ok {p q : SceneParser} {node : Json} {provider : DataProvider}
    (h : p.parseProvider node = .ok (provider, q)) :
    (typeTag node = .ok "download" ∨ typeTag node = .ok "python") ∧ Frame p q
      ∧ (p.m_varIndex = 0
          → (∀ vs, sourceVariables node = .ok vs → ∀ v ∈ vs, KnownVariableType v)
          → Registered q) := by
  unfold SceneParser.parseProvider at h
  simp only [bind_ok_iff] at h
  obtain ⟨t, ht, type, htype, h⟩ := h
  have htag : typeTag node = .ok type := by
    unfold typeTag; simp only [bind_ok_iff]; exact ⟨t, ht, htype⟩
  have hf0 : Frame p { p with m_variables := Map.insert p.m_nodeName ⟨[], []⟩ p.m_variables } :=
    ⟨rfl, rfl, rfl, rfl, fun name hne => Map.find?_insert_of_ne _ _ _ _ hne⟩
  have hreg0 : p.m_varIndex = 0 →
      Registered { p with m_variables := Map.insert p.m_nodeName ⟨[], []⟩ p.m_variables } := by
    intro h0
    refine ⟨⟨[], []⟩, Map.find?_insert_self _ _ _, ?_⟩
    show Numbered ⟨[], []⟩ p.m_varIndex
    rw [h0]; exact numbered_empty
  split at h
  · rename_i hd
    have hd2 : type = "download" := by simpa using hd
    simp only [bind_ok_iff, pure_ok_iff] at h
    obtain ⟨_, _, h⟩ := h
    cases h
    exact ⟨Or.inl (hd2 ▸ htag), hf0, fun h0 _ => hreg0 h0⟩
  · split at h
    · rename_i _ hp
      have hp2 : type = "python" := by simpa using hp
      obtain ⟨varsJson, hv, hloop⟩ := parsePython_ok h
      refine ⟨Or.inr (hp2 ▸ htag), Frame.trans hf0 (parseParamsLoop_frame hloop).1,
        fun h0 hknown => ?_⟩
      refine parseParamsLoop_registered (hreg0 h0) (hknown varsJson.elems ?_) hloop
      unfold sourceVariables
      simp only [bind_ok_iff, pure_ok_iff]
      exact ⟨varsJson, hv, rfl⟩
    · cases h

/-! ## Transforms -/

theorem parseTransform_table {p q : SceneParser} (h : q.m_transforms = p.m_transforms)
    (node : Json) : q.parseTransform node = p.parseTransform node := by
  unfold SceneParser.parseTransform
  rw [h]

theorem parseTransforms_ok {p : SceneParser} {refs : List Json} {matrices : List Mat4f}
    (h : p.parseTransforms refs = .ok matrices) :
    List.Forall₂ (fun ref matrix => p.parseTransform ref = .ok matrix) refs matrices := by
  induction refs generalizing matrices with
  | nil => cases h; exact List.Forall₂.nil
  | cons ref rest ih =>
    unfold SceneParser.parseTransforms at h
    cases h1 : p.parseTransform ref with
    | error e => rw [h1] at h; cases h
    | ok matrix =>
      rw [h1] at h
      cases h2 : p.parseTransforms rest with
      | error e => rw [h2] at h; cases h
      | ok ms =>
        rw [h2] at h
        cases h
        exact List.Forall₂.cons h1 (ih h2)

/-! ## Nodes -/

theorem parseGeometryDataset_ok {p q : SceneParser} {node : Json} {dataset : GeometryDataset}
    (h : p.parseGeometryDataset node = .ok (dataset, q)) :
    ∃ source transforms, node.get "source" = .ok source
      ∧ p.parseProvider source = .ok (dataset.provider, q)
      ∧ node.get "transforms" = .ok transforms
      ∧ List.Forall₂ (fun ref matrix => p.parseTransform ref = .ok matrix)
          transforms.elems dataset.transforms := by
  unfold SceneParser.parseGeometryDataset at h
  simp only [bind_ok_iff, pure_ok_iff] at h
  obtain ⟨source, hsrc, ⟨provider, p1⟩, hprov, hasTransforms, hmem, ms, hms, _, _, _, _, h⟩ := h
  cases h
  have htable : p1.m_transforms = p.m_transforms := (parseProvider_ok hprov).2.1.2.2.2.1
  have hcongr : (fun ref matrix => p1.parseTransform ref = .ok matrix)
      = (fun ref matrix => p.parseTransform ref = Except.ok matrix) := by
    funext ref matrix; rw [parseTransform_table htable]
  have key : ∃ transforms, node.get "transforms" = .ok transforms
      ∧ List.Forall₂ (fun ref matrix => p.parseTransform ref = .ok matrix)
          transforms.elems ms := by
    cases hasTransforms with
    | true =>
      simp only [if_true, bind_ok_iff] at hms
      obtain ⟨transforms, hget, hparse⟩ := hms
      exact ⟨transforms, hget, hcongr ▸ parseTransforms_ok hparse⟩
    | false =>
      simp only [Bool.false_eq_true, if_false, pure_ok_iff] at hms
      subst hms
      unfold Json.isMember at hmem
      unfold Json.get
      cases hf : node.find "transforms" with
      | error e => rw [hf] at hmem; cases hmem
      | ok r =>
        rw [hf] at hmem
        cases r with
        | some x => cases hmem
        | none => exact ⟨.null, rfl, List.Forall₂.nil⟩
  obtain ⟨transforms, hget, hall⟩ := key
  exact ⟨source, transforms, hsrc, hprov, hget, hall⟩

theorem datasetVariables_eq {e datasetJson source : Json} {vs : List Json}
    (hds : e.get "dataset" = .ok datasetJson) (hsrc : datasetJson.get "source" = .ok source)
    (hvs : sourceVariables source = .ok vs) : datasetVariables e = vs := by
  unfold datasetVariables
  simp only [hds, hsrc, hvs, bind, Except.bind]

theorem plainEntry_known {e datasetJson source : Json} (hplain : PlainEntry e)
    (hds : e.get "dataset" = .ok datasetJson) (hsrc : datasetJson.get "source" = .ok source) :
    ∀ vs, sourceVariables source = .ok vs → ∀ v ∈ vs, KnownVariableType v := by
  intro vs hvs v hv
  exact hplain.2 v (by rw [datasetVariables_eq hds hsrc hvs]; exact hv)

theorem parseGeometryNode_ok {p q : SceneParser} {e : Json} {n : SceneNode}
    (h : p.parseGeometryNode e = .ok (n, q)) :
    ∃ name visibility dataset datasetJson, entryName e = .ok name
      ∧ parseVisibility e = .ok visibility ∧ n = .geometry q.m_nodeName visibility dataset
      ∧ e.get "dataset" = .ok datasetJson
      ∧ SceneParser.parseGeometryDataset { p with m_nodeName := name } datasetJson
          = .ok (dataset, q) := by
  unfold SceneParser.parseGeometryNode at h
  simp only [bind_ok_iff, pure_ok_iff] at h
  obtain ⟨nameJson, h1, name, h2, visibility, h3, datasetJson, h4, ⟨dataset, p1⟩, h5, h6⟩ := h
  cases h6
  refine ⟨name, visibility, dataset, datasetJson, ?_, h3, rfl, h4, h5⟩
  unfold entryName
  simp only [bind_ok_iff]
  exact ⟨nameJson, h1, h2⟩

theorem parseVolumeNode_ok {p q : SceneParser} {e : Json} {n : SceneNode}
    (h : p.parseVolumeNode e = .ok (n, q)) :
    ∃ name visibility dataset tf datasetJson source p1, entryName e = .ok name
      ∧ parseVisibility e = .ok visibility ∧ n = .volume q.m_nodeName visibility dataset tf
      ∧ e.get "dataset" = .ok datasetJson ∧ datasetJson.get "source" = .ok source
      ∧ SceneParser.parseProvider { p with m_nodeName := name } source
          = .ok (dataset.provider, p1)
      ∧ ((e.isMember "tf" = .ok false ∧ q = p1)
          ∨ (e.isMember "tf" = .ok true ∧ ∃ tfJson tfSource provider, e.get "tf" = .ok tfJson
              ∧ tfJson.get "source" = .ok tfSource
              ∧ p1.parseProvider tfSource = .ok (provider, q))) := by
  unfold SceneParser.parseVolumeNode at h
  simp only [bind_ok_iff, pure_ok_iff] at h
  obtain ⟨nameJson, h1, name, h2, visibility, h3, datasetJson, h4, ⟨dataset, p1⟩, h5,
    hasTf, h6, ⟨tf, p2⟩, h7, h8⟩ := h
  cases h8
  unfold SceneParser.parseVolumeDataset at h5
  simp only [bind_ok_iff, pure_ok_iff] at h5
  obtain ⟨source, hs, ⟨provider, p3⟩, hp, h9⟩ := h5
  cases h9
  refine ⟨name, visibility, ⟨provider⟩, tf, datasetJson, source, p3, ?_, h3, rfl, h4, hs, hp, ?_⟩
  · unfold entryName
    simp only [bind_ok_iff]
    exact ⟨nameJson, h1, h2⟩
  · cases hasTf with
    | false =>
      simp only [Bool.false_eq_true, if_false, pure_ok_iff] at h7
      cases h7
      exact Or.inl ⟨h6, rfl⟩
    | true =>
      simp only [if_true, bind_ok_iff] at h7
      obtain ⟨tfJson, ht, h7⟩ := h7
      unfold SceneParser.parseTransferFunction at h7
      simp only [bind_ok_iff, pure_ok_iff] at h7
      obtain ⟨tfSource, hts, ⟨provider2, p4⟩, hp2, h10⟩ := h7
      cases h10
      exact Or.inr ⟨h6, tfJson, tfSource, provider2, ht, hts, hp2⟩

theorem parseSceneNode_ok {p q : SceneParser} {e : Json} {n : SceneNode}
    (h : p.parseSceneNode e = .ok (n, q)) :
    (typeTag e = .ok "geometry"
        ∧ SceneParser.parseGeometryNode { p with m_varIndex := 0 } e = .ok (n, q))
      ∨ (typeTag e = .ok "volume"
        ∧ SceneParser.parseVolumeNode { p with m_varIndex := 0 } e = .ok (n, q)) := by
  unfold SceneParser.parseSceneNode at h
  simp only [bind_ok_iff] at h
  obtain ⟨t, ht, type, htype, h⟩ := h
  have htag : typeTag e = .ok type := by
    unfold typeTag; simp only [bind_ok_iff]; exact ⟨t, ht, htype⟩
  split at h
  · rename_i hg
    have hg2 : type = "geometry" := by simpa using hg
    exact Or.inl ⟨hg2 ▸ htag, h⟩
  · split at h
    · rename_i _ hv
      have hv2 : type = "volume" := by simpa using hv
      exact Or.inr ⟨hv2 ▸ htag, h⟩
    · cases h

/-- One successful round of the loop of `parseScene`. -/
theorem parseSceneNode_spec {p q : SceneParser} {e : Json} {n : SceneNode}
    (h : p.parseSceneNode e = .ok (n, q)) :
    EntryParsed p e n ∧ RoundFrame p q n.name
      ∧ (PlainEntry e → ∃ vars, q.m_variables.find? n.name = some vars ∧ IndexedFromZero vars) := by
  rcases parseSceneNode_ok h with ⟨htag, hg⟩ | ⟨htag, hv⟩
  · obtain ⟨name, visibility, dataset, datasetJson, hname, hvis, hn, hds, hparse⟩ :=
      parseGeometryNode_ok hg
    obtain ⟨source, transforms, hsrc, hprov, htr, hall⟩ := parseGeometryDataset_ok hparse
    obtain ⟨hknown, ⟨f1, f2, f3, f4, f5⟩, hreg⟩ := parseProvider_ok hprov
    have hqname : q.m_nodeName = name := f3
    rw [hqname] at hn
    subst hn
    refine ⟨⟨hname, hvis, datasetJson, source, hds, hsrc, hknown,
      Or.inl ⟨htag, dataset, transforms, rfl, htr, hall⟩⟩, ⟨f1, f2, f4, f5⟩, fun hplain => ?_⟩
    obtain ⟨vars, hv, hnum⟩ := hreg rfl (plainEntry_known hplain hds hsrc)
    rw [hqname] at hv
    exact ⟨vars, hv, numbered_indexed hnum⟩
  · obtain ⟨name, visibility, dataset, tf, datasetJson, source, p1, hname, hvis, hn, hds, hsrc,
      hprov, htf⟩ := parseVolumeNode_ok hv
    obtain ⟨hknown, ⟨f1, f2, f3, f4, f5⟩, hreg⟩ := parseProvider_ok hprov
    rcases htf with ⟨hno, hq⟩ | ⟨hyes, tfJson, tfSource, provider, ht, hts, hp2⟩
    · subst hq
      have hqname : q.m_nodeName = name := f3
      rw [hqname] at hn
      subst hn
      refine ⟨⟨hname, hvis, datasetJson, source, hds, hsrc, hknown,
        Or.inr ⟨htag, rfl, fun hyes => ?_⟩⟩, ⟨f1, f2, f4, f5⟩, fun hplain => ?_⟩
      · rw [hno] at hyes; cases hyes
      · obtain ⟨vars, hv, hnum⟩ := hreg rfl (plainEntry_known hplain hds hsrc)
        rw [hqname] at hv
        exact ⟨vars, hv, numbered_indexed hnum⟩
    · obtain ⟨hknown2, ⟨g1, g2, g3, g4, g5⟩, _⟩ := parseProvider_ok hp2
      have hp1name : p1.m_nodeName = name := f3
      have hqname : q.m_nodeName = name := g3.trans hp1name
      rw [hqname] at hn
      subst hn
      refine ⟨⟨hname, hvis, datasetJson, source, hds, hsrc, hknown,
        Or.inr ⟨htag, rfl, fun _ => ⟨tfJson, tfSource, ht, hts, hknown2⟩⟩⟩,
        ⟨g1.trans f1, g2.trans f2, g4.trans f4, fun other hne => ?_⟩,
        fun hplain => absurd ⟨htag, hyes⟩ hplain.1⟩
      rw [g5 other (by rw [hp1name]; exact hne), f5 other hne]

theorem entryParsed_table {p r : SceneParser} (h : r.m_transforms = p.m_transforms)
    {e : Json} {n : SceneNode} (hp : EntryParsed r e n) : EntryParsed p e n := by
  have hcongr : (fun ref matrix => r.parseTransform ref = .ok matrix)
      = (fun ref matrix => p.parseTransform ref = Except.ok matrix) := by
    funext ref matrix; rw [parseTransform_table h]
  unfold EntryParsed at hp ⊢
  rw [hcongr] at hp
  exact hp

/-! ## The loop of `parseScene` -/

theorem parseSceneNodes_cons {p q : SceneParser} {e : Json} {rest : List Json}
    {ns : List SceneNode} (h : p.parseSceneNodes (e :: rest) = .ok (ns, q)) :
    ∃ n p1 ns1, p.parseSceneNode e = .ok (n, p1) ∧ p1.parseSceneNodes rest = .ok (ns1, q)
      ∧ ns = n :: ns1 := by
  unfold SceneParser.parseSceneNodes at h
  cases h1 : p.parseSceneNode e with
  | error err => rw [h1] at h; cases h
  | ok r1 =>
    obtain ⟨n, p1⟩ := r1
    rw [h1] at h
    simp only at h
    cases h2 : p1.parseSceneNodes rest with
    | error err => rw [h2] at h; cases h
    | ok r2 =>
      obtain ⟨ns1, p2⟩ := r2
      rw [h2] at h
      cases h
      exact ⟨n, p1, ns1, rfl, h2, rfl⟩

/-- A successful run of the loop pairs the entries with the nodes one to one, in order. -/
theorem parseSceneNodes_spec {p q : SceneParser} {es : List Json} {ns : List SceneNode}
    (h : p.parseSceneNodes es = .ok (ns, q)) :
    List.Forall₂ (EntryParsed p) es ns ∧ q.m_root = p.m_root ∧ q.m_sceneName = p.m_sceneName
      ∧ q.m_transforms = p.m_transforms := by
  induction es generalizing p ns with
  | nil => cases h; exact ⟨List.Forall₂.nil, rfl, rfl, rfl⟩
  | cons e rest ih =>
    obtain ⟨n, p1, ns1, h1, h2, rfl⟩ := parseSceneNodes_cons h
    obtain ⟨hentry, ⟨f1, f2, f3, _⟩, _⟩ := parseSceneNode_spec h1
    obtain ⟨hall, g1, g2, g3⟩ := ih h2
    refine ⟨List.Forall₂.cons hentry ?_, g1.trans f1, g2.trans f2, g3.trans f3⟩
    exact hall.imp (fun _ _ hp => entryParsed_table f3 hp)

/-- The registry after the loop: names no entry carries keep their entry, and a name whose
entries are all plain has variables indexed from 0. -/
theorem parseSceneNodes_registry {p q : SceneParser} {es : List Json} {ns : List SceneNode}
    (h : p.parseSceneNodes es = .ok (ns, q)) :
    (∀ name, (∀ e ∈ es, entryName e ≠ .ok name)
        → q.m_variables.find? name = p.m_variables.find? name)
      ∧ ∀ e ∈ es, (∀ e2 ∈ es, entryName e2 = entryName e → PlainEntry e2)
        → ∃ name vars, entryName e = .ok name ∧ q.m_variables.find? name = some vars
          ∧ IndexedFromZero vars := by
  induction es generalizing p ns with
  | nil => cases h; exact ⟨fun _ _ => rfl, fun e he => absurd he (List.not_mem_nil e)⟩
  | cons e0 rest ih =>
    obtain ⟨n, p1, ns1, h1, h2, rfl⟩ := parseSceneNodes_cons h
    obtain ⟨hentry, ⟨_, _, _, f4⟩, hplain⟩ := parseSceneNode_spec h1
    obtain ⟨ihframe, ihreg⟩ := ih h2
    have hname0 : entryName e0 = .ok n.name := hentry.1
    refine ⟨fun name hnone => ?_, fun e he hall => ?_⟩
    · rw [ihframe name (fun e2 h2 => hnone e2 (List.mem_cons_of_mem _ h2))]
      refine f4 name (fun heq => ?_)
      exact hnone e0 (List.mem_cons_self _ _) (heq ▸ hname0)
    · by_cases hlater : ∃ e2 ∈ rest, entryName e2 = entryName e
      · obtain ⟨e2, hmem2, heq2⟩ := hlater
        obtain ⟨name, vars, hn, hv, hz⟩ := ihreg e2 hmem2
          (fun e3 h3 heq3 => hall e3 (List.mem_cons_of_mem _ h3) (heq3.trans heq2))
        exact ⟨name, vars, heq2 ▸ hn, hv, hz⟩
      · have hhead : e = e0 := by
          rcases List.mem_cons.mp he with h | h
          · exact h
          · exact absurd ⟨e, h, rfl⟩ hlater
        subst hhead
        obtain ⟨vars, hv, hz⟩ := hplain (hall e (List.mem_cons_self _ _) rfl)
        refine ⟨n.name, vars, hname0, ?_, hz⟩
        rw [ihframe n.name (fun e2 h2 heq => hlater ⟨e2, h2, heq.trans hname0.symm⟩)]
        exact hv

theorem parseScene_ok {p q : SceneParser} {scene : Scene}
    (h : p.parseScene = .ok (scene, q)) :
    ∃ (sceneJson : Json) (p1 q1 : SceneParser), p.m_root.get "scene" = .ok sceneJson
      ∧ p1.m_transforms = p.m_transforms
      ∧ p1.parseSceneNodes sceneJson.elems = .ok (scene.m_nodes, q1)
      ∧ scene.m_variables = q1.m_variables := by
  unfold SceneParser.parseScene at h
  simp only [bind_ok_iff, pure_ok_iff] at h
  obtain ⟨metadata, _, hasUrl, _, url, _, sceneJson, hscene, ⟨nodes, q1⟩, hloop, h⟩ := h
  cases h
  exact ⟨sceneJson, { p with m_sceneName := metadata.name }, q1, hscene, rfl, hloop, rfl⟩

theorem parseDescription_ok {root : Json} {scene : Scene}
    (h : parseDescription root = .ok scene) :
    ∃ p q, SceneParser.new root = .ok p ∧ p.parseScene = .ok (scene, q) := by
  unfold parseDescription at h
  simp only [bind_ok_iff, pure_ok_iff] at h
  obtain ⟨p, hp, ⟨scene2, q⟩, hq, h⟩ := h
  cases h
  exact ⟨p, q, hp, hq⟩

theorem new_root {root : Json} {p : SceneParser} (h : SceneParser.new root = .ok p) :
    p.m_root = root := by
  unfold SceneParser.new at h
  simp only [bind_ok_iff, pure_ok_iff] at h
  obtain ⟨hasTransforms, _, h⟩ := h
  split at h
  · simp only [bind_ok_iff, pure_ok_iff] at h
    obtain ⟨_, _, _, _, h⟩ := h
    cases h; rfl
  · cases h; rfl

/-! ## The transform table -/

theorem parseTransform_name {p : SceneParser} {name : String} {matrix : Mat4f}
    (h : p.m_transforms.find? name = some matrix) :
    p.parseTransform (.str name) = .ok matrix := by
  unfold SceneParser.parseTransform
  simp [Json.isArray, Json.asString, bind, Except.bind, h, pure, Except.pure]

theorem parseTransform_unknown {p : SceneParser} {ref : Json} (harr : ref.isArray = false)
    (hunknown : ∀ s, ref.asString = .ok s → p.m_transforms.find? s = none) :
    ∃ err, p.parseTransform ref = .error err := by
  unfold SceneParser.parseTransform
  rw [harr]
  cases hs : ref.asString with
  | error err => exact ⟨err, by simp [bind, Except.bind]⟩
  | ok refName =>
    have hfind := hunknown refName hs
    refine ⟨.error ("Transform \x27" ++ refName ++ "\x27 does not exist"), ?_⟩
    simp only [Bool.false_eq_true, if_false, bind, Except.bind, hfind]

theorem buildTransforms_find {items : List (String × Json)} {start table : Map Mat4f}
    (hnodup : (items.map Prod.fst).Nodup) (h : buildTransforms items start = .ok table)
    {name : String} {declared : Json} (hdecl : items.lookup name = some declared) :
    ∃ matrix, parseMatrix declared = .ok matrix ∧ table.find? name = some matrix := by
  have frame : ∀ (items : List (String × Json)) (start table : Map Mat4f),
      buildTransforms items start = .ok table → ∀ key, key ∉ items.map Prod.fst →
      table.find? key = start.find? key := by
    intro items
    induction items with
    | nil => intro start table h key _; cases h; rfl
    | cons kv rest ih =>
      obtain ⟨k, v⟩ := kv
      intro start table h key hkey
      unfold buildTransforms at h
      cases hm : parseMatrix v with
      | error err => rw [hm] at h; cases h
      | ok matrix =>
        rw [hm] at h
        simp only [List.map_cons, List.mem_cons, not_or] at hkey
        rw [ih _ _ h key hkey.2, Map.find?_insert_of_ne _ _ _ _ hkey.1]
  induction items generalizing start with
  | nil => cases hdecl
  | cons kv rest ih =>
    obtain ⟨k, v⟩ := kv
    unfold buildTransforms at h
    simp only [List.map_cons, List.nodup_cons] at hnodup
    cases hm : parseMatrix v with
    | error err => rw [hm] at h; cases h
    | ok matrix =>
      rw [hm] at h
      simp only at h
      by_cases hk : name = k
      · subst hk
        simp only [List.lookup_cons, beq_self_eq_true] at hdecl
        cases hdecl
        refine ⟨matrix, hm, ?_⟩
        rw [frame _ _ _ h name hnodup.1, Map.find?_insert_self]
      · have hk2 : (name == k) = false := by simpa using hk
        simp only [List.lookup_cons, hk2] at hdecl
        exact ih hnodup.2 h hdecl

theorem buildTransforms_error {items : List (String × Json)} (start : Map Mat4f)
    {key : String} {value : Json} (hmem : (key, value) ∈ items)
    (hbad : ∃ err, parseMatrix value = .error err) :
    ∃ err, buildTransforms items start = .error err := by
  induction items generalizing start with
  | nil => cases hmem
  | cons kv rest ih =>
    obtain ⟨k, v⟩ := kv
    unfold buildTransforms
    cases hm : parseMatrix v with
    | error err => exact ⟨err, rfl⟩
    | ok matrix =>
      rcases List.mem_cons.mp hmem with h | h
      · cases h
        obtain ⟨err, herr⟩ := hbad
        rw [hm] at herr; cases herr
      · exact ih _ h

/-- The parser a successful constructor returns: the root, and a table with the matrix of
every member of an object under `transforms`. -/
theorem new_table {root : Json} {p : SceneParser} (hnew : SceneParser.new root = .ok p)
    {table : List (String × Json)} (htable : root.get "transforms" = .ok (.obj table))
    {name : String} {declared : Json} (hdecl : table.lookup name = some declared) :
    ∃ matrix, parseMatrix declared = .ok matrix ∧ p.m_transforms.find? name = some matrix := by
  unfold SceneParser.new at hnew
  simp only [bind_ok_iff, pure_ok_iff] at hnew
  obtain ⟨hasTransforms, hmem, hnew⟩ := hnew
  have hitems : (Json.obj table).items.lookup name = some declared := by
    show (dedupKeys [] table).lookup name = some declared
    rw [dedupKeys_lookup]; simpa using hdecl
  cases hasTransforms with
  | false =>
    exfalso
    unfold Json.isMember at hmem
    unfold Json.get at htable
    cases hf : root.find "transforms" with
    | error err => rw [hf] at hmem; cases hmem
    | ok r =>
      rw [hf] at hmem htable
      cases r with
      | some x => cases hmem
      | none => cases htable
  | true =>
    simp only [if_true, bind_ok_iff, pure_ok_iff] at hnew
    obtain ⟨transformsJson, hget, built, hbuild, hp⟩ := hnew
    rw [htable] at hget
    cases hget
    subst hp
    exact buildTransforms_find (dedupKeys_keys [] table).1 hbuild hitems

/-- A reference of a geometry entry that `parseTransform` cannot resolve makes `parseScene`
fail. -/
theorem parseScene_unresolved {p : SceneParser} {sceneJson e datasetJson transforms ref : Json}
    (hscene : p.m_root.get "scene" = .ok sceneJson) (he : e ∈ sceneJson.elems)
    (htag : typeTag e = .ok "geometry") (hds : e.get "dataset" = .ok datasetJson)
    (htr : datasetJson.get "transforms" = .ok transforms) (href : ref ∈ transforms.elems)
    (hbad : ∃ err, p.parseTransform ref = .error err) :
    ∃ err, p.parseScene = .error err := by
  cases hparse : p.parseScene with
  | error err => exact ⟨err, rfl⟩
  | ok result =>
    exfalso
    obtain ⟨scene, q⟩ := result
    obtain ⟨sceneJson2, p1, q1, hget, htable, hloop, _⟩ := parseScene_ok hparse
    rw [hscene] at hget
    cases hget
    obtain ⟨n, _, hentry⟩ := forall₂_of_mem_left (parseSceneNodes_spec hloop).1 he
    obtain ⟨_, _, datasetJson2, source, hds2, _, _, hkind⟩ := entryParsed_table htable hentry
    rw [hds] at hds2
    cases hds2
    rcases hkind with ⟨_, dataset, transforms2, _, htr2, hall⟩ | ⟨hvol, _⟩
    · rw [htr] at htr2
      cases htr2
      obtain ⟨matrix, _, hok⟩ := forall₂_of_mem_left hall href
      obtain ⟨err, herr⟩ := hbad
      rw [hok] at herr
      cases herr
    · rw [htag] at hvol
      exact absurd hvol (by decide)

theorem parseDescription_error_of_new {root : Json}
    (h : ∃ err, SceneParser.new root = .error err) :
    ∃ err, parseDescription root = .error err := by
  obtain ⟨err, herr⟩ := h
  exact ⟨err, by unfold parseDescription; rw [herr]; rfl⟩

theorem parseDescription_error_of_scene {root : Json}
    (h : ∀ p, SceneParser.new root = .ok p → ∃ err, p.parseScene = .error err) :
    ∃ err, parseDescription root = .error err := by
  unfold parseDescription
  cases hnew : SceneParser.new root with
  | error err => exact ⟨err, rfl⟩
  | ok p =>
    obtain ⟨err, herr⟩ := h p hnew
    exact ⟨err, by simp only [bind, Except.bind, herr]⟩

/-! ## Variable indices (C1) -/

/-- Claim C1 as stated fails: the description `volumeWithTwoSources` parses, and the one variable
recorded for its node `v` carries the index 1, not 0, because the transfer-function source
replaces the registry entry of the node while the counter runs on. -/
theorem indices_continue_in_second_source :
    ∃ scene vars, parseDescription volumeWithTwoSources = .ok scene
      ∧ scene.m_nodes.map SceneNode.name = ["v"]
      ∧ scene.m_variables.find? "v" = some vars
      ∧ vars.count = 1 ∧ vars.indices = [1] ∧ ¬ IndexedFromZero vars :=
  ⟨_, _, rfl, rfl, rfl, rfl, rfl, by decide⟩

/-- Claim C1, amended: when a description parses, then for every entry of its `scene` array
such that no entry carrying the same name is a volume node with a `tf` field or declares a
variable whose type is neither `"float"` nor `"enum"`, the Scene has a node with the name of
the entry, and the variables recorded under that name carry exactly the indices `0 .. n-1`,
increasing in declaration order, where `n` is their number. The numbering starts at 0 for each
node whatever the other nodes declare. -/
theorem variable_indices_restart_per_node (root : Json) (scene : Scene)
    (hparse : parseDescription root = .ok scene)
    (sceneJson : Json) (hscene : root.get "scene" = .ok sceneJson)
    (e : Json) (he : e ∈ sceneJson.elems)
    (hplain : ∀ e2 ∈ sceneJson.elems, entryName e2 = entryName e → PlainEntry e2) :
    ∃ name vars, entryName e = .ok name ∧ (∃ n ∈ scene.m_nodes, n.name = name)
      ∧ scene.m_variables.find? name = some vars ∧ IndexedFromZero vars := by
  obtain ⟨p, q, hnew, hscn⟩ := parseDescription_ok hparse
  obtain ⟨sceneJson2, p1, q1, hget, _, hloop, hvars⟩ := parseScene_ok hscn
  rw [new_root hnew, hscene] at hget
  cases hget
  obtain ⟨name, vars, hname, hfind, hidx⟩ := (parseSceneNodes_registry hloop).2 e he hplain
  refine ⟨name, vars, hname, ?_, hvars ▸ hfind, hidx⟩
  obtain ⟨n, hn, hentry⟩ := forall₂_of_mem_left (parseSceneNodes_spec hloop).1 he
  refine ⟨n, hn, ?_⟩
  have := hentry.1
  rw [hname] at this
  cases this
  rfl

/-- Claim C1, amended, at a concrete input: `twoGeometryNodes` parses, and the variables of
its second node `b` are numbered from 0 although the first node declares two variables. -/
theorem variable_indices_restart_per_node_witness :
    parseDescription twoGeometryNodes = .ok twoGeometryNodesScene
      ∧ ∃ name vars, entryName geometryEntryB = .ok name
        ∧ (∃ n ∈ twoGeometryNodesScene.m_nodes, n.name = name)
        ∧ twoGeometryNodesScene.m_variables.find? name = some vars ∧ IndexedFromZero vars :=
  ⟨by decide,
    variable_indices_restart_per_node twoGeometryNodes twoGeometryNodesScene (by decide)
      (.arr [geometryEntryA, geometryEntryB]) (by decide) geometryEntryB (by decide)
      (by decide)⟩

/-! ## Named transforms (C2, C3) and matrix length (C4) -/

/-- Claim C2: when the parser is constructed for a description whose top-level `transforms`
table declares `name` (with a 16-element array, which construction enforces), `parseTransform`
returns for the reference `name` exactly the matrix `parseMatrix` makes from the declared
value, in every parser state with that table; and when `parseScene` succeeds, every reference
to `name` in the `transforms` list of a geometry entry, at any position of the `scene` array,
has become that matrix at the same position of the node's dataset. -/
theorem named_transform_resolves (root : Json) (p : SceneParser)
    (hnew : SceneParser.new root = .ok p)
    (table : List (String × Json)) (htable : root.get "transforms" = .ok (.obj table))
    (name : String) (declared : Json) (hdecl : table.lookup name = some declared) :
    ∃ matrix, parseMatrix declared = .ok matrix ∧ declared.size = 16
      ∧ (∀ q : SceneParser, q.m_transforms = p.m_transforms
          → q.parseTransform (.str name) = .ok matrix)
      ∧ ∀ scene q sceneJson, p.parseScene = .ok (scene, q) → root.get "scene" = .ok sceneJson
        → List.Forall₂
            (fun e n => typeTag e = .ok "geometry"
              → ∃ dataset datasetJson transforms, n = .geometry n.name n.visibility dataset
                ∧ e.get "dataset" = .ok datasetJson
                ∧ datasetJson.get "transforms" = .ok transforms
                ∧ List.Forall₂ (fun ref m => ref = Json.str name → m = matrix)
                    transforms.elems dataset.transforms)
            sceneJson.elems scene.m_nodes := by
  obtain ⟨matrix, hmatrix, hfind⟩ := new_table hnew htable hdecl
  have hsize : declared.size = 16 := by
    unfold parseMatrix at hmatrix
    by_contra hne
    simp [hne] at hmatrix
  refine ⟨matrix, hmatrix, hsize, fun q hq => ?_, ?_⟩
  · rw [parseTransform_table hq]
    exact parseTransform_name hfind
  · intro scene q sceneJson hparse hscene
    obtain ⟨sceneJson2, p1, q1, hget, htab, hloop, _⟩ := parseScene_ok hparse
    rw [new_root hnew, hscene] at hget
    cases hget
    refine (parseSceneNodes_spec hloop).1.imp (fun e n hentry htag => ?_)
    obtain ⟨_, _, datasetJson, source, hds, _, _, hkind⟩ := entryParsed_table htab hentry
    rcases hkind with ⟨_, dataset, transforms, hn, htr, hall⟩ | ⟨hvol, _⟩
    · refine ⟨dataset, datasetJson, transforms, hn, hds, htr, hall.imp (fun ref m hok href => ?_)⟩
      rw [href, parseTransform_name hfind] at hok
      cases hok
      rfl
    · rw [htag] at hvol
      exact absurd hvol (by decide)

/-- Claim C2 at a concrete input: `namedTransformScene` declares `unit` as the identity, the
parser resolves the name to that matrix, and the geometry node, second in the `scene` array,
receives it in the parsed scene `namedTransformResult`. -/
theorem named_transform_resolves_witness :
    SceneParser.new namedTransformScene = .ok namedTransformParser
      ∧ parseDescription namedTransformScene = .ok namedTransformResult
      ∧ ∃ matrix, parseMatrix identityJson = .ok matrix
        ∧ namedTransformParser.parseTransform (.str "unit") = .ok matrix
        ∧ List.Forall₂
            (fun e n => typeTag e = .ok "geometry"
              → ∃ dataset datasetJson transforms, n = .geometry n.name n.visibility dataset
                ∧ e.get "dataset" = .ok datasetJson
                ∧ datasetJson.get "transforms" = .ok transforms
                ∧ List.Forall₂ (fun ref m => ref = Json.str "unit" → m = matrix)
                    transforms.elems dataset.transforms)
            [plainVolume, geometryWithTransforms [.str "unit"]] namedTransformResult.m_nodes :=
  ⟨by decide, by decide,
    match named_transform_resolves namedTransformScene namedTransformParser (by decide)
      [("unit", identityJson)] (by decide) "unit" identityJson (by decide) with
    | ⟨matrix, hmatrix, _, hstate, hscene⟩ =>
      ⟨matrix, hmatrix, hstate namedTransformParser rfl,
        hscene namedTransformResult
          { namedTransformParser with m_sceneName := "demo", m_nodeName := "g" }
          (.arr [plainVolume, geometryWithTransforms [.str "unit"]]) (by decide) (by decide)⟩⟩

/-- Claim C3: a transform reference that is not an array and whose string value is not a key
of the named-transform table makes `parseTransform` fail, so no matrix (identity or other) is
returned; and a geometry entry of the `scene` array whose dataset `transforms` list contains
such a reference makes `parseScene` fail. -/
theorem unknown_transform_name_fails (p : SceneParser) (ref : Json)
    (harr : ref.isArray = false)
    (hunknown : ∀ s, ref.asString = .ok s → p.m_transforms.find? s = none) :
    (∃ err, p.parseTransform ref = .error err)
      ∧ ∀ sceneJson e datasetJson transforms, p.m_root.get "scene" = .ok sceneJson
        → e ∈ sceneJson.elems → typeTag e = .ok "geometry"
        → e.get "dataset" = .ok datasetJson → datasetJson.get "transforms" = .ok transforms
        → ref ∈ transforms.elems → ∃ err, p.parseScene = .error err := by
  have hfail := parseTransform_unknown harr hunknown
  exact ⟨hfail, fun _ _ _ _ hscene he htag hds htr href =>
    parseScene_unresolved hscene he htag hds htr href hfail⟩

/-- Claim C3 at a concrete input: the reference `missing` of `danglingReferenceScene` is not
resolved, and `parseScene` fails on the parser constructed for that description. -/
theorem unknown_transform_name_fails_witness :
    SceneParser.new danglingReferenceScene = .ok danglingReferenceParser
      ∧ (∃ err, danglingReferenceParser.parseTransform (.str "missing") = .error err)
      ∧ ∃ err, danglingReferenceParser.parseScene = .error err :=
  have h := unknown_transform_name_fails danglingReferenceParser (.str "missing") (by decide)
    (fun s hs => by cases hs; rfl)
  ⟨by decide, h.1,
    h.2 (.arr [geometryWithTransforms [.str "missing"]])
      (geometryWithTransforms [.str "missing"])
      (.obj [("source", downloadSource "g.g3d"), ("transforms", .arr [.str "missing"])])
      (.arr [.str "missing"]) (by decide) (by decide) (by decide) (by decide) (by decide)
      (by decide)⟩

/-- Claim C4: `parseMatrix` fails with an error on every array whose length is not 16; a
description with such an array as a member of its top-level `transforms` table fails in the
constructor of the parser, one with such an array in the `transforms` list of a geometry
dataset makes `parseScene` fail, and in both cases no Scene is produced. -/
theorem short_matrix_fails (xs : List Json) (hlen : xs.length ≠ 16) :
    parseMatrix (.arr xs) = .error (.error "Invalid matrix definition in JSON")
      ∧ (∀ root table key, root.get "transforms" = .ok table → (key, Json.arr xs) ∈ table.items
          → (∃ err, SceneParser.new root = .error err)
            ∧ ∃ err, parseDescription root = .error err)
      ∧ ∀ root sceneJson e datasetJson transforms, root.get "scene" = .ok sceneJson
        → e ∈ sceneJson.elems → typeTag e = .ok "geometry"
        → e.get "dataset" = .ok datasetJson → datasetJson.get "transforms" = .ok transforms
        → Json.arr xs ∈ transforms.elems
        → (∀ p, SceneParser.new root = .ok p → ∃ err, p.parseScene = .error err)
          ∧ ∃ err, parseDescription root = .error err := by
  have hfail : parseMatrix (.arr xs) = .error (.error "Invalid matrix definition in JSON") := by
    unfold parseMatrix
    simp [Json.size, hlen]
  refine ⟨hfail, fun root table key htable hmem => ?_,
    fun root sceneJson e datasetJson transforms hscene he htag hds htr href => ?_⟩
  · have hnew : ∃ err, SceneParser.new root = .error err := by
      unfold SceneParser.new
      have hmember : root.isMember "transforms" = .ok true := by
        unfold Json.get at htable
        unfold Json.isMember
        cases hf : root.find "transforms" with
        | error err => rw [hf] at htable; cases htable
        | ok r =>
          rw [hf] at htable
          cases r with
          | none => cases htable; cases hmem
          | some x => rfl
      obtain ⟨err, herr⟩ := buildTransforms_error [] hmem ⟨_, hfail⟩
      exact ⟨err, by simp only [bind, Except.bind, hmember, htable, if_true, herr]⟩
    exact ⟨hnew, parseDescription_error_of_new hnew⟩
  · have hscn : ∀ p, SceneParser.new root = .ok p → ∃ err, p.parseScene = .error err := by
      intro p hnew
      refine parseScene_unresolved (p := p) (by rw [new_root hnew]; exact hscene) he htag hds
        htr href ?_
      exact ⟨_, by unfold SceneParser.parseTransform; simpa [Json.isArray] using hfail⟩
    exact ⟨hscn, parseDescription_error_of_scene hscn⟩

/-- Claim C4 at a concrete input: an array of fifteen numbers. -/
theorem short_matrix_fails_witness :
    parseMatrix fifteenJson = .error (.error "Invalid matrix definition in JSON")
      ∧ (∃ err, SceneParser.new shortTableScene = .error err)
      ∧ (∃ err, parseDescription shortTableScene = .error err)
      ∧ (∃ err, parseDescription shortInlineScene = .error err) :=
  have h := short_matrix_fails (List.replicate 15 (.int "0" 0)) (by decide)
  ⟨h.1,
    (h.2.1 shortTableScene (.obj [("short", fifteenJson)]) "short" (by decide) (by decide)).1,
    (h.2.1 shortTableScene (.obj [("short", fifteenJson)]) "short" (by decide) (by decide)).2,
    (h.2.2 shortInlineScene (.arr [geometryWithTransforms [fifteenJson]])
      (geometryWithTransforms [fifteenJson])
      (.obj [("source", downloadSource "g.g3d"), ("transforms", .arr [fifteenJson])])
      (.arr [fifteenJson]) (by decide) (by decide) (by decide) (by decide) (by decide)
      (by decide)).2⟩

/-! ## All or nothing (C6) and unknown type tags (C7, C8) -/

/-- Claim C6: for every description, constructing the parser and running `parseScene` either
fails or returns a Scene whose node sequence has the length of the `scene` array and whose
i-th node has the name, the kind (geometry or volume) and the visibility derived from the i-th
entry; no Scene is returned with entries dropped or reordered. -/
theorem nodes_follow_entries (root : Json) :
    (∃ err, parseDescription root = .error err)
      ∨ ∃ scene sceneJson, parseDescription root = .ok scene
        ∧ root.get "scene" = .ok sceneJson
        ∧ scene.m_nodes.length = sceneJson.elems.length
        ∧ ∀ (i : Nat) (e : Json), sceneJson.elems[i]? = some e
          → ∃ n : SceneNode, scene.m_nodes[i]? = some n ∧ entryName e = .ok n.name
            ∧ parseVisibility e = .ok n.visibility
            ∧ ((typeTag e = .ok "geometry" ∧ n.isGeometry = true)
              ∨ (typeTag e = .ok "volume" ∧ n.isGeometry = false)) := by
  cases hparse : parseDescription root with
  | error err => exact Or.inl ⟨err, rfl⟩
  | ok scene =>
    refine Or.inr ?_
    obtain ⟨p, q, hnew, hscn⟩ := parseDescription_ok hparse
    obtain ⟨sceneJson, p1, q1, hget, _, hloop, _⟩ := parseScene_ok hscn
    rw [new_root hnew] at hget
    obtain ⟨hlen, hidx⟩ := forall₂_getElem (parseSceneNodes_spec hloop).1
    refine ⟨scene, sceneJson, rfl, hget, hlen, fun i e hi => ?_⟩
    obtain ⟨n, hn, hname, hvis, _, _, _, _, _, hkind⟩ := hidx i e hi
    refine ⟨n, hn, hname, hvis, ?_⟩
    rcases hkind with ⟨htag, dataset, _, hgeo, _⟩ | ⟨htag, hvol, _⟩
    · exact Or.inl ⟨htag, by rw [hgeo]; rfl⟩
    · exact Or.inr ⟨htag, hvol⟩

/-- Claim C8 fails on the code: `unknownVariableTypeScene` declares a variable of type `int`,
and it parses; the entry is skipped (no variable is recorded for the node) and no error is
raised. -/
theorem unknown_variable_type_is_accepted :
    parseDescription unknownVariableTypeScene
      = .ok ⟨⟨"demo", ""⟩,
          [.geometry "a" .VisibleBoth ⟨.python "demo" "a.py" ⟨[], []⟩, [], none⟩],
          [("a", ⟨[], []⟩)], ""⟩ := by
  decide

/-! ## Visibility (C9, C10) -/

theorem isFalseMember_obj {members : List (String × Json)} {key : String} :
    isFalseMember (.obj members) key
      = .ok (decide (members.lookup key = some (.bool false))) := by
  unfold isFalseMember
  simp only [Json.isMember_obj, Json.get_obj, bind, Except.bind, pure, Except.pure]
  cases h : members.lookup key with
  | none => simp
  | some v => cases v <;> simp [Json.eqBool]

/-- Claim C9: for a node object whose `view2d` is the boolean false and whose `view3d` is
absent or not the boolean false, `parseVisibility` returns `Visible3D`. -/
theorem view2d_false_gives_visible3D (members : List (String × Json))
    (h2d : members.lookup "view2d" = some (.bool false))
    (h3d : members.lookup "view3d" ≠ some (.bool false)) :
    parseVisibility (.obj members) = .ok Visibility.Visible3D := by
  unfold parseVisibility
  simp [isFalseMember_obj, h2d, h3d, bind, Except.bind, pure, Except.pure]

/-- Claim C9 at a concrete input: a geometry node with `view2d: false` and no `view3d`. -/
theorem view2d_false_gives_visible3D_witness :
    parseVisibility (.obj [("type", .str "geometry"), ("name", .str "g"),
      ("view2d", .bool false), ("dataset", .obj [("source", downloadSource "g.g3d")])])
      = .ok Visibility.Visible3D :=
  view2d_false_gives_visible3D _ (by decide) (by decide)

/-! ## Failed loads (C5) -/

/-- Claim C5 fails on the code: with `oldScene` loaded, `loadScene("demo")` on a server that
lists `badViewDescription` throws while the initial 3D view is parsed, and by then `m_scene` has
been replaced by the new scene; the initial parameters and both cached controllers, made for
the old scene, stay as they were. -/
theorem failed_load_replaces_scene :
    ∀ (axisOf : String → Except Failure CoordinateAxis) (default2D : RenderParameters2D),
      (loaderWithScene.loadScene axisOf default2D (.arr [badViewDescription]) "demo").1
          = .error (.error "Invalid 3D vector definition in JSON")
        ∧ (loaderWithScene.loadScene axisOf default2D (.arr [badViewDescription]) "demo").2
          = { loaderWithScene with m_scene := some badViewScene }
        ∧ some badViewScene ≠ loaderWithScene.m_scene := by
  intro axisOf default2D
  exact ⟨rfl, rfl, by decide⟩

/-! ## The root is not read while nodes are parsed -/

theorem updateVariables_withRoot (r : Json) (p : SceneParser) (f : Variables → Variables) :
    (withRoot r p).updateVariables f = liftRootOnly r (p.updateVariables f) := by
  unfold SceneParser.updateVariables liftRootOnly withRoot
  simp only
  cases p.m_variables.find? p.m_nodeName <;> rfl

theorem parseFloatVariable_withRoot (r : Json) (p : SceneParser) (node : Json) :
    (withRoot r p).parseFloatVariable node = liftRootOnly r (p.parseFloatVariable node) := by
  unfold SceneParser.parseFloatVariable
  simp only [updateVariables_withRoot]
  simp only [withRoot, liftRootOnly, bind, Except.bind]
  repeat' split
  all_goals first | rfl | simp_all

theorem parseEnumVariable_withRoot (r : Json) (p : SceneParser) (node : Json) :
    (withRoot r p).parseEnumVariable node = liftRootOnly r (p.parseEnumVariable node) := by
  unfold SceneParser.parseEnumVariable
  simp only [updateVariables_withRoot]
  simp only [withRoot, liftRootOnly, bind, Except.bind]
  repeat' split
  all_goals first | rfl | simp_all

theorem parseParam_withRoot (r : Json) (p : SceneParser) (node : Json) :
    (withRoot r p).parseParam node = liftRootOnly r (p.parseParam node) := by
  unfold SceneParser.parseParam
  simp only [bind, Except.bind, pure, Except.pure]
  cases node.get "type" with
  | error e => rfl
  | ok type =>
    simp only
    by_cases hf : type.eqString "float" = true
    · simp only [hf, if_true, parseFloatVariable_withRoot]
      cases p.parseFloatVariable node <;> rfl
    · by_cases he : type.eqString "enum" = true
      · simp only [hf, he, if_true, if_false, parseEnumVariable_withRoot]
        cases p.parseEnumVariable node <;> rfl
      · simp only [hf, he, if_false]
        rfl

theorem parseParamsLoop_withRoot (r : Json) (p : SceneParser) (nodes : List Json) :
    (withRoot r p).parseParamsLoop nodes = liftRootOnly r (p.parseParamsLoop nodes) := by
  induction nodes generalizing p with
  | nil => rfl
  | cons node rest ih =>
    unfold SceneParser.parseParamsLoop
    rw [parseParam_withRoot]
    cases h : p.parseParam node with
    | error e => rfl
    | ok p1 => exact ih p1

theorem parsePython_withRoot (r : Json) (p : SceneParser) (node : Json) :
    (withRoot r p).parsePython node = liftRoot r (p.parsePython node) := by
  unfold SceneParser.parsePython SceneParser.parseParams
  simp only [bind, Except.bind, pure, Except.pure]
  cases node.get "filename" with
  | error e => rfl
  | ok fileJson =>
    simp only
    cases fileJson.asString with
    | error e => rfl
    | ok fileName =>
      simp only
      cases node.get "variables" with
      | error e => rfl
      | ok varsJson =>
        simp only [parseParamsLoop_withRoot]
        cases p.parseParamsLoop varsJson.elems with
        | error e => rfl
        | ok p1 =>
          simp only [liftRootOnly]
          show (match p1.m_variables.find? p1.m_nodeName with
            | some vars => Except.ok (DataProvider.python p1.m_sceneName fileName vars,
                withRoot r p1)
            | none => Except.error (Failure.fault "no Variables object for the node")) = _
          cases p1.m_variables.find? p1.m_nodeName <;> rfl

theorem parseProvider_withRoot (r : Json) (p : SceneParser) (node : Json) :
    (withRoot r p).parseProvider node = liftRoot r (p.parseProvider node) := by
  unfold SceneParser.parseProvider
  have h := parsePython_withRoot r
    { p with m_variables := Map.insert p.m_nodeName ⟨[], []⟩ p.m_variables } node
  simp only [bind, Except.bind, pure, Except.pure, SceneParser.parseDownload]
  cases node.get "type" with
  | error e => rfl
  | ok typeJson =>
    simp only
    cases typeJson.asString with
    | error e => rfl
    | ok type =>
      simp only
      by_cases hd : (type == "download") = true
      · simp only [hd, if_true]
        cases node.get "filename" with
        | error e => rfl
        | ok fileJson =>
          simp only
          cases fileJson.asString <;> rfl
      · by_cases hp : (type == "python") = true
        · simp only [hd, hp, if_true, if_false]
          exact h
        · simp only [hd, hp, if_false]
          rfl

theorem parseTransforms_withRoot (r : Json) (p : SceneParser) (refs : List Json) :
    (withRoot r p).parseTransforms refs = p.parseTransforms refs := by
  induction refs with
  | nil => rfl
  | cons ref rest ih =>
    unfold SceneParser.parseTransforms
    rw [ih]
    rfl

theorem parseProvider_root {r : Json} {p q : SceneParser} {node : Json}
    {provider : DataProvider} (h : p.parseProvider node = .ok (provider, q)) :
    (withRoot r p).parseProvider node = .ok (provider, withRoot r q) := by
  rw [parseProvider_withRoot, h]
  rfl

theorem parseGeometryDataset_root {r : Json} {p q : SceneParser} {node : Json}
    {dataset : GeometryDataset} (h : p.parseGeometryDataset node = .ok (dataset, q)) :
    (withRoot r p).parseGeometryDataset node = .ok (dataset, withRoot r q) := by
  unfold SceneParser.parseGeometryDataset at h ⊢
  simp only [bind_ok_iff, pure_ok_iff] at h ⊢
  obtain ⟨source, h1, ⟨provider, p1⟩, h2, hasTransforms, h3, transforms, h4, hasColor, h5,
    color, h6, h7⟩ := h
  cases h7
  refine ⟨source, h1, (provider, withRoot r p1), parseProvider_root h2, hasTransforms, h3,
    transforms, ?_, hasColor, h5, color, h6, rfl⟩
  simp only [parseTransforms_withRoot]
  exact h4

theorem readsAlike_refl (e : Json) : ReadsAlike e e :=
  ⟨rfl, rfl, rfl, rfl, rfl⟩

theorem parseGeometryNode_transfer {r : Json} {p q : SceneParser} {e e2 : Json}
    {n2 : SceneNode} {visibility : Visibility} (hsame : ReadsAlike e e2)
    (hvis : parseVisibility e = .ok visibility)
    (h : p.parseGeometryNode e2 = .ok (n2, q)) :
    (withRoot r p).parseGeometryNode e = .ok (n2.withVisibility visibility, withRoot r q) := by
  obtain ⟨_, hname, hds, _, _⟩ := hsame
  unfold SceneParser.parseGeometryNode at h ⊢
  simp only [bind_ok_iff, pure_ok_iff] at h ⊢
  obtain ⟨nameJson, h1, name, h2, visibility2, _, datasetJson, h4, ⟨dataset, p1⟩, h5, h6⟩ := h
  cases h6
  have h5r := parseGeometryDataset_root (r := r) h5
  have hrec : withRoot r { p with m_nodeName := name }
      = { withRoot r p with m_nodeName := name } := rfl
  rw [hrec] at h5r
  refine ⟨nameJson, ?_, name, h2, visibility, hvis, datasetJson, ?_,
    (dataset, withRoot r p1), h5r, ?_⟩
  · rw [hname]; exact h1
  · rw [hds]; exact h4
  · cases p1; rfl

theorem parseVolumeNode_transfer {r : Json} {p q : SceneParser} {e e2 : Json}
    {n2 : SceneNode} {visibility : Visibility} (hsame : ReadsAlike e e2)
    (hvis : parseVisibility e = .ok visibility)
    (h : p.parseVolumeNode e2 = .ok (n2, q)) :
    (withRoot r p).parseVolumeNode e = .ok (n2.withVisibility visibility, withRoot r q) := by
  obtain ⟨_, hname, hds, hmem, htf⟩ := hsame
  unfold SceneParser.parseVolumeNode SceneParser.parseVolumeDataset at h ⊢
  simp only [bind_ok_iff, pure_ok_iff] at h ⊢
  obtain ⟨nameJson, h1, name, h2, visibility2, _, datasetJson, h4, ⟨dataset, p1⟩,
    ⟨source, h5, ⟨provider, p2⟩, h6, h7⟩, hasTf, h8, ⟨tf, p3⟩, h9, h10⟩ := h
  cases h7
  cases h10
  have h6r := parseProvider_root (r := r) h6
  have hrec : withRoot r { p with m_nodeName := name }
      = { withRoot r p with m_nodeName := name } := rfl
  rw [hrec] at h6r
  refine ⟨nameJson, ?_, name, h2, visibility, hvis, datasetJson, ?_,
    (⟨provider⟩, withRoot r p2), ⟨source, h5, (provider, withRoot r p2), h6r, rfl⟩,
    hasTf, ?_, (tf, withRoot r p3), ?_, ?_⟩
  · rw [hname]; exact h1
  · rw [hds]; exact h4
  · rw [hmem]; exact h8
  rotate_left
  · cases p3; rfl
  cases hasTf with
  | false =>
    simp only [Bool.false_eq_true, if_false, pure_ok_iff] at h9 ⊢
    cases h9
    rfl
  | true =>
    simp only [if_true, bind_ok_iff] at h9 ⊢
    obtain ⟨tfJson, h11, h12⟩ := h9
    refine ⟨tfJson, by rw [htf]; exact h11, ?_⟩
    unfold SceneParser.parseTransferFunction at h12 ⊢
    simp only [bind_ok_iff, pure_ok_iff] at h12 ⊢
    obtain ⟨tfSource, h13, ⟨provider2, p4⟩, h14, h15⟩ := h12
    cases h15
    exact ⟨tfSource, h13, (provider2, withRoot r p4), parseProvider_root h14, rfl⟩

theorem parseSceneNode_transfer {r : Json} {p q : SceneParser} {e e2 : Json}
    {n2 : SceneNode} {visibility : Visibility} (hsame : ReadsAlike e e2)
    (hvis : parseVisibility e = .ok visibility)
    (h : p.parseSceneNode e2 = .ok (n2, q)) :
    (withRoot r p).parseSceneNode e = .ok (n2.withVisibility visibility, withRoot r q) := by
  have htype := hsame.1
  unfold SceneParser.parseSceneNode at h ⊢
  simp only [bind_ok_iff] at h ⊢
  obtain ⟨typeJson, h1, type, h2, h3⟩ := h
  refine ⟨typeJson, by rw [htype]; exact h1, type, h2, ?_⟩
  have hrec : withRoot r { p with m_varIndex := 0 }
      = { withRoot r p with m_varIndex := 0 } := rfl
  by_cases hg : (type == "geometry") = true
  · simp only [hg, if_true] at h3 ⊢
    have := parseGeometryNode_transfer (r := r) hsame hvis h3
    rw [hrec] at this
    exact this
  · by_cases hv : (type == "volume") = true
    · simp only [hg, hv, if_true, if_false] at h3 ⊢
      have := parseVolumeNode_transfer (r := r) hsame hvis h3
      rw [hrec] at this
      exact this
    · simp only [hg, hv, if_false] at h3
      cases h3

theorem withVisibility_self (n : SceneNode) : n.withVisibility n.visibility = n := by
  cases n <;> rfl

theorem parseSceneNodes_root {r : Json} {p q : SceneParser} {es : List Json}
    {ns : List SceneNode} (h : p.parseSceneNodes es = .ok (ns, q)) :
    (withRoot r p).parseSceneNodes es = .ok (ns, withRoot r q) := by
  induction es generalizing p ns with
  | nil => cases h; rfl
  | cons e rest ih =>
    obtain ⟨n, p1, ns1, h1, h2, rfl⟩ := parseSceneNodes_cons h
    have hvis := (parseSceneNode_spec h1).1.2.1
    have hnode := parseSceneNode_transfer (r := r) (readsAlike_refl e) hvis h1
    rw [withVisibility_self] at hnode
    unfold SceneParser.parseSceneNodes
    rw [hnode]
    simp only
    rw [ih h2]

/-- Replacing one entry of the `scene` array by one the parser reads alike, and that has the
visibility `visibility`, changes the outcome of the loop in the visibility of that node only. -/
theorem parseSceneNodes_transfer {r : Json} {p q : SceneParser} {pre post : List Json}
    {e e2 : Json} {ns2 : List SceneNode} {visibility : Visibility} (hsame : ReadsAlike e e2)
    (hvis : parseVisibility e = .ok visibility)
    (h : p.parseSceneNodes (pre ++ e2 :: post) = .ok (ns2, q)) :
    ∃ before n2 after, ns2 = before ++ n2 :: after ∧ before.length = pre.length
      ∧ (withRoot r p).parseSceneNodes (pre ++ e :: post)
          = .ok (before ++ n2.withVisibility visibility :: after, withRoot r q) := by
  induction pre generalizing p ns2 with
  | nil =>
    obtain ⟨n, p1, ns1, h1, h2, rfl⟩ := parseSceneNodes_cons h
    refine ⟨[], n, ns1, rfl, rfl, ?_⟩
    have hnode := parseSceneNode_transfer (r := r) hsame hvis h1
    simp only [List.nil_append]
    unfold SceneParser.parseSceneNodes
    rw [hnode]
    simp only
    rw [parseSceneNodes_root h2]
  | cons e0 rest ih =>
    obtain ⟨n, p1, ns1, h1, h2, rfl⟩ := parseSceneNodes_cons h
    obtain ⟨before, n2, after, hns, hlen, hloop⟩ := ih h2
    refine ⟨n :: before, n2, after, by rw [hns]; rfl, by simp [hlen], ?_⟩
    have hvis0 := (parseSceneNode_spec h1).1.2.1
    have hnode := parseSceneNode_transfer (r := r) (readsAlike_refl e0) hvis0 h1
    rw [withVisibility_self] at hnode
    simp only [List.cons_append]
    unfold SceneParser.parseSceneNodes
    rw [hnode]
    simp only
    rw [hloop]

theorem readsAlike_of_sameButViews {a b : List (String × Json)} (h : SameButViews a b) :
    ReadsAlike (.obj a) (.obj b) := by
  unfold ReadsAlike
  simp only [Json.get_obj, Json.isMember_obj]
  rw [h "type" (by decide) (by decide), h "name" (by decide) (by decide),
    h "dataset" (by decide) (by decide), h "tf" (by decide) (by decide)]
  exact ⟨rfl, rfl, rfl, rfl, rfl⟩

theorem new_sameButScene {top top2 : List (String × Json)} (hsame : SameButScene top top2)
    {p2 : SceneParser} (h : SceneParser.new (.obj top2) = .ok p2) :
    SceneParser.new (.obj top) = .ok (withRoot (.obj top) p2) := by
  unfold SceneParser.new at h ⊢
  simp only [bind_ok_iff, pure_ok_iff, Json.get_obj, Json.isMember_obj] at h ⊢
  rw [hsame "transforms" (by decide)]
  obtain ⟨hasTransforms, h1, h2⟩ := h
  refine ⟨hasTransforms, h1, ?_⟩
  cases hasTransforms with
  | false =>
    simp only [Bool.false_eq_true, if_false, pure_ok_iff] at h2 ⊢
    cases h2
    rfl
  | true =>
    simp only [if_true, bind_ok_iff, pure_ok_iff] at h2 ⊢
    obtain ⟨transformsJson, h3, table, h4, h5⟩ := h2
    cases h5
    exact ⟨transformsJson, h3, table, h4, rfl⟩

theorem parseMetadata_sameButScene {top top2 : List (String × Json)}
    (hsame : SameButScene top top2) : parseMetadata (.obj top) = parseMetadata (.obj top2) := by
  unfold parseMetadata
  simp only [Json.get_obj]
  rw [hsame "metadata" (by decide)]

/-- Two descriptions that differ in one entry of the `scene` array only, the two entries being
read alike apart from the view flags: when the second description parses, so does the first,
to the same Scene but for the visibility of the node of that entry. -/
theorem parseDescription_transfer {top top2 : List (String × Json)} {pre post : List Json}
    {e e2 : Json} {visibility : Visibility} {scene2 : Scene}
    (htop : SameButScene top top2) (hsame : ReadsAlike e e2)
    (hvis : parseVisibility e = .ok visibility)
    (hscene : top.lookup "scene" = some (.arr (pre ++ e :: post)))
    (hscene2 : top2.lookup "scene" = some (.arr (pre ++ e2 :: post)))
    (h : parseDescription (.obj top2) = .ok scene2) :
    ∃ before n2 after, scene2.m_nodes = before ++ n2 :: after ∧ before.length = pre.length
      ∧ parseDescription (.obj top)
          = .ok { scene2 with m_nodes := before ++ n2.withVisibility visibility :: after } := by
  obtain ⟨p2, q2, hnew2, hparse2⟩ := parseDescription_ok h
  have hnew := new_sameButScene htop hnew2
  have hroot2 := new_root hnew2
  unfold SceneParser.parseScene at hparse2
  simp only [bind_ok_iff, pure_ok_iff] at hparse2
  obtain ⟨metadata, h1, hasUrl, h2, url, h3, sceneJson, h4, ⟨nodes, q1⟩, h5, h6⟩ := hparse2
  cases h6
  rw [hroot2] at h1 h2 h3 h4
  rw [Json.get_obj, hscene2] at h4
  cases h4
  obtain ⟨before, n2, after, hns, hlen, hloop⟩ :=
    parseSceneNodes_transfer (r := .obj top) hsame hvis h5
  refine ⟨before, n2, after, hns, hlen, ?_⟩
  unfold parseDescription
  rw [hnew]
  simp only [bind, Except.bind]
  have hparse : (withRoot (.obj top) p2).parseScene
      = .ok (⟨metadata, before ++ n2.withVisibility visibility :: after, q1.m_variables, url⟩,
          { withRoot (.obj top) q1 with m_variables := [] }) := by
    unfold SceneParser.parseScene
    simp only [bind_ok_iff, pure_ok_iff]
    have hr : (withRoot (.obj top) p2).m_root = .obj top := rfl
    rw [hr]
    refine ⟨metadata, by rw [parseMetadata_sameButScene htop]; exact h1, hasUrl, ?_, url, ?_,
      .arr (pre ++ e :: post), by rw [Json.get_obj, hscene]; rfl,
      (before ++ n2.withVisibility visibility :: after, withRoot (.obj top) q1), hloop, rfl⟩
    · rw [Json.isMember_obj, htop "webViewURL" (by decide)]
      exact h2
    · rw [Json.get_obj, htop "webViewURL" (by decide)]
      exact h3
  rw [hparse]
  rfl

/-! ## Hidden nodes (C10) -/

/-- Claim C10: for a node object whose `view2d` and `view3d` are both the boolean false,
`parseVisibility` returns `VisibleNone` and raises no error; and a description with such a
node parses whenever it parses with other view flags on that node (that is, whenever it is
otherwise valid), to the same Scene except that the node, at its position, has the visibility
`VisibleNone`. -/
theorem hidden_node_still_parses (members : List (String × Json))
    (h2d : members.lookup "view2d" = some (.bool false))
    (h3d : members.lookup "view3d" = some (.bool false)) :
    parseVisibility (.obj members) = .ok Visibility.VisibleNone
      ∧ ∀ (top top2 members2 : List (String × Json)) (pre post : List Json) (scene2 : Scene),
        SameButScene top top2 → SameButViews members members2
        → top.lookup "scene" = some (.arr (pre ++ .obj members :: post))
        → top2.lookup "scene" = some (.arr (pre ++ .obj members2 :: post))
        → parseDescription (.obj top2) = .ok scene2
        → ∃ before n2 after, scene2.m_nodes = before ++ n2 :: after
          ∧ before.length = pre.length
          ∧ parseDescription (.obj top)
              = .ok { scene2 with
                  m_nodes := before ++ n2.withVisibility .VisibleNone :: after } := by
  have hvis : parseVisibility (.obj members) = .ok Visibility.VisibleNone := by
    unfold parseVisibility
    simp [isFalseMember_obj, h2d, h3d, bind, Except.bind, pure, Except.pure]
  exact ⟨hvis, fun top top2 members2 pre post scene2 htop hviews hscene hscene2 hparse =>
    parseDescription_transfer htop (readsAlike_of_sameButViews hviews) hvis hscene hscene2
      hparse⟩

theorem sameButScene_demo (entries entries2 : List Json) :
    SameButScene (demoMembers entries) (demoMembers entries2) := by
  intro key hkey
  have hne : (key == "scene") = false := by simpa using hkey
  simp [demoMembers, List.lookup, hne]

theorem sameButViews_viewMembers (a b c d : Json) :
    SameButViews (viewMembers a b) (viewMembers c d) := by
  intro key h2d h3d
  have hne2 : (key == "view2d") = false := by simpa using h2d
  have hne3 : (key == "view3d") = false := by simpa using h3d
  simp [viewMembers, List.lookup, hne2, hne3]

/-- Claim C10 at a concrete input: the entry `h`, second of three, with both flags false. The
description parses to `threeNodesScene` when the flags are true, and to the same scene with
`h` invisible when they are false. -/
theorem hidden_node_still_parses_witness :
    parseVisibility (.obj (viewMembers (.bool false) (.bool false)))
        = .ok Visibility.VisibleNone
      ∧ ∃ before n2 after, threeNodesScene.m_nodes = before ++ n2 :: after
        ∧ before.length = [geometryWithTransforms []].length
        ∧ parseDescription (.obj (demoMembers [geometryWithTransforms [],
              .obj (viewMembers (.bool false) (.bool false)), plainVolume]))
            = .ok { threeNodesScene with
                m_nodes := before ++ n2.withVisibility .VisibleNone :: after } :=
  have h := hidden_node_still_parses (viewMembers (.bool false) (.bool false)) (by decide)
    (by decide)
  ⟨h.1,
    h.2 (demoMembers [geometryWithTransforms [], .obj (viewMembers (.bool false) (.bool false)),
          plainVolume])
      (demoMembers [geometryWithTransforms [], .obj (viewMembers (.bool true) (.bool true)),
          plainVolume])
      (viewMembers (.bool true) (.bool true)) [geometryWithTransforms []] [plainVolume]
      threeNodesScene (sameButScene_demo _ _) (sameButViews_viewMembers _ _ _ _) (by decide)
      (by decide) (by decide)⟩

/-! ## The variable map of a view -/

theorem mem_keys_iff {α : Type} (m : Map α) (key : String) :
    key ∈ m.keys ↔ (m.find? key).isSome = true := by
  induction m with
  | nil => simp [Map.keys, Map.find?, List.lookup]
  | cons kv rest ih =>
    obtain ⟨k, v⟩ := kv
    unfold Map.keys Map.find? at ih ⊢
    simp only [List.map_cons, List.mem_cons, List.lookup_cons]
    by_cases hk : key = k
    · subst hk; simp
    · have hne : (key == k) = false := by simpa using hk
      simp only [hk, hne, false_or]
      exact ih

theorem entryOf_insert_self (m : Map Variables) (name : String) (vars : Variables) :
    entryOf (Map.insert name vars m) name = vars := by
  unfold entryOf
  rw [Map.find?_insert_self]
  rfl

theorem foldl_pushFloat (name : String) (vars : List FloatVariable) (result : Map Variables) :
    entryOf (vars.foldl (pushFloat name) result) name
        = ⟨(entryOf result name).floatVariables ++ vars, (entryOf result name).enumVariables⟩
      ∧ ∀ other, other ≠ name
        → (vars.foldl (pushFloat name) result).find? other = result.find? other := by
  induction vars generalizing result with
  | nil => exact ⟨by simp, fun _ _ => rfl⟩
  | cons v rest ih =>
    obtain ⟨h1, h2⟩ := ih (pushFloat name result v)
    simp only [List.foldl_cons]
    refine ⟨?_, fun other hne => ?_⟩
    · rw [h1]
      unfold pushFloat
      rw [entryOf_insert_self]
      simp
    · rw [h2 other hne]
      exact Map.find?_insert_of_ne _ _ _ _ hne

theorem foldl_pushEnum (name : String) (vars : List EnumVariable) (result : Map Variables) :
    entryOf (vars.foldl (pushEnum name) result) name
        = ⟨(entryOf result name).floatVariables, (entryOf result name).enumVariables ++ vars⟩
      ∧ ∀ other, other ≠ name
        → (vars.foldl (pushEnum name) result).find? other = result.find? other := by
  induction vars generalizing result with
  | nil => exact ⟨by simp, fun _ _ => rfl⟩
  | cons v rest ih =>
    obtain ⟨h1, h2⟩ := ih (pushEnum name result v)
    simp only [List.foldl_cons]
    refine ⟨?_, fun other hne => ?_⟩
    · rw [h1]
      unfold pushEnum
      rw [entryOf_insert_self]
      simp
    · rw [h2 other hne]
      exact Map.find?_insert_of_ne _ _ _ _ hne

/-- One visible node: its registry entry is appended to the entry of its name, and no other
name is touched. -/
theorem push_node (name : String) (vars : Variables) (result : Map Variables) :
    entryOf (vars.enumVariables.foldl (pushEnum name)
        (vars.floatVariables.foldl (pushFloat name) result)) name
        = ⟨(entryOf result name).floatVariables ++ vars.floatVariables,
            (entryOf result name).enumVariables ++ vars.enumVariables⟩
      ∧ ∀ other, other ≠ name
        → (vars.enumVariables.foldl (pushEnum name)
            (vars.floatVariables.foldl (pushFloat name) result)).find? other
          = result.find? other := by
  obtain ⟨f1, f2⟩ := foldl_pushFloat name vars.floatVariables result
  obtain ⟨e1, e2⟩ := foldl_pushEnum name vars.enumVariables
    (vars.floatVariables.foldl (pushFloat name) result)
  refine ⟨?_, fun other hne => ?_⟩
  · rw [e1, f1]
  · rw [e2 other hne, f2 other hne]

theorem variableMapLoop_cons {View : Type} {isVisibleInView : SceneNode → View → Bool}
    {registry : Map Variables} {view : View} {node : SceneNode} {rest : List SceneNode}
    {start result : Map Variables}
    (h : Scene.variableMapLoop isVisibleInView registry view (node :: rest) start = .ok result) :
    (isVisibleInView node view = false
        ∧ Scene.variableMapLoop isVisibleInView registry view rest start = .ok result)
      ∨ (isVisibleInView node view = true ∧ ∃ vars, registry.find? node.name = some vars
        ∧ Scene.variableMapLoop isVisibleInView registry view rest
            (vars.enumVariables.foldl (pushEnum node.name)
              (vars.floatVariables.foldl (pushFloat node.name) start)) = .ok result) := by
  unfold Scene.variableMapLoop at h
  cases hvis : isVisibleInView node view with
  | false =>
    rw [hvis] at h
    exact Or.inl ⟨rfl, by simpa using h⟩
  | true =>
    rw [hvis] at h
    simp only [if_true] at h
    cases hfind : registry.find? node.name with
    | none => rw [hfind] at h; cases h
    | some vars =>
      rw [hfind] at h
      exact Or.inr ⟨rfl, vars, rfl, h⟩

/-- Names that no visible node carries keep what the map held at the start of the loop. -/
theorem variableMapLoop_frame {View : Type} {isVisibleInView : SceneNode → View → Bool}
    {registry : Map Variables} {view : View} {nodes : List SceneNode}
    {start result : Map Variables}
    (h : Scene.variableMapLoop isVisibleInView registry view nodes start = .ok result)
    (key : String) (hkey : ∀ n ∈ nodes, isVisibleInView n view = true → n.name ≠ key) :
    result.find? key = start.find? key := by
  induction nodes generalizing start with
  | nil => cases h; rfl
  | cons node rest ih =>
    rcases variableMapLoop_cons h with ⟨_, hrest⟩ | ⟨hvis, vars, _, hrest⟩
    · exact ih hrest (fun n hn => hkey n (List.mem_cons_of_mem _ hn))
    · rw [ih hrest (fun n hn => hkey n (List.mem_cons_of_mem _ hn))]
      exact (push_node node.name vars start).2 key
        (fun heq => hkey node (List.mem_cons_self _ _) hvis heq.symm)

/-- With pairwise distinct names among the visible nodes, the loop appends the registry entry
of each visible node once to the entry of its name. -/
theorem variableMapLoop_entry {View : Type} {isVisibleInView : SceneNode → View → Bool}
    {registry : Map Variables} {view : View} {nodes : List SceneNode}
    {start result : Map Variables}
    (h : Scene.variableMapLoop isVisibleInView registry view nodes start = .ok result)
    (hdistinct : ((nodes.filter (fun n => isVisibleInView n view)).map SceneNode.name).Nodup)
    {n : SceneNode} (hn : n ∈ nodes) (hvisible : isVisibleInView n view = true) :
    ∃ vars, registry.find? n.name = some vars
      ∧ entryOf result n.name
        = ⟨(entryOf start n.name).floatVariables ++ vars.floatVariables,
            (entryOf start n.name).enumVariables ++ vars.enumVariables⟩ := by
  induction nodes generalizing start with
  | nil => cases hn
  | cons node rest ih =>
    rcases variableMapLoop_cons h with ⟨hvis, hrest⟩ | ⟨hvis, vars, hfind, hrest⟩
    · have hrestd : ((rest.filter (fun n => isVisibleInView n view)).map SceneNode.name).Nodup := by
        simpa [List.filter_cons, hvis] using hdistinct
      rcases List.mem_cons.mp hn with heq | hmem
      · subst heq; rw [hvis] at hvisible; cases hvisible
      · exact ih hrest hrestd hmem
    · simp only [List.filter_cons, hvis, if_true, List.map_cons, List.nodup_cons] at hdistinct
      obtain ⟨hfresh, hrestd⟩ := hdistinct
      by_cases hname : node.name = n.name
      · refine ⟨vars, hname ▸ hfind, ?_⟩
        have hkeep := variableMapLoop_frame hrest n.name (fun m hm hmv heq =>
          hfresh (List.mem_map.mpr ⟨m, List.mem_filter.mpr ⟨hm, by simpa using hmv⟩,
            heq.trans hname.symm⟩))
        unfold entryOf at *
        rw [hkeep, ← hname]
        exact (push_node node.name vars start).1
      · rcases List.mem_cons.mp hn with heq | hmem
        · exact absurd (heq ▸ rfl) hname
        · obtain ⟨vars2, hfind2, hentry⟩ := ih hrest hrestd hmem
          refine ⟨vars2, hfind2, ?_⟩
          rw [hentry]
          have hsame := (push_node node.name vars start).2 n.name (fun heq => hname heq.symm)
          unfold entryOf
          rw [hsame]

/-- The entry of a name after the loop: the registry entry of the name, appended once for every
visible node of that name. -/
theorem variableMapLoop_counts {View : Type} {isVisibleInView : SceneNode → View → Bool}
    {registry : Map Variables} {view : View} {nodes : List SceneNode}
    {start result : Map Variables}
    (h : Scene.variableMapLoop isVisibleInView registry view nodes start = .ok result)
    {key : String} {vars : Variables} (hfind : registry.find? key = some vars) :
    entryOf result key
      = ⟨(entryOf start key).floatVariables
          ++ (List.replicate (visibleCount isVisibleInView view key nodes)
              vars.floatVariables).flatten,
        (entryOf start key).enumVariables
          ++ (List.replicate (visibleCount isVisibleInView view key nodes)
              vars.enumVariables).flatten⟩ := by
  induction nodes generalizing start with
  | nil =>
    cases h
    simp [visibleCount]
  | cons node rest ih =>
    rcases variableMapLoop_cons h with ⟨hvis, hrest⟩ | ⟨hvis, vars2, hfind2, hrest⟩
    · have hcount : visibleCount isVisibleInView view key (node :: rest)
          = visibleCount isVisibleInView view key rest := by
        simp [visibleCount, List.filter_cons, hvis]
      rw [hcount]
      exact ih hrest
    · by_cases hname : node.name = key
      · have hcount : visibleCount isVisibleInView view key (node :: rest)
            = visibleCount isVisibleInView view key rest + 1 := by
          simp [visibleCount, List.filter_cons, hvis, hname]
        rw [hname, hfind] at hfind2
        cases hfind2
        rw [hcount, ih hrest, hname, (push_node key vars start).1]
        simp only [List.replicate_succ, List.flatten_cons, List.append_assoc]
      · have hcount : visibleCount isVisibleInView view key (node :: rest)
            = visibleCount isVisibleInView view key rest := by
          simp [visibleCount, List.filter_cons, hvis, List.count_cons, hname]
        have hsame := (push_node node.name vars2 start).2 key (fun heq => hname heq.symm)
        rw [hcount, ih hrest]
        unfold entryOf
        rw [hsame]

theorem variableMapLoop_returns {View : Type} (isVisibleInView : SceneNode → View → Bool)
    (registry : Map Variables) (view : View) (nodes : List SceneNode) (start : Map Variables)
    (h : ∀ n ∈ nodes, isVisibleInView n view = true → n.name ∈ registry.keys) :
    ∃ result, Scene.variableMapLoop isVisibleInView registry view nodes start = .ok result := by
  induction nodes generalizing start with
  | nil => exact ⟨start, rfl⟩
  | cons node rest ih =>
    have hrest : ∀ n ∈ rest, isVisibleInView n view = true → n.name ∈ registry.keys :=
      fun n hn => h n (List.mem_cons_of_mem _ hn)
    unfold Scene.variableMapLoop
    cases hvis : isVisibleInView node view with
    | false =>
      simp only [Bool.false_eq_true, if_false]
      exact ih start hrest
    | true =>
      have hkey := (mem_keys_iff registry node.name).mp (h node (List.mem_cons_self _ _) hvis)
      obtain ⟨vars, hvars⟩ := Option.isSome_iff_exists.mp hkey
      simp only [if_true, hvars]
      exact ih _ hrest

/-! ## `Scene::variableMap` (C11) -/

/-- Claim C11 as stated fails: `twoNodesNamedA` parses to a scene with two visible nodes named
`a`; the registry holds one variable for `a`, and `variableMap` lists it twice under `a`. -/
theorem variableMap_repeats_shared_name :
    parseDescription twoNodesNamedA = .ok twoNodesNamedAScene
      ∧ twoNodesNamedAScene.m_variables.find? "a" = some ⟨[⟨"y", none, ⟨0, 0, 1, 1⟩, 0⟩], []⟩
      ∧ twoNodesNamedAScene.variableMap everywhere ()
        = .ok [("a", ⟨[⟨"y", none, ⟨0, 0, 1, 1⟩, 0⟩, ⟨"y", none, ⟨0, 0, 1, 1⟩, 0⟩], []⟩)] := by
  decide

/-- What a result of `variableMap(view)` holds: every key is the name of a visible node, and
when the visible nodes have pairwise distinct names the entry of a visible node is its registry
entry. -/
theorem variableMap_result {View : Type}
    {isVisibleInView : SceneNode → View → Bool} {s : Scene} {view : View}
    {result : Map Variables} (h : s.variableMap isVisibleInView view = .ok result) :
    (∀ key, key ∈ result.keys
        → ∃ n ∈ s.m_nodes, isVisibleInView n view = true ∧ n.name = key)
      ∧ (((s.m_nodes.filter (fun n => isVisibleInView n view)).map SceneNode.name).Nodup
        → ∀ n ∈ s.m_nodes, isVisibleInView n view = true
          → ∃ vars, s.m_variables.find? n.name = some vars ∧ entryOf result n.name = vars) := by
  unfold Scene.variableMap at h
  refine ⟨fun key hkey => ?_, fun hdistinct n hn hvisible => ?_⟩
  · by_contra hnone
    have hframe := variableMapLoop_frame h key (fun n hn hvis heq => hnone ⟨n, hn, hvis, heq⟩)
    rw [mem_keys_iff, hframe] at hkey
    cases hkey
  · obtain ⟨vars, hfind, hentry⟩ := variableMapLoop_entry h hdistinct hn hvisible
    refine ⟨vars, hfind, ?_⟩
    rw [hentry]
    simp [entryOf, Map.find?]

/-- Claim C11, amended: for a scene in which the name of every node visible in the view is a
key of the variable mapping, `variableMap(view)` returns a result; every key of the result is
the name of a node that is visible in the view; when the visible nodes have pairwise distinct
names, the float variables and the enum variables listed under the name of a visible node are
exactly those of the registry entry of that node, with the same values and in the same order;
and in general the entry of a name lists the registry entry of that name once per visible node
of that name. -/
theorem variableMap_lists_visible_nodes {View : Type}
    (isVisibleInView : SceneNode → View → Bool) (s : Scene) (view : View)
    (hkeys : ∀ n ∈ s.m_nodes, isVisibleInView n view = true → n.name ∈ s.m_variables.keys) :
    ∃ result, s.variableMap isVisibleInView view = .ok result
      ∧ (∀ key, key ∈ result.keys
          → ∃ n ∈ s.m_nodes, isVisibleInView n view = true ∧ n.name = key)
      ∧ (((s.m_nodes.filter (fun n => isVisibleInView n view)).map SceneNode.name).Nodup
          → ∀ n ∈ s.m_nodes, isVisibleInView n view = true
            → ∃ vars, s.m_variables.find? n.name = some vars
              ∧ entryOf result n.name = vars)
      ∧ ∀ key vars, s.m_variables.find? key = some vars
          → entryOf result key
            = ⟨(List.replicate (visibleCount isVisibleInView view key s.m_nodes)
                  vars.floatVariables).flatten,
                (List.replicate (visibleCount isVisibleInView view key s.m_nodes)
                  vars.enumVariables).flatten⟩ := by
  obtain ⟨result, h⟩ :=
    variableMapLoop_returns isVisibleInView s.m_variables view s.m_nodes [] hkeys
  refine ⟨result, h, (variableMap_result h).1, (variableMap_result h).2, fun key vars hfind => ?_⟩
  rw [variableMapLoop_counts h hfind]
  simp [entryOf, Map.find?]

/-- Claim C11, amended, at concrete inputs: the two nodes of `twoGeometryNodesScene` have
distinct names, and the variable map lists the registry entries of `a` and `b` under their
names; the two nodes of `twoNodesNamedAScene` are both named `a`, and the variable `y` of the
registry entry of `a` is listed twice. -/
theorem variableMap_lists_visible_nodes_witness :
    twoGeometryNodesScene.variableMap everywhere ()
        = .ok [("a", ⟨[⟨"x", none, ⟨0, 0, 1, 1⟩, 0⟩], [⟨"mode", none, ⟨1, ["on", "off"]⟩, "on"⟩]⟩),
            ("b", ⟨[⟨"y", none, ⟨0, 0, 1, 1⟩, 0⟩], []⟩)]
      ∧ (∃ result, twoGeometryNodesScene.variableMap everywhere () = .ok result
        ∧ (∀ key, key ∈ result.keys
            → ∃ n ∈ twoGeometryNodesScene.m_nodes, everywhere n () = true ∧ n.name = key)
        ∧ ∀ n ∈ twoGeometryNodesScene.m_nodes, everywhere n () = true
          → ∃ vars, twoGeometryNodesScene.m_variables.find? n.name = some vars
            ∧ entryOf result n.name = vars)
      ∧ visibleCount everywhere () "a" twoNodesNamedAScene.m_nodes = 2
      ∧ ∃ result, twoNodesNamedAScene.variableMap everywhere () = .ok result
        ∧ entryOf result "a"
          = ⟨(List.replicate (visibleCount everywhere () "a" twoNodesNamedAScene.m_nodes)
                [(⟨"y", none, ⟨0, 0, 1, 1⟩, 0⟩ : FloatVariable)]).flatten,
              (List.replicate (visibleCount everywhere () "a" twoNodesNamedAScene.m_nodes)
                ([] : List EnumVariable)).flatten⟩ :=
  have h := variableMap_lists_visible_nodes everywhere twoGeometryNodesScene () (by decide)
  have h2 := variableMap_lists_visible_nodes everywhere twoNodesNamedAScene () (by decide)
  ⟨by decide, h.elim (fun result hr => ⟨result, hr.1, hr.2.1, hr.2.2.1 (by decide)⟩), by decide,
    h2.elim (fun result hr => ⟨result, hr.1, hr.2.2.2 "a" _ rfl⟩)⟩

/-! ## `Scene::setVariable` (C12, C13) -/

theorem findMemberEqual_none {α : Type} (member : α → String) (value : String) (l : List α)
    (h : ∀ x ∈ l, member x ≠ value) : findMemberEqual member value l = none := by
  induction l with
  | nil => rfl
  | cons x rest ih =>
    unfold findMemberEqual
    rw [if_neg (h x (List.mem_cons_self _ _)),
      ih (fun y hy => h y (List.mem_cons_of_mem _ hy))]
    rfl

theorem findMemberEqual_some {α : Type} {member : α → String} {value : String} {l : List α}
    {i : Nat} (h : findMemberEqual member value l = some i) :
    (∃ x, l[i]? = some x ∧ member x = value)
      ∧ ∀ (j : Nat) (y : α), j < i → l[j]? = some y → member y ≠ value := by
  induction l generalizing i with
  | nil => cases h
  | cons x rest ih =>
    unfold findMemberEqual at h
    by_cases hx : member x = value
    · rw [if_pos hx] at h
      cases h
      exact ⟨⟨x, by simp, hx⟩, fun j y hj _ => absurd hj (Nat.not_lt_zero j)⟩
    · rw [if_neg hx] at h
      cases hrest : findMemberEqual member value rest with
      | none => rw [hrest] at h; cases h
      | some k =>
        rw [hrest] at h
        cases h
        obtain ⟨⟨y, hy, hmy⟩, hbefore⟩ := ih hrest
        refine ⟨⟨y, by simpa using hy, hmy⟩, fun j z hj hz => ?_⟩
        cases j with
        | zero =>
          simp only [List.getElem?_cons_zero, Option.some.injEq] at hz
          subst hz
          exact hx
        | succ j2 =>
          simp only [List.getElem?_cons_succ] at hz
          exact hbefore j2 z (by simp only at hj; omega) hz

theorem assignAt_length {α : Type} (f : α → α) (i : Nat) (l : List α) :
    (assignAt f i l).length = l.length := by
  induction l generalizing i with
  | nil => cases i <;> rfl
  | cons x rest ih =>
    cases i with
    | zero => rfl
    | succ k => simp [assignAt, ih]

theorem assignAt_getElem? {α : Type} (f : α → α) (i : Nat) (l : List α) (j : Nat) :
    (assignAt f i l)[j]? = if j = i then l[j]?.map f else l[j]? := by
  induction l generalizing i j with
  | nil => cases i <;> simp [assignAt]
  | cons x rest ih =>
    cases i with
    | zero =>
      cases j with
      | zero => simp [assignAt]
      | succ j2 => simp [assignAt]
    | succ k =>
      cases j with
      | zero => simp [assignAt]
      | succ j2 => simp [assignAt, ih]

theorem keys_insert_of_find? {α : Type} (m : Map α) (key : String) (old new : α)
    (h : m.find? key = some old) : (Map.insert key new m).keys = m.keys := by
  induction m with
  | nil => cases h
  | cons kv rest ih =>
    obtain ⟨k, v⟩ := kv
    unfold Map.insert
    by_cases hk : k = key
    · subst hk
      simp [Map.keys]
    · have hne : (key == k) = false := by simpa using fun (e : key = k) => hk e.symm
      have hrest : Map.find? rest key = some old := by
        simpa [Map.find?, List.lookup_cons, hne] using h
      simp only [hk, if_false, Map.keys, List.map_cons, List.cons.injEq, true_and]
      exact ih hrest

/-- Claim C12: `setVariable(objectName, variableName, value)` fails and leaves the scene as it
is when `objectName` is not a key of the variable mapping; the float overload fails so when the
node has no float variable named `variableName` (in particular when only an enum variable
carries the name), and the string overload fails so when the node has no enum variable named
`variableName` (in particular when only a float variable carries the name). -/
theorem setVariable_fails (s : Scene) (objectName variableName : String) :
    (s.m_variables.find? objectName = none
        → ∀ value, ∃ err, s.setVariable objectName variableName value = (.error err, s))
      ∧ (∀ vars, s.m_variables.find? objectName = some vars
        → (∀ v ∈ vars.floatVariables, v.name ≠ variableName)
        → ∀ x, ∃ err, s.setVariable objectName variableName (.float x) = (.error err, s))
      ∧ (∀ vars, s.m_variables.find? objectName = some vars
        → (∀ v ∈ vars.enumVariables, v.name ≠ variableName)
        → ∀ t, ∃ err, s.setVariable objectName variableName (.string t) = (.error err, s)) := by
  refine ⟨fun hnone value => ?_, fun vars hsome hno x => ?_, fun vars hsome hno t => ?_⟩
  · exact ⟨_, by unfold Scene.setVariable; rw [hnone]⟩
  · refine ⟨.fault "assert(it != end(vars))", ?_⟩
    unfold Scene.setVariable
    rw [hsome]
    simp only [findMemberEqual_none FloatVariable.name variableName _ hno]
  · refine ⟨.fault "assert(it != end(vars))", ?_⟩
    unfold Scene.setVariable
    rw [hsome]
    simp only [findMemberEqual_none EnumVariable.name variableName _ hno]

/-- Claim C12 at a concrete input: on `editableScene` the call fails for the unknown node `b`,
for the unknown variable `colour` with either kind of value, for a float value given to the
enum variable `mode` and for a string value given to the float variable `speed`. -/
theorem setVariable_fails_witness :
    (∃ err, editableScene.setVariable "b" "speed" (.float 3) = (.error err, editableScene))
      ∧ (∃ err, editableScene.setVariable "a" "colour" (.float 3) = (.error err, editableScene))
      ∧ (∃ err, editableScene.setVariable "a" "colour" (.string "x")
          = (.error err, editableScene))
      ∧ (∃ err, editableScene.setVariable "a" "mode" (.float 3) = (.error err, editableScene))
      ∧ (∃ err, editableScene.setVariable "a" "speed" (.string "on")
          = (.error err, editableScene)) :=
  ⟨(setVariable_fails editableScene "b" "speed").1 (by decide) (.float 3),
    (setVariable_fails editableScene "a" "colour").2.1 _ rfl (by decide) 3,
    (setVariable_fails editableScene "a" "colour").2.2 _ rfl (by decide) "x",
    (setVariable_fails editableScene "a" "mode").2.1 _ rfl (by decide) 3,
    (setVariable_fails editableScene "a" "speed").2.2 _ rfl (by decide) "on"⟩

theorem withShared_name (vars : Variables) (n : SceneNode) :
    (n.withShared vars).name = n.name := by
  cases n with
  | geometry name visibility dataset => rfl
  | volume name visibility dataset tf =>
    obtain ⟨provider⟩ := tf
    cases provider <;> rfl

theorem skeleton_withShared (vars : Variables) (n : SceneNode) :
    (n.withShared vars).skeleton = n.skeleton := by
  cases n with
  | geometry name visibility dataset =>
    obtain ⟨provider, transforms, color⟩ := dataset
    cases provider <;> rfl
  | volume name visibility dataset tf =>
    obtain ⟨provider⟩ := dataset
    obtain ⟨tfProvider⟩ := tf
    cases tfProvider with
    | none => cases provider <;> rfl
    | some t => cases t <;> rfl

theorem withShared_lastProvider (vars : Variables) (n : SceneNode) :
    (n.withShared vars).lastProvider = n.lastProvider.withVariables vars := by
  cases n with
  | geometry name visibility dataset => rfl
  | volume name visibility dataset tf =>
    obtain ⟨tfProvider⟩ := tf
    cases tfProvider <;> rfl

theorem any_named_false {name : String} {nodes : List SceneNode}
    (h : ∀ m ∈ nodes, m.name ≠ name) : nodes.any (fun n => n.name == name) = false := by
  rw [List.any_eq_false]
  intro m hm
  simpa using h m hm

theorem writeThrough_none {name : String} (vars : Variables) {nodes : List SceneNode}
    (h : ∀ m ∈ nodes, m.name ≠ name) : writeThrough name vars nodes = nodes := by
  cases nodes with
  | nil => rfl
  | cons node rest =>
    have hrest := any_named_false (fun m hm => h m (List.mem_cons_of_mem _ hm))
    have hnode : (node.name == name) = false := by simpa using h node (List.mem_cons_self _ _)
    unfold writeThrough
    simp only [hrest, hnode, Bool.false_eq_true, if_false]

/-- The write reaches the last node of the name, and that node only. -/
theorem writeThrough_split {name : String} (vars : Variables) (pre : List SceneNode)
    {n : SceneNode} {post : List SceneNode} (hname : n.name = name)
    (hpost : ∀ m ∈ post, m.name ≠ name) :
    writeThrough name vars (pre ++ n :: post) = pre ++ n.withShared vars :: post := by
  induction pre with
  | nil =>
    have hrest := any_named_false hpost
    have hnode : (n.name == name) = true := by simpa using hname
    simp only [List.nil_append]
    unfold writeThrough
    simp only [hrest, hnode, Bool.false_eq_true, if_false, if_true]
  | cons node more ih =>
    have hrest : (more ++ n :: post).any (fun m => m.name == name) = true := by
      rw [List.any_eq_true]
      exact ⟨n, List.mem_append_right _ (List.mem_cons_self _ _), by simpa using hname⟩
    simp only [List.cons_append]
    unfold writeThrough
    simp only [hrest, if_true, ih]

theorem writeThrough_skeleton (name : String) (vars : Variables) (nodes : List SceneNode) :
    (writeThrough name vars nodes).map SceneNode.skeleton = nodes.map SceneNode.skeleton := by
  induction nodes with
  | nil => rfl
  | cons node rest ih =>
    unfold writeThrough
    split
    · simp only [List.map_cons, ih]
    · split
      · simp only [List.map_cons, skeleton_withShared]
      · rfl

/-- Claim C13: after a successful `setVariable(objectName, variableName, value)` the metadata,
the keys of the variable mapping and the entries of all other names are unchanged; under
`objectName` the variables of the other kind are unchanged, and those of the matching kind keep
their number, order, names, labels and infos (index, bounds, step size, allowed values) and
their values, except that the first one named `variableName` has the value `value`. The node
sequence is unchanged: the nodes keep their order, names, visibilities, kinds, providers,
transforms and colours, and the one `Variables` object that has been written to is shared by
the last provider of the last node named `objectName`, which shows the new content; every other
node is as it was. -/
theorem setVariable_changes_one_value (s s2 : Scene) (objectName variableName : String)
    (value : VariableValue)
    (h : s.setVariable objectName variableName value = (.ok (), s2)) :
    s2.m_nodes.map SceneNode.skeleton = s.m_nodes.map SceneNode.skeleton
      ∧ s2.m_metadata = s.m_metadata ∧ s2.m_webViewURL = s.m_webViewURL
      ∧ s2.m_variables.keys = s.m_variables.keys
      ∧ (∀ other, other ≠ objectName
          → s2.m_variables.find? other = s.m_variables.find? other)
      ∧ ∃ vars vars2, s.m_variables.find? objectName = some vars
        ∧ s2.m_variables.find? objectName = some vars2
        ∧ ((∀ m ∈ s.m_nodes, m.name ≠ objectName) → s2.m_nodes = s.m_nodes)
        ∧ (∀ (pre : List SceneNode) (n : SceneNode) (post : List SceneNode),
            s.m_nodes = pre ++ n :: post → n.name = objectName
            → (∀ m ∈ post, m.name ≠ objectName)
            → s2.m_nodes = pre ++ n.withShared vars2 :: post
              ∧ (n.withShared vars2).lastProvider = n.lastProvider.withVariables vars2)
        ∧ (∀ x, value = .float x
          → vars2.enumVariables = vars.enumVariables
            ∧ vars2.floatVariables.length = vars.floatVariables.length
            ∧ ∃ i : Nat, (∃ v, vars.floatVariables[i]? = some v ∧ v.name = variableName)
              ∧ (∀ (j : Nat) (v : FloatVariable), j < i → vars.floatVariables[j]? = some v
                  → v.name ≠ variableName)
              ∧ ∀ (j : Nat) (v : FloatVariable), vars.floatVariables[j]? = some v
                → ∃ v2, vars2.floatVariables[j]? = some v2 ∧ v2.name = v.name
                  ∧ v2.label = v.label ∧ v2.info = v.info
                  ∧ v2.value = if j = i then x else v.value)
        ∧ (∀ t, value = .string t
          → vars2.floatVariables = vars.floatVariables
            ∧ vars2.enumVariables.length = vars.enumVariables.length
            ∧ ∃ i : Nat, (∃ v, vars.enumVariables[i]? = some v ∧ v.name = variableName)
              ∧ (∀ (j : Nat) (v : EnumVariable), j < i → vars.enumVariables[j]? = some v
                  → v.name ≠ variableName)
              ∧ ∀ (j : Nat) (v : EnumVariable), vars.enumVariables[j]? = some v
                → ∃ v2, vars2.enumVariables[j]? = some v2 ∧ v2.name = v.name
                  ∧ v2.label = v.label ∧ v2.info = v.info
                  ∧ v2.value = if j = i then t else v.value) := by
  unfold Scene.setVariable at h
  cases hfind : s.m_variables.find? objectName with
  | none => rw [hfind] at h; cases h
  | some vars =>
    rw [hfind] at h
    cases value with
    | float x =>
      simp only at h
      cases hpos : findMemberEqual FloatVariable.name variableName vars.floatVariables with
      | none => rw [hpos] at h; cases h
      | some i =>
        rw [hpos] at h
        simp only [Prod.mk.injEq, true_and] at h
        subst h
        obtain ⟨hat, hbefore⟩ := findMemberEqual_some hpos
        refine ⟨writeThrough_skeleton _ _ _, rfl, rfl, keys_insert_of_find? _ _ _ _ hfind,
          fun other hne => Map.find?_insert_of_ne _ _ _ _ hne,
          vars, _, rfl, Map.find?_insert_self _ _ _,
          fun hnone => writeThrough_none _ hnone,
          fun pre n post hsplit hname hpost =>
            ⟨by show writeThrough _ _ s.m_nodes = _
                rw [hsplit]
                exact writeThrough_split _ pre hname hpost,
              withShared_lastProvider _ n⟩, ?_, ?_⟩
        rotate_left
        · intro t ht
          cases ht
        intro y hy
        cases hy
        refine ⟨rfl, assignAt_length _ _ _, i, hat, hbefore, fun j v hv => ?_⟩
        simp only [assignAt_getElem?]
        by_cases hj : j = i
        · rw [if_pos hj, hv]
          exact ⟨_, rfl, rfl, rfl, rfl, by rw [if_pos hj]⟩
        · rw [if_neg hj, hv]
          exact ⟨_, rfl, rfl, rfl, rfl, by rw [if_neg hj]⟩
    | string t =>
      simp only at h
      cases hpos : findMemberEqual EnumVariable.name variableName vars.enumVariables with
      | none => rw [hpos] at h; cases h
      | some i =>
        rw [hpos] at h
        simp only [Prod.mk.injEq, true_and] at h
        subst h
        obtain ⟨hat, hbefore⟩ := findMemberEqual_some hpos
        refine ⟨writeThrough_skeleton _ _ _, rfl, rfl, keys_insert_of_find? _ _ _ _ hfind,
          fun other hne => Map.find?_insert_of_ne _ _ _ _ hne,
          vars, _, rfl, Map.find?_insert_self _ _ _,
          fun hnone => writeThrough_none _ hnone,
          fun pre n post hsplit hname hpost =>
            ⟨by show writeThrough _ _ s.m_nodes = _
                rw [hsplit]
                exact writeThrough_split _ pre hname hpost,
              withShared_lastProvider _ n⟩, ?_, ?_⟩
        · intro x hx
          cases hx
        intro y hy
        cases hy
        refine ⟨rfl, assignAt_length _ _ _, i, hat, hbefore, fun j v hv => ?_⟩
        simp only [assignAt_getElem?]
        by_cases hj : j = i
        · rw [if_pos hj, hv]
          exact ⟨_, rfl, rfl, rfl, rfl, by rw [if_pos hj]⟩
        · rw [if_neg hj, hv]
          exact ⟨_, rfl, rfl, rfl, rfl, by rw [if_neg hj]⟩

/-- Claim C13 at a concrete input: in the scene parsed from `twoGeometryNodes`, setting the
variable `x` of the node `a` to 1 changes that one value, in the registry entry of `a` and in
the python provider of the node `a` that shares the object; the index 0 of `x`, the enum
variable, the node `b` and its entry stay. -/
theorem setVariable_changes_one_value_witness :
    parseDescription twoGeometryNodes = .ok twoGeometryNodesScene
      ∧ twoGeometryNodesScene.setVariable "a" "x" (.float 1) = (.ok (), twoGeometryNodesEdited)
      ∧ twoGeometryNodesEdited.m_nodes.map SceneNode.skeleton
        = twoGeometryNodesScene.m_nodes.map SceneNode.skeleton
      ∧ twoGeometryNodesEdited.m_variables.keys = twoGeometryNodesScene.m_variables.keys
      ∧ ∀ other, other ≠ "a"
        → twoGeometryNodesEdited.m_variables.find? other
          = twoGeometryNodesScene.m_variables.find? other :=
  have h := setVariable_changes_one_value twoGeometryNodesScene twoGeometryNodesEdited "a" "x"
    (.float 1) (by decide)
  ⟨by decide, by decide, h.1, h.2.2.2.1, h.2.2.2.2.1⟩


/-! ## Blocks of an index buffer -/

theorem block_length {N k : Nat} {buffer : List Nat} (hlen : buffer.length = k * N) {q : Nat}
    (hq : q < k) : (block N buffer q).length = N := by
  unfold block
  rw [List.length_take, List.length_drop, hlen]
  have h1 : (q + 1) * N ≤ k * N := Nat.mul_le_mul_right N hq
  rw [Nat.add_mul, Nat.one_mul] at h1
  omega

theorem flatMap_uniform_length {f : Nat → List Nat} {N : Nat} (l : List Nat)
    (h : ∀ x ∈ l, (f x).length = N) : (l.flatMap f).length = l.length * N := by
  induction l with
  | nil => simp
  | cons x rest ih =>
    rw [List.flatMap_cons, List.length_append, h x (List.mem_cons_self _ _),
      ih (fun y hy => h y (List.mem_cons_of_mem _ hy)), List.length_cons, Nat.add_mul,
      Nat.one_mul, Nat.add_comm]

theorem block_flatMap {f : Nat → List Nat} {N : Nat} (l : List Nat)
    (h : ∀ x ∈ l, (f x).length = N) {i q : Nat} (hi : l[i]? = some q) :
    block N (l.flatMap f) i = f q := by
  induction l generalizing i with
  | nil => simp at hi
  | cons x rest ih =>
    have hx := h x (List.mem_cons_self _ _)
    cases i with
    | zero =>
      simp only [List.getElem?_cons_zero, Option.some.injEq] at hi
      subst hi
      unfold block
      rw [List.flatMap_cons, Nat.zero_mul, List.drop_zero]
      exact List.take_left' hx
    | succ j =>
      simp only [List.getElem?_cons_succ] at hi
      have hrest := ih (fun y hy => h y (List.mem_cons_of_mem _ hy)) hi
      unfold block at hrest ⊢
      rw [List.flatMap_cons]
      have hsplit : (j + 1) * N = (f x).length + j * N := by
        rw [hx, Nat.add_mul, Nat.one_mul, Nat.add_comm]
      rw [hsplit, List.drop_append]
      exact hrest

/-- With a rearrangement of the primitive positions and a buffer of whole primitives,
`applyPermutation` returns the blocks of the primitives in the order of the permutation. -/
theorem applyPermutation_blocks {N k : Nat} {permutation source target : List Nat}
    (hperm : permutation.Perm (List.range k)) (hsource : source.length = k * N)
    (htarget : target.length = k * N) :
    applyPermutation N permutation source target = permutation.flatMap (block N source)
      ∧ ∀ q ∈ permutation, (block N source q).length = N := by
  have hblocks : ∀ q ∈ permutation, (block N source q).length = N := fun q hq =>
    block_length hsource (List.mem_range.mp ((hperm.mem_iff).mp hq))
  have hlen : (permutation.flatMap (block N source)).length = k * N := by
    rw [flatMap_uniform_length permutation hblocks, hperm.length_eq, List.length_range]
  refine ⟨?_, hblocks⟩
  unfold applyPermutation
  simp only
  rw [List.take_of_length_le (by rw [hlen, htarget]),
    List.drop_of_length_le (by rw [hlen, htarget]), List.append_nil]

theorem permuteIndicesTransparent_eq {g : LoadedGeometry} {N k : Nat}
    (harity : arity g.primitiveType = some N) (hlen : g.m_indicesTransparent.length = k * N)
    {permutation : List Nat} (hperm : permutation.Perm (List.range k)) :
    g.permuteIndicesTransparent permutation
        = permutation.flatMap (block N g.m_indicesTransparent)
      ∧ ∀ q ∈ permutation, (block N g.m_indicesTransparent q).length = N := by
  unfold LoadedGeometry.permuteIndicesTransparent
  cases htype : g.primitiveType <;> rw [htype] at harity <;> simp only [arity] at harity
  · cases harity
    exact applyPermutation_blocks hperm hlen (by rw [List.length_replicate, hlen])
  · cases harity
    exact applyPermutation_blocks hperm hlen (by rw [List.length_replicate, hlen])
  · cases harity
    exact applyPermutation_blocks hperm hlen (by rw [List.length_replicate, hlen])
  · cases harity

/-! ## `permuteIndicesTransparent` (C16) -/

/-- Claim C16: for a primitive type of arity `N`, a buffer of `k` whole primitives and a
rearrangement `p` of the primitive positions `0 .. k-1`, `permuteIndicesTransparent` returns a
vector of the length of the transparent index buffer whose i-th block of `N` indices is the
block `p[i]` of the buffer; the blocks of the result are a rearrangement of the blocks of the
buffer, so no primitive is split, lost or duplicated. -/
theorem permuteIndicesTransparent_blocks (g : LoadedGeometry) (N k : Nat)
    (harity : arity g.primitiveType = some N) (hlen : g.m_indicesTransparent.length = k * N)
    (p : List Nat) (hperm : p.Perm (List.range k)) :
    (g.permuteIndicesTransparent p).length = g.m_indicesTransparent.length
      ∧ (∀ (i q : Nat), p[i]? = some q
          → block N (g.permuteIndicesTransparent p) i = block N g.m_indicesTransparent q)
      ∧ ((List.range k).map (block N (g.permuteIndicesTransparent p))).Perm
          ((List.range k).map (block N g.m_indicesTransparent)) := by
  obtain ⟨heq, hblocks⟩ := permuteIndicesTransparent_eq harity hlen hperm
  have hpos : ∀ (i q : Nat), p[i]? = some q
      → block N (g.permuteIndicesTransparent p) i = block N g.m_indicesTransparent q := by
    intro i q hi
    rw [heq]
    exact block_flatMap p hblocks hi
  refine ⟨?_, hpos, ?_⟩
  · rw [heq, flatMap_uniform_length p hblocks, hperm.length_eq, List.length_range, hlen]
  · have hmap : (List.range k).map (block N (g.permuteIndicesTransparent p))
        = p.map (block N g.m_indicesTransparent) := by
      apply List.ext_getElem?
      intro i
      simp only [List.getElem?_map]
      by_cases hi : i < k
      · have hip : i < p.length := by rw [hperm.length_eq, List.length_range]; exact hi
        have hget : p[i]? = some p[i] := List.getElem?_eq_getElem hip
        rw [List.getElem?_range hi, hget]
        simp only [Option.map_some']
        rw [hpos i _ hget]
      · have hip : p.length ≤ i := by
          rw [hperm.length_eq, List.length_range]; exact Nat.le_of_not_lt hi
        rw [List.getElem?_eq_none (by rw [List.length_range]; exact Nat.le_of_not_lt hi),
          List.getElem?_eq_none hip]
        rfl
    rw [hmap]
    exact hperm.map _

/-- Claim C16 at a concrete input: the three triangles of `threeTriangles` under the
rearrangement `[1, 2, 0]`. -/
theorem permuteIndicesTransparent_blocks_witness :
    threeTriangles.permuteIndicesTransparent [1, 2, 0] = [3, 4, 5, 6, 7, 8, 0, 1, 2]
      ∧ (threeTriangles.permuteIndicesTransparent [1, 2, 0]).length
        = threeTriangles.m_indicesTransparent.length
      ∧ block 3 (threeTriangles.permuteIndicesTransparent [1, 2, 0]) 0
        = block 3 threeTriangles.m_indicesTransparent 1 :=
  have h := permuteIndicesTransparent_blocks threeTriangles 3 3 (by decide) (by decide)
    [1, 2, 0] (by decide)
  ⟨by decide, h.1, h.2.1 0 1 (by decide)⟩

/-! ## `std::sort` and the comparison of `indicesTransparentSorted` -/

theorem sorter_strictWeakOrder (g : LoadedGeometry) (eye : Vec3f) :
    StrictWeakOrder (g.sorter eye) := by
  refine ⟨?_, ?_, ?_⟩
  · intro a
    simp only [LoadedGeometry.sorter, gt_iff_lt, decide_eq_false_iff_not, lt_self_iff_false,
      not_false_eq_true]
  · intro a b c hab hbc
    simp only [LoadedGeometry.sorter, gt_iff_lt, decide_eq_true_eq] at hab hbc ⊢
    exact lt_trans hbc hab
  · intro a b c hab hbc
    simp only [LoadedGeometry.sorter, gt_iff_lt, decide_eq_false_iff_not, not_lt] at hab hbc ⊢
    exact le_trans hab hbc

theorem sorter_eq_true (g : LoadedGeometry) (eye : Vec3f) (a b : Nat) :
    g.sorter eye a b = true ↔ sqDistance g eye a > sqDistance g eye b := by
  simp only [LoadedGeometry.sorter, sqDistance, Vec3f.sub, Vec3f.sqLength, gt_iff_lt,
    decide_eq_true_eq]

theorem insertionSort_sorts (comp : Nat → Nat → Bool) (l : List Nat)
    (hcomp : StrictWeakOrder comp) :
    (List.insertionSort (fun a b => comp b a = false) l).Perm l
      ∧ (List.insertionSort (fun a b => comp b a = false) l).Pairwise
          (fun a b => comp b a = false) := by
  obtain ⟨hirr, htrans, hneg⟩ := hcomp
  have htotal : IsTotal Nat (fun a b => comp b a = false) := by
    constructor
    intro a b
    cases hba : comp b a with
    | false => exact Or.inl rfl
    | true =>
      cases hab : comp a b with
      | false => exact Or.inr rfl
      | true =>
        have h := htrans a b a hab hba
        rw [hirr a] at h
        cases h
  have htr : IsTrans Nat (fun a b => comp b a = false) := by
    constructor
    intro a b c hab hbc
    exact hneg c b a hbc hab
  exact ⟨List.perm_insertionSort _ l, List.sorted_insertionSort _ l⟩

/-- The sort `keepingSort` is one of the sorts `std::sort` may be. -/
theorem keepingSort_sorts : SortsAsStdSort keepingSort := by
  intro comp l hcomp
  exact insertionSort_sorts comp l hcomp

/-- The `std::sort` of libstdc++ on the twenty points of `twentyPoints`, seen from the origin:
the four points at the height 4 come first, then those at 3, 2, 1 and 0, and within each group
the order is not the one of the buffer. The result is a rearrangement of the range in which no
element is ordered before an earlier one. -/
theorem stdSort_twentyPoints :
    twentyPoints.indicesTransparentSorted stdSort eyeAtOrigin Mat4f.identity
        = [2, 17, 7, 12, 19, 4, 14, 9, 1, 16, 11, 6, 8, 13, 3, 18, 10, 15, 5, 0]
      ∧ (stdSort (twentyPoints.sorter (eyeAtOrigin Mat4f.identity)) (List.range 20)).Perm
          (List.range 20)
      ∧ (stdSort (twentyPoints.sorter (eyeAtOrigin Mat4f.identity)) (List.range 20)).Pairwise
          (fun a b => twentyPoints.sorter (eyeAtOrigin Mat4f.identity) b a = false) :=
  ⟨by decide!, by decide!, by decide!⟩

/-- With any sort that keeps the promise of `std::sort`, `indicesTransparentSorted` returns the
blocks of the primitives in an order in which the squared distance never increases. -/
theorem indicesTransparentSorted_order {sort : (Nat → Nat → Bool) → List Nat → List Nat}
    (hsort : SortsAsStdSort sort) (objectSpaceEye : Mat4f → Vec3f) (g : LoadedGeometry)
    (mvp : Mat4f) {N : Nat} (harity : arity g.primitiveType = some N)
    (hlen : g.m_indicesTransparent.length = g.m_centroids.length * N) :
    ∃ perm : List Nat, perm.Perm (List.range g.m_centroids.length)
      ∧ g.indicesTransparentSorted sort objectSpaceEye mvp
          = perm.flatMap (block N g.m_indicesTransparent)
      ∧ (∀ (i q : Nat), perm[i]? = some q
          → block N (g.indicesTransparentSorted sort objectSpaceEye mvp) i
            = block N g.m_indicesTransparent q)
      ∧ perm.Pairwise (fun a b =>
          sqDistance g (objectSpaceEye mvp) a ≥ sqDistance g (objectSpaceEye mvp) b) := by
  obtain ⟨hperm, hsorted⟩ := hsort (g.sorter (objectSpaceEye mvp))
    (List.range g.m_centroids.length) (sorter_strictWeakOrder g (objectSpaceEye mvp))
  obtain ⟨heq, hblocks⟩ := permuteIndicesTransparent_eq harity hlen hperm
  refine ⟨sort (g.sorter (objectSpaceEye mvp)) (List.range g.m_centroids.length), hperm, heq,
    ?_, ?_⟩
  · intro i q hi
    unfold LoadedGeometry.indicesTransparentSorted
    simp only
    rw [heq]
    exact block_flatMap _ hblocks hi
  · refine hsorted.imp ?_
    intro a b hba
    have h : ¬ sqDistance g (objectSpaceEye mvp) b > sqDistance g (objectSpaceEye mvp) a := by
      rw [← sorter_eq_true, hba]
      simp
    exact not_lt.mp h

/-! ## Back to front (C14) -/

/-- Claim C14, counterexample: of the two points of `twoPoints` the second is strictly farther
from the eye at the origin (exact squared distances `2^24 + 1` and `2^24`), but `2^24 + 1` is
no float and the sum is rounded to `2^24`: the comparison of the code sees two equal distances,
and with the `std::sort` of libstdc++ the index 11 of the farther point comes after the index
10 of the nearer one. -/
theorem rounding_hides_the_farther_primitive :
    exactSqDistance twoPoints (eyeAtOrigin Mat4f.identity) 1 = 16777217
      ∧ exactSqDistance twoPoints (eyeAtOrigin Mat4f.identity) 0 = 16777216
      ∧ exactSqDistance twoPoints (eyeAtOrigin Mat4f.identity) 1
        > exactSqDistance twoPoints (eyeAtOrigin Mat4f.identity) 0
      ∧ sqDistance twoPoints (eyeAtOrigin Mat4f.identity) 1 = 16777216
      ∧ sqDistance twoPoints (eyeAtOrigin Mat4f.identity) 0 = 16777216
      ∧ twoPoints.sorter (eyeAtOrigin Mat4f.identity) 1 0 = false
      ∧ twoPoints.m_indicesTransparent = [10, 11]
      ∧ twoPoints.indicesTransparentSorted stdSort eyeAtOrigin Mat4f.identity = [10, 11] :=
  ⟨by decide!, by decide!, by decide!, by decide!, by decide!, by decide!, by decide,
    by decide!⟩

/-- Claim C14, amended: with `std::sort` keeping its promise, for a buffer of whole primitives
(points, lines or triangles) and two primitives `a` and `b` of which `a` has the strictly
greater squared distance to the object-space eye position as the `float` arithmetic of the code
computes it, the result of `indicesTransparentSorted` consists of the blocks of the primitives
in a rearranged order `perm`, and the block of `a` stands at an earlier position than the block
of `b`: all indices of `a` precede all indices of `b`. -/
theorem farther_primitive_comes_first (sort : (Nat → Nat → Bool) → List Nat → List Nat)
    (hsort : SortsAsStdSort sort) (objectSpaceEye : Mat4f → Vec3f) (g : LoadedGeometry)
    (mvp : Mat4f) (N : Nat) (harity : arity g.primitiveType = some N)
    (hlen : g.m_indicesTransparent.length = g.m_centroids.length * N) (a b : Nat)
    (ha : a < g.m_centroids.length) (hb : b < g.m_centroids.length)
    (hfar : sqDistance g (objectSpaceEye mvp) a > sqDistance g (objectSpaceEye mvp) b) :
    ∃ perm : List Nat, perm.Perm (List.range g.m_centroids.length)
      ∧ g.indicesTransparentSorted sort objectSpaceEye mvp
          = perm.flatMap (block N g.m_indicesTransparent)
      ∧ ∃ i j : Nat, i < j ∧ perm[i]? = some a ∧ perm[j]? = some b
          ∧ block N (g.indicesTransparentSorted sort objectSpaceEye mvp) i
            = block N g.m_indicesTransparent a
          ∧ block N (g.indicesTransparentSorted sort objectSpaceEye mvp) j
            = block N g.m_indicesTransparent b := by
  obtain ⟨perm, hperm, heq, hpos, hsorted⟩ :=
    indicesTransparentSorted_order hsort objectSpaceEye g mvp harity hlen
  refine ⟨perm, hperm, heq, ?_⟩
  have hamem : a ∈ perm := (hperm.mem_iff).mpr (List.mem_range.mpr ha)
  have hbmem : b ∈ perm := (hperm.mem_iff).mpr (List.mem_range.mpr hb)
  obtain ⟨i, hi⟩ := List.mem_iff_getElem?.mp hamem
  obtain ⟨j, hj⟩ := List.mem_iff_getElem?.mp hbmem
  refine ⟨i, j, ?_, hi, hj, hpos i a hi, hpos j b hj⟩
  rcases Nat.lt_trichotomy i j with hlt | heqij | hgt
  · exact hlt
  · subst heqij
    rw [hi] at hj
    cases hj
    exact absurd hfar (lt_irrefl _)
  · obtain ⟨hilen, hia⟩ := List.getElem?_eq_some.mp hi
    obtain ⟨hjlen, hjb⟩ := List.getElem?_eq_some.mp hj
    have h := (List.pairwise_iff_getElem.mp hsorted) j i hjlen hilen hgt
    rw [hia, hjb] at h
    exact absurd hfar (not_lt.mpr h)

/-- Claim C14, amended, at a concrete input: seen from the eye at `(0,0,4)` the first triangle
of `threeTriangles` (centroid `(0,0,1)`, computed squared distance 9) is farther than the
second (centroid `(0,0,3)`, computed squared distance 1), while from the origin the second is
the farther one; so the block of the first stands before the block of the second, and with the
`std::sort` of libstdc++ the result is the blocks of the first, the third and the second
triangle. -/
theorem farther_primitive_comes_first_witness :
    sqDistance threeTriangles (eyeOnAxis Mat4f.identity) 0 = 9
      ∧ sqDistance threeTriangles (eyeOnAxis Mat4f.identity) 1 = 1
      ∧ sqDistance threeTriangles (eyeAtOrigin Mat4f.identity) 0
        < sqDistance threeTriangles (eyeAtOrigin Mat4f.identity) 1
      ∧ threeTriangles.indicesTransparentSorted stdSort eyeOnAxis Mat4f.identity
        = [0, 1, 2, 6, 7, 8, 3, 4, 5]
      ∧ sqDistance threeTriangles (eyeOnAxis Mat4f.identity) 0
        > sqDistance threeTriangles (eyeOnAxis Mat4f.identity) 1
      ∧ ∃ perm : List Nat, perm.Perm (List.range threeTriangles.m_centroids.length)
        ∧ threeTriangles.indicesTransparentSorted keepingSort eyeOnAxis Mat4f.identity
            = perm.flatMap (block 3 threeTriangles.m_indicesTransparent)
        ∧ ∃ i j : Nat, i < j ∧ perm[i]? = some 0 ∧ perm[j]? = some 1
            ∧ block 3
                (threeTriangles.indicesTransparentSorted keepingSort eyeOnAxis Mat4f.identity) i
              = block 3 threeTriangles.m_indicesTransparent 0
            ∧ block 3
                (threeTriangles.indicesTransparentSorted keepingSort eyeOnAxis Mat4f.identity) j
              = block 3 threeTriangles.m_indicesTransparent 1 :=
  ⟨by decide!, by decide!, by decide!, by decide!, by decide!,
    farther_primitive_comes_first keepingSort keepingSort_sorts eyeOnAxis threeTriangles
      Mat4f.identity 3 (by decide) (by decide) 0 1 (by decide) (by decide) (by decide!)⟩

/-! ## The order of primitives at equal distance (C15) -/

/-- Claim C15, counterexample: the seventeen points of `seventeenPoints` are all at the squared
distance 1 from the eye at the origin, exactly and as computed. The `std::sort` of libstdc++
partitions a range of more than 16 elements around a pivot and exchanges equivalent elements
on the way: the result starts with the index 108 of the ninth point, and the index 100 of the
first point, which leads the transparent index buffer, stands in the tenth place. On this
call the sort keeps the promise of the standard: the result is a rearrangement of the range in
which no element is ordered before an earlier one. -/
theorem equal_distances_are_exchanged :
    (∀ q ∈ List.range 17, sqDistance seventeenPoints (eyeAtOrigin Mat4f.identity) q = 1
        ∧ exactSqDistance seventeenPoints (eyeAtOrigin Mat4f.identity) q = 1)
      ∧ seventeenPoints.m_indicesTransparent
        = [100, 101, 102, 103, 104, 105, 106, 107, 108, 109, 110, 111, 112, 113, 114, 115, 116]
      ∧ seventeenPoints.indicesTransparentSorted stdSort eyeAtOrigin Mat4f.identity
        = [108, 116, 115, 114, 113, 112, 111, 110, 109, 100, 107, 106, 105, 104, 103, 102, 101]
      ∧ (stdSort (seventeenPoints.sorter (eyeAtOrigin Mat4f.identity)) (List.range 17)).Perm
          (List.range 17)
      ∧ (stdSort (seventeenPoints.sorter (eyeAtOrigin Mat4f.identity)) (List.range 17)).Pairwise
          (fun a b => seventeenPoints.sorter (eyeAtOrigin Mat4f.identity) b a = false) :=
  ⟨by decide!, by decide, by decide!, by decide!, by decide!⟩

/-- Claim C15, amended: with `std::sort` keeping its promise, the result of
`indicesTransparentSorted` for a buffer of whole primitives (points, lines or triangles)
consists of the blocks of the primitives in an order in which the squared distance to the eye,
as the `float` arithmetic of the code computes it, never increases; the relative order of
primitives at equal computed distance is not determined. -/
theorem sorted_by_descending_distance (sort : (Nat → Nat → Bool) → List Nat → List Nat)
    (hsort : SortsAsStdSort sort) (objectSpaceEye : Mat4f → Vec3f) (g : LoadedGeometry)
    (mvp : Mat4f) (N : Nat) (harity : arity g.primitiveType = some N)
    (hlen : g.m_indicesTransparent.length = g.m_centroids.length * N) :
    ∃ perm : List Nat, perm.Perm (List.range g.m_centroids.length)
      ∧ g.indicesTransparentSorted sort objectSpaceEye mvp
          = perm.flatMap (block N g.m_indicesTransparent)
      ∧ perm.Pairwise (fun a b =>
          sqDistance g (objectSpaceEye mvp) a ≥ sqDistance g (objectSpaceEye mvp) b) := by
  obtain ⟨perm, hperm, heq, _, hsorted⟩ :=
    indicesTransparentSorted_order hsort objectSpaceEye g mvp harity hlen
  exact ⟨perm, hperm, heq, hsorted⟩

/-- Claim C15, amended, at a concrete input: the three triangles of `threeTriangles` seen from
the origin, where the second is the farthest and the other two are at equal distance; the
`std::sort` of libstdc++ and the insertion sort both return the blocks of the second, the
first and the third triangle. -/
theorem sorted_by_descending_distance_witness :
    threeTriangles.indicesTransparentSorted stdSort eyeAtOrigin Mat4f.identity
        = [3, 4, 5, 0, 1, 2, 6, 7, 8]
      ∧ threeTriangles.indicesTransparentSorted keepingSort eyeAtOrigin Mat4f.identity
        = [3, 4, 5, 0, 1, 2, 6, 7, 8]
      ∧ ∃ perm : List Nat, perm.Perm (List.range threeTriangles.m_centroids.length)
        ∧ threeTriangles.indicesTransparentSorted keepingSort eyeAtOrigin Mat4f.identity
            = perm.flatMap (block 3 threeTriangles.m_indicesTransparent)
        ∧ perm.Pairwise (fun a b =>
            sqDistance threeTriangles (eyeAtOrigin Mat4f.identity) a
              ≥ sqDistance threeTriangles (eyeAtOrigin Mat4f.identity) b) :=
  ⟨by decide!, by decide!,
    sorted_by_descending_distance keepingSort keepingSort_sorts eyeAtOrigin threeTriangles
      Mat4f.identity 3 (by decide) (by decide)⟩

/-! ## Declared defaults and the registry -/

theorem registryValid_insert {m : Map Variables} (hm : RegistryValid m) (key : String)
    {vars : Variables} (hv : vars.Valid) : RegistryValid (Map.insert key vars m) := by
  intro name vars2 h
  by_cases hk : name = key
  · subst hk
    rw [Map.find?_insert_self] at h
    cases h
    exact hv
  · rw [Map.find?_insert_of_ne _ _ _ _ hk] at h
    exact hm name vars2 h

theorem updateVariables_eq {p q : SceneParser} {f : Variables → Variables}
    (h : p.updateVariables f = .ok q) :
    ∃ vars, p.m_variables.find? p.m_nodeName = some vars
      ∧ q.m_variables = Map.insert p.m_nodeName (f vars) p.m_variables := by
  unfold SceneParser.updateVariables at h
  cases hf : p.m_variables.find? p.m_nodeName with
  | none => rw [hf] at h; cases h
  | some vars =>
    rw [hf] at h
    cases h
    exact ⟨vars, rfl, rfl⟩

theorem parseFloatVariable_valid {p q : SceneParser} {node : Json}
    (hinv : RegistryValid p.m_variables) (hgood : FloatWithinBounds node)
    (h : p.parseFloatVariable node = .ok q) : RegistryValid q.m_variables := by
  unfold SceneParser.parseFloatVariable at h
  simp only [bind_ok_iff] at h
  obtain ⟨_, _, name, _, label, _, loJson, hlo1, lo, hlo2, hiJson, hhi1, hi, hhi2, _, _, st, _,
    dJson, hd1, dv, hd2, h⟩ := h
  obtain ⟨vars, hv, hq⟩ := updateVariables_eq h
  have h1 : declaredFloat node "lowerBound" = .ok lo := by
    unfold declaredFloat; simp only [bind_ok_iff]; exact ⟨loJson, hlo1, hlo2⟩
  have h2 : declaredFloat node "upperBound" = .ok hi := by
    unfold declaredFloat; simp only [bind_ok_iff]; exact ⟨hiJson, hhi1, hhi2⟩
  have h3 : declaredFloat node "defaultValue" = .ok dv := by
    unfold declaredFloat; simp only [bind_ok_iff]; exact ⟨dJson, hd1, hd2⟩
  unfold FloatWithinBounds at hgood
  rw [h1, h2, h3] at hgood
  rw [hq]
  refine registryValid_insert hinv _ ⟨fun v hmem => ?_, (hinv _ _ hv).2⟩
  rcases List.mem_append.mp hmem with hold | hnew
  · exact (hinv _ _ hv).1 v hold
  · rw [List.mem_singleton.mp hnew]
    exact hgood

theorem parseEnumVariable_valid {p q : SceneParser} {node : Json}
    (hinv : RegistryValid p.m_variables) (hgood : EnumDefaultAllowed node)
    (h : p.parseEnumVariable node = .ok q) : RegistryValid q.m_variables := by
  unfold SceneParser.parseEnumVariable at h
  simp only [bind_ok_iff] at h
  obtain ⟨_, _, name, _, label, _, valuesJson, hv1, values, hv2, dJson, hd1, dv, hd2, h⟩ := h
  obtain ⟨vars, hv, hq⟩ := updateVariables_eq h
  have h1 : declaredValues node = .ok values := by
    unfold declaredValues; simp only [bind_ok_iff]; exact ⟨valuesJson, hv1, hv2⟩
  have h2 : declaredDefault node = .ok dv := by
    unfold declaredDefault; simp only [bind_ok_iff]; exact ⟨dJson, hd1, hd2⟩
  unfold EnumDefaultAllowed at hgood
  rw [h1, h2] at hgood
  rw [hq]
  refine registryValid_insert hinv _ ⟨(hinv _ _ hv).1, fun v hmem => ?_⟩
  rcases List.mem_append.mp hmem with hold | hnew
  · exact (hinv _ _ hv).2 v hold
  · rw [List.mem_singleton.mp hnew]
    exact ⟨List.ne_nil_of_mem hgood, hgood⟩

theorem parseParam_valid {p q : SceneParser} {paramNode : Json}
    (hinv : RegistryValid p.m_variables) (hgood : WellDeclared paramNode)
    (h : p.parseParam paramNode = .ok q) : RegistryValid q.m_variables := by
  unfold SceneParser.parseParam at h
  simp only [bind_ok_iff, pure_ok_iff] at h
  obtain ⟨type, htype, p1, h1, hq⟩ := h
  subst hq
  show RegistryValid p1.m_variables
  unfold WellDeclared at hgood
  rw [htype] at hgood
  simp only at hgood
  split at h1
  · rename_i hfloat
    rw [if_pos hfloat] at hgood
    exact parseFloatVariable_valid hinv hgood h1
  · rename_i hfloat
    rw [if_neg hfloat] at hgood
    split at h1
    · rename_i henum
      rw [if_pos henum] at hgood
      exact parseEnumVariable_valid hinv hgood h1
    · cases h1
      exact hinv

theorem parseParamsLoop_valid {p q : SceneParser} {nodes : List Json}
    (hinv : RegistryValid p.m_variables) (hgood : ∀ v ∈ nodes, WellDeclared v)
    (h : p.parseParamsLoop nodes = .ok q) : RegistryValid q.m_variables := by
  induction nodes generalizing p with
  | nil => cases h; exact hinv
  | cons node rest ih =>
    unfold SceneParser.parseParamsLoop at h
    cases h1 : p.parseParam node with
    | error e => rw [h1] at h; cases h
    | ok p1 =>
      rw [h1] at h
      exact ih (parseParam_valid hinv (hgood node (List.mem_cons_self _ _)) h1)
        (fun v hv => hgood v (List.mem_cons_of_mem _ hv)) h

/-- What a successful `parseProvider` leaves in the registry: an entry under the name of the
node, and valid entries only when the entries were valid before and the source declares valid
defaults. -/
theorem parseProvider_registry {p q : SceneParser} {node : Json} {provider : DataProvider}
    (h : p.parseProvider node = .ok (provider, q)) :
    (∃ vars, q.m_variables.find? p.m_nodeName = some vars)
      ∧ (RegistryValid p.m_variables
          → (∀ vs, sourceVariables node = .ok vs → ∀ v ∈ vs, WellDeclared v)
          → RegistryValid q.m_variables) := by
  unfold SceneParser.parseProvider at h
  simp only [bind_ok_iff] at h
  obtain ⟨t, ht, type, htype, h⟩ := h
  have hvalid0 : RegistryValid p.m_variables
      → RegistryValid (Map.insert p.m_nodeName ⟨[], []⟩ p.m_variables) := fun hinv =>
    registryValid_insert hinv _
      ⟨fun v hv => absurd hv (List.not_mem_nil v), fun v hv => absurd hv (List.not_mem_nil v)⟩
  split at h
  · simp only [bind_ok_iff, pure_ok_iff] at h
    obtain ⟨_, _, h⟩ := h
    cases h
    exact ⟨⟨_, Map.find?_insert_self _ _ _⟩, fun hinv _ => hvalid0 hinv⟩
  · split at h
    · have hloop := parsePython_ok h
      obtain ⟨varsJson, hv, hloop⟩ := hloop
      refine ⟨?_, fun hinv hgood => ?_⟩
      · have hname : q.m_nodeName = p.m_nodeName := (parseParamsLoop_frame hloop).1.2.2.1
        unfold SceneParser.parsePython SceneParser.parseParams at h
        simp only [bind_ok_iff] at h
        obtain ⟨_, _, _, _, varsJson2, hv2, p1, hloop2, h⟩ := h
        split at h
        · rename_i vars hfind
          simp only [pure_ok_iff] at h
          cases h
          exact ⟨vars, hname ▸ hfind⟩
        · cases h
      · refine parseParamsLoop_valid (hvalid0 hinv) (hgood varsJson.elems ?_) hloop
        unfold sourceVariables
        simp only [bind_ok_iff, pure_ok_iff]
        exact ⟨varsJson, hv, rfl⟩
    · cases h

theorem tfVariables_eq {e tfJson source : Json} {vs : List Json}
    (htf : e.get "tf" = .ok tfJson) (hsrc : tfJson.get "source" = .ok source)
    (hvs : sourceVariables source = .ok vs) : tfVariables e = vs := by
  unfold tfVariables
  simp only [htf, hsrc, hvs, bind, Except.bind]

/-- What a successful round of the loop of `parseScene` leaves in the registry. -/
theorem parseSceneNode_registry {p q : SceneParser} {e : Json} {n : SceneNode}
    (h : p.parseSceneNode e = .ok (n, q)) :
    (∃ vars, q.m_variables.find? n.name = some vars)
      ∧ (RegistryValid p.m_variables
          → (∀ v ∈ datasetVariables e ++ tfVariables e, WellDeclared v)
          → RegistryValid q.m_variables) := by
  rcases parseSceneNode_ok h with ⟨htag, hg⟩ | ⟨htag, hv⟩
  · obtain ⟨name, visibility, dataset, datasetJson, hname, hvis, hn, hds, hparse⟩ :=
      parseGeometryNode_ok hg
    obtain ⟨source, transforms, hsrc, hprov, _, _⟩ := parseGeometryDataset_ok hparse
    obtain ⟨_, ⟨_, _, f3, _, _⟩, _⟩ := parseProvider_ok hprov
    obtain ⟨hentry, hvalid⟩ := parseProvider_registry hprov
    have hqname : q.m_nodeName = name := f3
    rw [hqname] at hn
    subst hn
    refine ⟨hentry, fun hinv hgood => hvalid hinv (fun vs hvs v hmem => ?_)⟩
    refine hgood v (List.mem_append_left _ ?_)
    rw [datasetVariables_eq hds hsrc hvs]
    exact hmem
  · obtain ⟨name, visibility, dataset, tf, datasetJson, source, p1, hname, hvis, hn, hds, hsrc,
      hprov, htf⟩ := parseVolumeNode_ok hv
    obtain ⟨_, ⟨_, _, f3, _, _⟩, _⟩ := parseProvider_ok hprov
    obtain ⟨hentry, hvalid⟩ := parseProvider_registry hprov
    have hvalid1 : RegistryValid p.m_variables
        → (∀ v ∈ datasetVariables e ++ tfVariables e, WellDeclared v)
        → RegistryValid p1.m_variables := fun hinv hgood =>
      hvalid hinv (fun vs hvs v hmem => hgood v (List.mem_append_left _
        (by rw [datasetVariables_eq hds hsrc hvs]; exact hmem)))
    rcases htf with ⟨_, hq⟩ | ⟨_, tfJson, tfSource, provider, ht, hts, hp2⟩
    · subst hq
      have hqname : q.m_nodeName = name := f3
      rw [hqname] at hn
      subst hn
      exact ⟨hentry, hvalid1⟩
    · obtain ⟨_, ⟨_, _, g3, _, _⟩, _⟩ := parseProvider_ok hp2
      obtain ⟨hentry2, hvalid2⟩ := parseProvider_registry hp2
      have hp1name : p1.m_nodeName = name := f3
      have hqname : q.m_nodeName = name := g3.trans hp1name
      rw [hqname] at hn
      subst hn
      rw [hp1name] at hentry2
      refine ⟨hentry2, fun hinv hgood =>
        hvalid2 (hvalid1 hinv hgood) (fun vs hvs v hmem => ?_)⟩
      refine hgood v (List.mem_append_right _ ?_)
      rw [tfVariables_eq ht hts hvs]
      exact hmem

/-- The registry after the loop of `parseScene`: its keys are the keys it had and the names of
the nodes, and its entries are valid when they were before and every entry declares valid
defaults. -/
theorem parseSceneNodes_keys {p q : SceneParser} {es : List Json} {ns : List SceneNode}
    (h : p.parseSceneNodes es = .ok (ns, q)) :
    (∀ key, (q.m_variables.find? key).isSome = true
        ↔ ((p.m_variables.find? key).isSome = true ∨ ∃ n ∈ ns, n.name = key))
      ∧ (RegistryValid p.m_variables
          → (∀ e ∈ es, ∀ v ∈ datasetVariables e ++ tfVariables e, WellDeclared v)
          → RegistryValid q.m_variables) := by
  induction es generalizing p ns with
  | nil =>
    cases h
    exact ⟨fun key => ⟨fun hk => Or.inl hk, fun hk => hk.elim id
      (fun ⟨n, hn, _⟩ => absurd hn (List.not_mem_nil n))⟩, fun hinv _ => hinv⟩
  | cons e rest ih =>
    obtain ⟨n, p1, ns1, h1, h2, rfl⟩ := parseSceneNodes_cons h
    obtain ⟨_, ⟨_, _, _, f4⟩, _⟩ := parseSceneNode_spec h1
    obtain ⟨⟨vars, hentry⟩, hvalid⟩ := parseSceneNode_registry h1
    obtain ⟨ihkeys, ihvalid⟩ := ih h2
    refine ⟨fun key => ?_, fun hinv hgood => ?_⟩
    · rw [ihkeys key]
      by_cases hk : key = n.name
      · subst hk
        rw [hentry]
        exact ⟨fun _ => Or.inr ⟨n, List.mem_cons_self _ _, rfl⟩, fun _ => Or.inl rfl⟩
      · rw [f4 key hk]
        constructor
        · rintro (hp | ⟨m, hm, hname⟩)
          · exact Or.inl hp
          · exact Or.inr ⟨m, List.mem_cons_of_mem _ hm, hname⟩
        · rintro (hp | ⟨m, hm, hname⟩)
          · exact Or.inl hp
          · rcases List.mem_cons.mp hm with hhead | htail
            · subst hhead
              exact absurd hname.symm hk
            · exact Or.inr ⟨m, htail, hname⟩
    · exact ihvalid (hvalid hinv (hgood e (List.mem_cons_self _ _)))
        (fun e2 he2 => hgood e2 (List.mem_cons_of_mem _ he2))

theorem new_variables {root : Json} {p : SceneParser} (h : SceneParser.new root = .ok p) :
    p.m_variables = [] := by
  unfold SceneParser.new at h
  simp only [bind_ok_iff, pure_ok_iff] at h
  obtain ⟨hasTransforms, _, h⟩ := h
  split at h
  · simp only [bind_ok_iff, pure_ok_iff] at h
    obtain ⟨_, _, _, _, h⟩ := h
    cases h; rfl
  · cases h; rfl

/-- A successful parse of a description is a successful run of the loop of `parseScene` over
the entries of `scene`, started with an empty registry, that leaves the nodes and the registry
of the scene. -/
theorem parseDescription_loop {root : Json} {scene : Scene}
    (h : parseDescription root = .ok scene) :
    ∃ (sceneJson : Json) (p1 q1 : SceneParser), root.get "scene" = .ok sceneJson
      ∧ p1.m_variables = []
      ∧ p1.parseSceneNodes sceneJson.elems = .ok (scene.m_nodes, q1)
      ∧ scene.m_variables = q1.m_variables := by
  obtain ⟨p, q, hnew, hscn⟩ := parseDescription_ok h
  unfold SceneParser.parseScene at hscn
  simp only [bind_ok_iff, pure_ok_iff] at hscn
  obtain ⟨metadata, _, hasUrl, _, url, _, sceneJson, hscene, ⟨nodes, q1⟩, hloop, hscn⟩ := hscn
  cases hscn
  rw [new_root hnew] at hscene
  have hempty : p.m_variables = [] := new_variables hnew
  exact ⟨sceneJson, { p with m_sceneName := metadata.name }, q1, hscene, hempty, hloop, rfl⟩

/-! ## Defaults, bounds and allowed values (C17) -/

theorem entryNames_of_parsed {p : SceneParser} {es : List Json} {ns : List SceneNode}
    (h : List.Forall₂ (EntryParsed p) es ns) :
    es.map entryName = (ns.map SceneNode.name).map Except.ok := by
  induction h with
  | nil => rfl
  | cons hentry _ ih =>
    simp only [List.map_cons, ih, hentry.1]

/-- Claim C18, counterexample: `twoNodesNamedA` parses, and both nodes of the scene are named
`a`. -/
theorem node_names_may_repeat :
    parseDescription twoNodesNamedA = .ok twoNodesNamedAScene
      ∧ twoNodesNamedAScene.m_nodes.map SceneNode.name = ["a", "a"]
      ∧ ¬ (twoNodesNamedAScene.m_nodes.map SceneNode.name).Nodup := by
  decide

/-- Claim C18, amended: the parser does not compare names. For a description that parses
successfully the names of the nodes are the names of the entries of `scene`, in order, so they
are pairwise distinct exactly when the names of the entries are. -/
theorem node_names_are_entry_names (root : Json) (scene : Scene)
    (hparse : parseDescription root = .ok scene)
    (sceneJson : Json) (hscene : root.get "scene" = .ok sceneJson) :
    sceneJson.elems.map entryName = (scene.m_nodes.map SceneNode.name).map Except.ok
      ∧ ((scene.m_nodes.map SceneNode.name).Nodup
          ↔ (sceneJson.elems.map entryName).Nodup) := by
  obtain ⟨sceneJson2, p1, q1, hget, _, hloop, _⟩ := parseDescription_loop hparse
  rw [hscene] at hget
  cases hget
  have hnames := entryNames_of_parsed (parseSceneNodes_spec hloop).1
  refine ⟨hnames, ?_⟩
  rw [hnames]
  exact (List.nodup_map_iff (fun a b hab => by cases hab; rfl)).symm

/-- Claim C18, amended, at a concrete input: the nodes `a` and `b` of `twoGeometryNodes`. -/
theorem node_names_are_entry_names_witness :
    parseDescription twoGeometryNodes = .ok twoGeometryNodesScene
      ∧ (twoGeometryNodesScene.m_nodes.map SceneNode.name).Nodup :=
  ⟨by decide,
    (node_names_are_entry_names twoGeometryNodes twoGeometryNodesScene (by decide)
      (.arr [geometryEntryA, geometryEntryB]) (by decide)).2.mpr (by decide)⟩

/-! ## The keys of the variable mapping (C19) -/

/-- Claim C19: for every description that parses successfully, the keys of the variable
mapping of the Scene are exactly the names of its nodes (every key is the name of a node, and
every node has an entry), and `Scene::variableMap` returns a result for every view and every
visibility test: it never looks up a missing entry. -/
theorem registry_keys_are_node_names (root : Json) (scene : Scene)
    (hparse : parseDescription root = .ok scene) :
    (∀ key, key ∈ scene.m_variables.keys ↔ ∃ n ∈ scene.m_nodes, n.name = key)
      ∧ (∀ n ∈ scene.m_nodes, ∃ vars, scene.m_variables.find? n.name = some vars)
      ∧ ∀ (View : Type) (isVisibleInView : SceneNode → View → Bool) (view : View),
        ∃ result, scene.variableMap isVisibleInView view = .ok result := by
  obtain ⟨sceneJson, p1, q1, _, hempty, hloop, hvars⟩ := parseDescription_loop hparse
  have hkeys : ∀ key, key ∈ scene.m_variables.keys ↔ ∃ n ∈ scene.m_nodes, n.name = key := by
    intro key
    rw [mem_keys_iff, hvars, (parseSceneNodes_keys hloop).1 key, hempty]
    constructor
    · rintro (hnone | hnode)
      · cases hnone
      · exact hnode
    · exact fun hnode => Or.inr hnode
  have hentries : ∀ n ∈ scene.m_nodes, ∃ vars, scene.m_variables.find? n.name = some vars := by
    intro n hn
    have hsome := (mem_keys_iff scene.m_variables n.name).mp ((hkeys n.name).mpr ⟨n, hn, rfl⟩)
    exact Option.isSome_iff_exists.mp hsome
  exact ⟨hkeys, hentries, fun View isVisibleInView view =>
    variableMapLoop_returns isVisibleInView scene.m_variables view scene.m_nodes []
      (fun n hn _ => (hkeys n.name).mpr ⟨n, hn, rfl⟩)⟩

/-- Claim C19 at a concrete input: the scene of `twoGeometryNodes` has the keys `a` and `b`. -/
theorem registry_keys_are_node_names_witness :
    parseDescription twoGeometryNodes = .ok twoGeometryNodesScene
      ∧ twoGeometryNodesScene.m_variables.keys = ["a", "b"]
      ∧ (∀ key, key ∈ twoGeometryNodesScene.m_variables.keys
          ↔ ∃ n ∈ twoGeometryNodesScene.m_nodes, n.name = key)
      ∧ ∃ result, twoGeometryNodesScene.variableMap everywhere () = .ok result :=
  have h := registry_keys_are_node_names twoGeometryNodes twoGeometryNodesScene (by decide)
  ⟨by decide, by decide, h.1, h.2.2 Unit everywhere ()⟩

/-! ## Vectors and colours of the wrong length (C20) -/

theorem parseSceneNodes_each {p q : SceneParser} {es : List Json} {ns : List SceneNode}
    (h : p.parseSceneNodes es = .ok (ns, q)) :
    ∀ e ∈ es, ∃ (p1 : SceneParser) (n : SceneNode) (q1 : SceneParser),
      p1.parseSceneNode e = .ok (n, q1) := by
  induction es generalizing p ns with
  | nil => intro e he; cases he
  | cons e0 rest ih =>
    obtain ⟨n, p1, ns1, h1, h2, _⟩ := parseSceneNodes_cons h
    intro e he
    rcases List.mem_cons.mp he with hhead | htail
    · subst hhead
      exact ⟨p, n, p1, h1⟩
    · exact ih h2 e htail

theorem parseGeometryDataset_color {p q : SceneParser} {node : Json} {dataset : GeometryDataset}
    (h : p.parseGeometryDataset node = .ok (dataset, q))
    (hmember : node.isMember "color" = .ok true) :
    ∃ colorJson color, node.get "color" = .ok colorJson ∧ parseColor colorJson = .ok color := by
  unfold SceneParser.parseGeometryDataset at h
  simp only [bind_ok_iff, pure_ok_iff] at h
  obtain ⟨_, _, ⟨_, _⟩, _, _, _, _, _, hasColor, hmem, color, hcolor, _⟩ := h
  rw [hmember] at hmem
  cases hmem
  simp only [if_true, bind_ok_iff, pure_ok_iff] at hcolor
  obtain ⟨colorJson, hget, c, hparse, _⟩ := hcolor
  exact ⟨colorJson, c, hget, hparse⟩

theorem parseColor_invalid {color : Json} (hbad : color.isArray = false ∨ color.size ≠ 4) :
    parseColor color = .error (.error "Invalid color") := by
  unfold parseColor
  rcases hbad with h | h
  · simp [h]
  · simp [h]

/-- A geometry entry whose dataset has a `color` that `parseColor` refuses makes `parseScene`
fail. -/
theorem parseScene_bad_color {p : SceneParser} {sceneJson e datasetJson color : Json}
    (hscene : p.m_root.get "scene" = .ok sceneJson) (he : e ∈ sceneJson.elems)
    (htag : typeTag e = .ok "geometry") (hds : e.get "dataset" = .ok datasetJson)
    (hmember : datasetJson.isMember "color" = .ok true)
    (hcolor : datasetJson.get "color" = .ok color)
    (hbad : ∃ err, parseColor color = .error err) :
    ∃ err, p.parseScene = .error err := by
  cases hparse : p.parseScene with
  | error err => exact ⟨err, rfl⟩
  | ok result =>
    exfalso
    obtain ⟨scene, q⟩ := result
    obtain ⟨sceneJson2, p1, q1, hget, _, hloop, _⟩ := parseScene_ok hparse
    rw [hscene] at hget
    cases hget
    obtain ⟨p2, n, q2, hnode⟩ := parseSceneNodes_each hloop e he
    rcases parseSceneNode_ok hnode with ⟨_, hg⟩ | ⟨hvol, _⟩
    · obtain ⟨_, _, _, datasetJson2, _, _, _, hds2, hdataset⟩ := parseGeometryNode_ok hg
      rw [hds] at hds2
      cases hds2
      obtain ⟨colorJson, c, hget2, hok⟩ := parseGeometryDataset_color hdataset hmember
      rw [hcolor] at hget2
      cases hget2
      obtain ⟨err, herr⟩ := hbad
      rw [hok] at herr
      cases herr
    · rw [htag] at hvol
      exact absurd hvol (by decide)

/-- Claim C20: a parser on a description whose `initialView.3d.translation` has a length other
than 3 fails in `initialParameters3D` with the error of `parseVector3`; one whose
`initialView.2d.translation` has a length other than 2 fails in `initialParameters2D` with the
error of `parseVector2`; and a `color` of a geometry dataset that is not an array of length 4
is refused by `parseColor` with the error `Invalid color`, which makes `parseScene` fail, so
that no Scene is produced from the description. -/
theorem wrong_length_vector_fails (root : Json) :
    (∀ view node translation, root.isMember "initialView" = .ok true
        → root.get "initialView" = .ok view → view.isMember "3d" = .ok true
        → view.get "3d" = .ok node → node.get "translation" = .ok translation
        → translation.size ≠ 3
        → ∀ p : SceneParser, p.m_root = root
          → p.initialParameters3D = .error (.error "Invalid 3D vector definition in JSON"))
      ∧ (∀ view node translation, root.isMember "initialView" = .ok true
        → root.get "initialView" = .ok view → view.isMember "2d" = .ok true
        → view.get "2d" = .ok node → node.get "translation" = .ok translation
        → translation.size ≠ 2
        → ∀ (axisOf : String → Except Failure CoordinateAxis) (p : SceneParser), p.m_root = root
          → p.initialParameters2D axisOf
            = .error (.error "Invalid 2D vector definition in JSON"))
      ∧ ∀ sceneJson e datasetJson color, root.get "scene" = .ok sceneJson
        → e ∈ sceneJson.elems → typeTag e = .ok "geometry"
        → e.get "dataset" = .ok datasetJson → datasetJson.isMember "color" = .ok true
        → datasetJson.get "color" = .ok color → (color.isArray = false ∨ color.size ≠ 4)
        → parseColor color = .error (.error "Invalid color")
          ∧ (∀ p : SceneParser, p.m_root = root → ∃ err, p.parseScene = .error err)
          ∧ ∃ err, parseDescription root = .error err := by
  refine ⟨?_, ?_, ?_⟩
  · intro view node translation hmember hview h3d hnode htranslation hsize p hroot
    have hvec : parseVector3 translation
        = .error (.error "Invalid 3D vector definition in JSON") := by
      unfold parseVector3
      simp [hsize]
    unfold SceneParser.initialParameters3D
    simp only [hroot, hmember, hview, h3d, hnode, htranslation, hvec, bind, Except.bind,
      if_true]
  · intro view node translation hmember hview h2d hnode htranslation hsize axisOf p hroot
    have hvec : parseVector2 translation
        = .error (.error "Invalid 2D vector definition in JSON") := by
      unfold parseVector2
      simp [hsize]
    unfold SceneParser.initialParameters2D
    simp only [hroot, hmember, hview, h2d, hnode, htranslation, hvec, bind, Except.bind,
      if_true]
  · intro sceneJson e datasetJson color hscene he htag hds hmember hcolor hbad
    have hfail := parseColor_invalid hbad
    have hscn : ∀ p : SceneParser, p.m_root = root → ∃ err, p.parseScene = .error err :=
      fun p hroot => parseScene_bad_color (p := p) (by rw [hroot]; exact hscene) he htag hds
        hmember hcolor ⟨_, hfail⟩
    exact ⟨hfail, hscn, parseDescription_error_of_scene
      (fun p hnew => hscn p (new_root hnew))⟩

/-- Claim C20 at concrete inputs: a 3D translation of two numbers, a 2D translation of three
numbers and a colour of three numbers. -/
theorem wrong_length_vector_fails_witness :
    (parserOn badViewDescription).initialParameters3D
        = .error (.error "Invalid 3D vector definition in JSON")
      ∧ (parserOn badView2dDescription).initialParameters2D demoAxisOf
        = .error (.error "Invalid 2D vector definition in JSON")
      ∧ parseColor (.arr [.int "1" 1, .int "0" 0, .int "0" 0]) = .error (.error "Invalid color")
      ∧ ∃ err, parseDescription badColorDescription = .error err :=
  have h3 := (wrong_length_vector_fails badColorDescription).2.2
    (.arr [geometryWithColor (.arr [.int "1" 1, .int "0" 0, .int "0" 0])])
    (geometryWithColor (.arr [.int "1" 1, .int "0" 0, .int "0" 0]))
    (.obj [("source", downloadSource "c.g3d"),
      ("color", .arr [.int "1" 1, .int "0" 0, .int "0" 0])])
    (.arr [.int "1" 1, .int "0" 0, .int "0" 0])
    (by decide) (by decide) (by decide) (by decide) (by decide) (by decide)
    (Or.inr (by decide))
  ⟨(wrong_length_vector_fails badViewDescription).1
      (.obj [("3d", .obj [("translation", .arr [.int "0" 0, .int "0" 0]),
        ("rotation", identityJson)])])
      (.obj [("translation", .arr [.int "0" 0, .int "0" 0]), ("rotation", identityJson)])
      (.arr [.int "0" 0, .int "0" 0])
      (by decide) (by decide) (by decide) (by decide) (by decide) (by decide)
      (parserOn badViewDescription) rfl,
    (wrong_length_vector_fails badView2dDescription).2.1
      (.obj [("2d", .obj [("translation", .arr [.int "0" 0, .int "0" 0, .int "0" 0]),
        ("rotation", .int "0" 0), ("zoom", .int "1" 1), ("axis", .str "z"),
        ("depth", .int "0" 0)])])
      (.obj [("translation", .arr [.int "0" 0, .int "0" 0, .int "0" 0]),
        ("rotation", .int "0" 0), ("zoom", .int "1" 1), ("axis", .str "z"),
        ("depth", .int "0" 0)])
      (.arr [.int "0" 0, .int "0" 0, .int "0" 0])
      (by decide) (by decide) (by decide) (by decide) (by decide) (by decide)
      demoAxisOf (parserOn badView2dDescription) rfl,
    h3.1, h3.2.2⟩

/-! ## The table of `parseVisibility` (C22) -/

/-- Claim C22: on every node object `parseVisibility` returns a visibility, which depends only
on the two conditions that `view2d` is present and the boolean false and that `view3d` is
present and the boolean false: `VisibleBoth` iff neither holds, `Visible3D` iff only the first
holds, `Visible2D` iff only the second holds, `VisibleNone` iff both hold. A node without the
fields is `VisibleBoth`, and so is one whose fields are 0, null, the string `false` or the
boolean true. -/
theorem parseVisibility_table (members : List (String × Json)) :
    (∃ visibility, parseVisibility (.obj members) = .ok visibility
      ∧ (visibility = .VisibleBoth
          ↔ (members.lookup "view2d" ≠ some (.bool false)
            ∧ members.lookup "view3d" ≠ some (.bool false)))
      ∧ (visibility = .Visible3D
          ↔ (members.lookup "view2d" = some (.bool false)
            ∧ members.lookup "view3d" ≠ some (.bool false)))
      ∧ (visibility = .Visible2D
          ↔ (members.lookup "view2d" ≠ some (.bool false)
            ∧ members.lookup "view3d" = some (.bool false)))
      ∧ (visibility = .VisibleNone
          ↔ (members.lookup "view2d" = some (.bool false)
            ∧ members.lookup "view3d" = some (.bool false))))
      ∧ parseVisibility (.obj []) = .ok .VisibleBoth
      ∧ parseVisibility (.obj [("view2d", .int "0" 0), ("view3d", .null)]) = .ok .VisibleBoth
      ∧ parseVisibility (.obj [("view2d", .str "false"), ("view3d", .bool true)])
        = .ok .VisibleBoth := by
  refine ⟨?_, by decide, by decide, by decide⟩
  by_cases h2d : members.lookup "view2d" = some (.bool false) <;>
    by_cases h3d : members.lookup "view3d" = some (.bool false)
  · refine ⟨.VisibleNone, ?_, ?_⟩
    · unfold parseVisibility
      simp [isFalseMember_obj, h2d, h3d, bind, Except.bind, pure, Except.pure]
    · simp [h2d, h3d]
  · refine ⟨.Visible3D, ?_, ?_⟩
    · unfold parseVisibility
      simp [isFalseMember_obj, h2d, h3d, bind, Except.bind, pure, Except.pure]
    · simp [h2d, h3d]
  · refine ⟨.Visible2D, ?_, ?_⟩
    · unfold parseVisibility
      simp [isFalseMember_obj, h2d, h3d, bind, Except.bind, pure, Except.pure]
    · simp [h2d, h3d]
  · refine ⟨.VisibleBoth, ?_, ?_⟩
    · unfold parseVisibility
      simp [isFalseMember_obj, h2d, h3d, bind, Except.bind, pure, Except.pure]
    · simp [h2d, h3d]

/-! ## The loop of `loadScene` -/

/-- The loop passes over a description whose parser can be constructed and whose metadata
name is another one. -/
theorem loadSceneLoop_skip (axisOf : String → Except Failure CoordinateAxis)
    (default2D : RenderParameters2D) (l : SceneLoaderImpl) (name : String)
    {pre : List Json} (rest : List Json)
    (hpre : ∀ d ∈ pre, ∃ parser metadata, SceneParser.new d = .ok parser
      ∧ parseMetadata d = .ok metadata ∧ metadata.name ≠ name) :
    SceneLoaderImpl.loadSceneLoop axisOf default2D l name (pre ++ rest)
      = SceneLoaderImpl.loadSceneLoop axisOf default2D l name rest := by
  induction pre with
  | nil => rfl
  | cons d more ih =>
    obtain ⟨parser, metadata, hnew, hmeta, hne⟩ := hpre d (List.mem_cons_self _ _)
    have hname : (metadata.name == name) = false := by simpa using hne
    rw [List.cons_append, SceneLoaderImpl.loadSceneLoop]
    simp only [hnew, hmeta, hname, Bool.false_eq_true, if_false]
    exact ih (fun d2 h2 => hpre d2 (List.mem_cons_of_mem _ h2))

/-- The loop stops at a description whose parser cannot be constructed, and leaves the loader
as it is. -/
theorem loadSceneLoop_new_error (axisOf : String → Except Failure CoordinateAxis)
    (default2D : RenderParameters2D) (l : SceneLoaderImpl) (name : String)
    {d : Json} (rest : List Json) {err : Failure} (hnew : SceneParser.new d = .error err) :
    SceneLoaderImpl.loadSceneLoop axisOf default2D l name (d :: rest) = (.error err, l) := by
  rw [SceneLoaderImpl.loadSceneLoop]
  simp only [hnew]

/-- The loop stops at the first description named `name` and loads it. -/
theorem loadSceneLoop_found (axisOf : String → Except Failure CoordinateAxis)
    (default2D : RenderParameters2D) (l : SceneLoaderImpl) (name : String)
    {d : Json} (rest : List Json) {parser : SceneParser} {metadata : SceneMetadata}
    (hnew : SceneParser.new d = .ok parser) (hmeta : parseMetadata d = .ok metadata)
    (hname : metadata.name = name) :
    SceneLoaderImpl.loadSceneLoop axisOf default2D l name (d :: rest)
      = SceneLoaderImpl.loadFound axisOf default2D l parser := by
  have hbeq : (metadata.name == name) = true := by simpa using hname
  rw [SceneLoaderImpl.loadSceneLoop]
  simp only [hnew, hmeta, hbeq, if_true]

theorem new_error_of_bad_entry {root table : Json} {key : String} {value : Json}
    (htable : root.get "transforms" = .ok table) (hentry : (key, value) ∈ table.items)
    (hsize : value.size ≠ 16) : ∃ err, SceneParser.new root = .error err := by
  have hfail : parseMatrix value = .error (.error "Invalid matrix definition in JSON") := by
    unfold parseMatrix
    simp [hsize]
  have hmember : root.isMember "transforms" = .ok true := by
    unfold Json.get at htable
    unfold Json.isMember
    cases hf : root.find "transforms" with
    | error err => rw [hf] at htable; cases htable
    | ok r =>
      rw [hf] at htable
      cases r with
      | none => cases htable; cases hentry
      | some x => rfl
  obtain ⟨err, herr⟩ := buildTransforms_error [] hentry ⟨_, hfail⟩
  unfold SceneParser.new
  exact ⟨err, by simp only [bind, Except.bind, hmember, htable, if_true, herr]⟩

theorem wellFormed_ok {axisOf : String → Except Failure CoordinateAxis} {d : Json}
    (h : wellFormed axisOf d = true) :
    ∃ parser metadata scene q view3 view2, SceneParser.new d = .ok parser
      ∧ parseMetadata d = .ok metadata ∧ parser.parseScene = .ok (scene, q)
      ∧ q.initialParameters3D = .ok view3 ∧ q.initialParameters2D axisOf = .ok view2 := by
  unfold wellFormed at h
  split at h
  · rename_i parser metadata hnew hmeta
    split at h
    · rename_i scene q hscene
      split at h
      · rename_i view3 view2 h3 h2
        exact ⟨parser, metadata, scene, q, view3, view2, hnew, hmeta, hscene, h3, h2⟩
      · cases h
    · cases h
  · cases h

/-- Loading a description that is well formed succeeds and stores its scene; both cached
controllers are dropped. -/
theorem loadFound_ok {axisOf : String → Except Failure CoordinateAxis}
    (default2D : RenderParameters2D) (l : SceneLoaderImpl) {d : Json} {parser : SceneParser}
    (hwf : wellFormed axisOf d = true) (hnew : SceneParser.new d = .ok parser) :
    ∃ scene, parseDescription d = .ok scene
      ∧ (SceneLoaderImpl.loadFound axisOf default2D l parser).1 = .ok ()
      ∧ (SceneLoaderImpl.loadFound axisOf default2D l parser).2.m_scene = some scene
      ∧ (SceneLoaderImpl.loadFound axisOf default2D l parser).2.m_sceneController2D = none
      ∧ (SceneLoaderImpl.loadFound axisOf default2D l parser).2.m_sceneController3D = none := by
  obtain ⟨parser2, metadata, scene, q, view3, view2, hnew2, _, hscene, h3, h2⟩ :=
    wellFormed_ok hwf
  rw [hnew] at hnew2
  cases hnew2
  have hdesc : parseDescription d = .ok scene := by
    unfold parseDescription
    simp only [bind, Except.bind, hnew, hscene, pure, Except.pure]
  refine ⟨scene, hdesc, ?_⟩
  unfold SceneLoaderImpl.loadFound
  simp only [hscene, h3, h2, and_self]

theorem isNamed_iff (name : String) (d : Json) :
    IsNamed name d ↔ ∃ metadata, parseMetadata d = .ok metadata ∧ metadata.name = name := by
  unfold IsNamed
  cases h : parseMetadata d with
  | error err =>
    constructor
    · intro hmap
      cases hmap
    · rintro ⟨m, hm, _⟩
      cases hm
  | ok metadata =>
    constructor
    · intro hmap
      exact ⟨metadata, rfl, by cases hmap; rfl⟩
    · rintro ⟨m, hm, hn⟩
      cases hm
      rw [← hn]
      rfl

/-- On a list of well-formed descriptions the loop fails exactly when no description is named
`name`. -/
theorem loadSceneLoop_fails_iff (axisOf : String → Except Failure CoordinateAxis)
    (default2D : RenderParameters2D) (l : SceneLoaderImpl) (name : String) (ds : List Json)
    (hwf : ∀ d ∈ ds, wellFormed axisOf d = true) :
    (∃ err, (SceneLoaderImpl.loadSceneLoop axisOf default2D l name ds).1 = .error err)
      ↔ ∀ d ∈ ds, ¬ IsNamed name d := by
  induction ds with
  | nil =>
    exact ⟨fun _ d hd => absurd hd (List.not_mem_nil d), fun _ => ⟨_, rfl⟩⟩
  | cons d rest ih =>
    have hd := hwf d (List.mem_cons_self _ _)
    obtain ⟨parser, metadata, _, _, _, _, hnew, hmeta, _, _, _⟩ := wellFormed_ok hd
    by_cases hname : metadata.name = name
    · rw [loadSceneLoop_found axisOf default2D l name rest hnew hmeta hname]
      obtain ⟨_, _, hok, _⟩ := loadFound_ok default2D l hd hnew
      constructor
      · rintro ⟨err, herr⟩
        rw [hok] at herr
        cases herr
      · intro hnone
        exact absurd ((isNamed_iff name d).mpr ⟨metadata, hmeta, hname⟩)
          (hnone d (List.mem_cons_self _ _))
    · have hskip := @loadSceneLoop_skip axisOf default2D l name [d] rest
        (fun d2 h2 => by
          rw [List.mem_singleton] at h2
          subst h2
          exact ⟨parser, metadata, hnew, hmeta, hname⟩)
      rw [List.singleton_append] at hskip
      rw [hskip, ih (fun d2 h2 => hwf d2 (List.mem_cons_of_mem _ h2))]
      constructor
      · intro hrest d2 h2
        rcases List.mem_cons.mp h2 with hhead | htail
        · subst hhead
          intro hnamed
          obtain ⟨m, hm, hmn⟩ := (isNamed_iff name d2).mp hnamed
          rw [hmeta] at hm
          cases hm
          exact hname hmn
        · exact hrest d2 htail
      · exact fun hall d2 h2 => hall d2 (List.mem_cons_of_mem _ h2)

/-- A successful `loadScene` has constructed a parser for the description it loads and for
every description listed before it, none of which is named `name`. -/
theorem loadSceneLoop_ok_inv (axisOf : String → Except Failure CoordinateAxis)
    (default2D : RenderParameters2D) (l : SceneLoaderImpl) (name : String) (ds : List Json)
    (h : (SceneLoaderImpl.loadSceneLoop axisOf default2D l name ds).1 = .ok ()) :
    ∃ pre d post, ds = pre ++ d :: post
      ∧ (∀ d2 ∈ pre, ∃ parser metadata, SceneParser.new d2 = .ok parser
          ∧ parseMetadata d2 = .ok metadata ∧ metadata.name ≠ name)
      ∧ ∃ parser metadata, SceneParser.new d = .ok parser
          ∧ parseMetadata d = .ok metadata ∧ metadata.name = name := by
  induction ds with
  | nil => cases h
  | cons d rest ih =>
    rw [SceneLoaderImpl.loadSceneLoop] at h
    cases hnew : SceneParser.new d with
    | error err => simp only [hnew] at h; cases h
    | ok parser =>
      cases hmeta : parseMetadata d with
      | error err => simp only [hnew, hmeta] at h; cases h
      | ok metadata =>
        by_cases hname : metadata.name = name
        · exact ⟨[], d, rest, rfl, fun d2 h2 => absurd h2 (List.not_mem_nil d2),
            parser, metadata, hnew, hmeta, hname⟩
        · have hbeq : (metadata.name == name) = false := by simpa using hname
          simp only [hnew, hmeta, hbeq, Bool.false_eq_true, if_false] at h
          obtain ⟨pre, d1, post, hsplit, hpre, hfound⟩ := ih h
          refine ⟨d :: pre, d1, post, by rw [hsplit]; rfl, fun d2 h2 => ?_, hfound⟩
          rcases List.mem_cons.mp h2 with hhead | htail
          · subst hhead
            exact ⟨parser, metadata, hnew, hmeta, hname⟩
          · exact hpre d2 htail

/-! ## Descriptions listed before the requested one (C24) -/

/-- Claim C24: a successful `loadScene(name)` has constructed a parser, and with it parsed
the top-level `transforms` table, for the first description named `name` and for every
description listed before it; and when the descriptions before some description `bad` can be
constructed and have other names, and the `transforms` table of `bad` has an entry whose length
is not 16, the parser of `bad` cannot be constructed and `loadScene(name)` fails and leaves the
loader as it is, whatever is listed after `bad`. -/
theorem earlier_description_breaks_load (axisOf : String → Except Failure CoordinateAxis)
    (default2D : RenderParameters2D) (l : SceneLoaderImpl) (name : String) :
    (∀ root : Json, (l.loadScene axisOf default2D root name).1 = .ok ()
        → ∃ pre d post, root.elems = pre ++ d :: post
          ∧ (∀ d2 ∈ pre, ∃ parser metadata, SceneParser.new d2 = .ok parser
              ∧ parseMetadata d2 = .ok metadata ∧ metadata.name ≠ name)
          ∧ ∃ parser metadata, SceneParser.new d = .ok parser
              ∧ parseMetadata d = .ok metadata ∧ metadata.name = name)
      ∧ ∀ (pre : List Json) (bad : Json) (post : List Json) (table : Json) (key : String)
          (value : Json),
        (∀ d ∈ pre, ∃ parser metadata, SceneParser.new d = .ok parser
            ∧ parseMetadata d = .ok metadata ∧ metadata.name ≠ name)
        → bad.get "transforms" = .ok table → (key, value) ∈ table.items → value.size ≠ 16
        → (∃ err, SceneParser.new bad = .error err)
          ∧ ∃ err, l.loadScene axisOf default2D (.arr (pre ++ bad :: post)) name
              = (.error err, l) := by
  refine ⟨fun root h => loadSceneLoop_ok_inv axisOf default2D l name root.elems h,
    fun pre bad post table key value hpre htable hentry hsize => ?_⟩
  obtain ⟨err, herr⟩ := new_error_of_bad_entry htable hentry hsize
  refine ⟨⟨err, herr⟩, err, ?_⟩
  show SceneLoaderImpl.loadSceneLoop axisOf default2D l name (pre ++ bad :: post) = _
  rw [loadSceneLoop_skip axisOf default2D l name (bad :: post) hpre]
  exact loadSceneLoop_new_error axisOf default2D l name post herr

/-- Claim C24 at a concrete input: the server lists `otherDescription`, then
`brokenOtherDescription` and then the valid description `demoScene [plainVolume]`, which is
named `demo`; loading `demo` fails, although the description parses on its own. -/
theorem earlier_description_breaks_load_witness :
    parseDescription (demoScene [plainVolume]) = .ok plainVolumeScene
      ∧ (loaderWithScene.loadScene demoAxisOf ⟨⟨0, 0⟩, 0, 1, .Z_Axis, ⟨0, 0⟩⟩
          (.arr [demoScene [plainVolume]]) "demo").1 = .ok ()
      ∧ ∃ err, loaderWithScene.loadScene demoAxisOf ⟨⟨0, 0⟩, 0, 1, .Z_Axis, ⟨0, 0⟩⟩
          (.arr ([otherDescription] ++ brokenOtherDescription :: [demoScene [plainVolume]]))
          "demo" = (.error err, loaderWithScene) :=
  ⟨by decide, by decide,
    ((earlier_description_breaks_load demoAxisOf ⟨⟨0, 0⟩, 0, 1, .Z_Axis, ⟨0, 0⟩⟩
      loaderWithScene "demo").2 [otherDescription] brokenOtherDescription
      [demoScene [plainVolume]] (.obj [("short", fifteenJson)]) "short" fifteenJson
      (fun d hd => by
        rw [List.mem_singleton] at hd
        subst hd
        exact ⟨parserOn otherDescription, ⟨"other", ""⟩, by decide, by decide, by decide⟩)
      (by decide) (by decide) (by decide)).2⟩

/-! ## The first description of the name (C25) -/

/-- Claim C25: on a list of well-formed descriptions `loadScene(name)` loads the first
description named `name`: the call succeeds, the loader holds the scene of that description,
and the outcome is the same whatever is listed after it (later descriptions are not parsed).
The call fails iff no description of the list is named `name`, then with the error that the
scene does not exist and the loader left as it is. After `unloadScene`, `isSceneLoaded` is
false and `metadata()` and `webViewURL()` fail with the error `No scene loaded`. -/
theorem loadScene_loads_first_match (axisOf : String → Except Failure CoordinateAxis)
    (default2D : RenderParameters2D) (l : SceneLoaderImpl) (root : Json) (name : String)
    (hwf : ∀ d ∈ root.elems, wellFormed axisOf d = true) :
    (∀ pre d post, root.elems = pre ++ d :: post → (∀ d2 ∈ pre, ¬ IsNamed name d2)
        → IsNamed name d
        → ∃ scene, parseDescription d = .ok scene
          ∧ (l.loadScene axisOf default2D root name).1 = .ok ()
          ∧ (l.loadScene axisOf default2D root name).2.m_scene = some scene
          ∧ ∀ post2, l.loadScene axisOf default2D (.arr (pre ++ d :: post2)) name
              = l.loadScene axisOf default2D root name)
      ∧ ((∃ err, (l.loadScene axisOf default2D root name).1 = .error err)
          ↔ ∀ d ∈ root.elems, ¬ IsNamed name d)
      ∧ ((∀ d ∈ root.elems, ¬ IsNamed name d)
          → l.loadScene axisOf default2D root name
            = (.error (.error ("Scene named \x27" ++ name ++ "\x27 does not exist")), l))
      ∧ ∀ l2 : SceneLoaderImpl, l2.unloadScene.isSceneLoaded = false
          ∧ l2.unloadScene.metadata = .error (.error "No scene loaded")
          ∧ l2.unloadScene.webViewURL = .error (.error "No scene loaded") := by
  have hskip : ∀ pre : List Json, (∀ d ∈ pre, wellFormed axisOf d = true)
      → (∀ d ∈ pre, ¬ IsNamed name d)
      → ∀ d ∈ pre, ∃ parser metadata, SceneParser.new d = .ok parser
          ∧ parseMetadata d = .ok metadata ∧ metadata.name ≠ name := by
    intro pre hwfpre hnone d hd
    obtain ⟨parser, metadata, _, _, _, _, hnew, hmeta, _, _, _⟩ := wellFormed_ok (hwfpre d hd)
    exact ⟨parser, metadata, hnew, hmeta,
      fun hname => hnone d hd ((isNamed_iff name d).mpr ⟨metadata, hmeta, hname⟩)⟩
  refine ⟨fun pre d post hsplit hnone hnamed => ?_, ?_, fun hnone => ?_,
    fun l2 => ⟨rfl, rfl, rfl⟩⟩
  · have hwfpre : ∀ d2 ∈ pre, wellFormed axisOf d2 = true := fun d2 h2 =>
      hwf d2 (by rw [hsplit]; exact List.mem_append_left _ h2)
    have hwfd : wellFormed axisOf d = true :=
      hwf d (by rw [hsplit]; exact List.mem_append_right _ (List.mem_cons_self _ _))
    obtain ⟨parser, metadata, _, _, _, _, hnew, hmeta, _, _, _⟩ := wellFormed_ok hwfd
    obtain ⟨m, hm, hname⟩ := (isNamed_iff name d).mp hnamed
    rw [hmeta] at hm
    cases hm
    have hloop : ∀ post2, SceneLoaderImpl.loadSceneLoop axisOf default2D l name
        (pre ++ d :: post2) = SceneLoaderImpl.loadFound axisOf default2D l parser := by
      intro post2
      rw [loadSceneLoop_skip axisOf default2D l name (d :: post2) (hskip pre hwfpre hnone)]
      exact loadSceneLoop_found axisOf default2D l name post2 hnew hmeta hname
    have hroot : l.loadScene axisOf default2D root name
        = SceneLoaderImpl.loadFound axisOf default2D l parser := by
      unfold SceneLoaderImpl.loadScene
      rw [hsplit]
      exact hloop post
    obtain ⟨scene, hdesc, hok, hscene, _⟩ := loadFound_ok default2D l hwfd hnew
    rw [hroot]
    exact ⟨scene, hdesc, hok, hscene, fun post2 => hloop post2⟩
  · exact loadSceneLoop_fails_iff axisOf default2D l name root.elems hwf
  · unfold SceneLoaderImpl.loadScene
    have h := loadSceneLoop_skip axisOf default2D l name [] (hskip root.elems hwf hnone)
    rw [List.append_nil] at h
    rw [h]
    rfl

/-- Claim C25 at a concrete input: the server lists `otherDescription` and two descriptions
named `demo`; loading `demo` stores the scene of the first of the two, and loading `absent`
fails. -/
theorem loadScene_loads_first_match_witness :
    parseDescription (demoScene [plainVolume]) = .ok plainVolumeScene
      ∧ (∃ scene, parseDescription (demoScene [plainVolume]) = .ok scene
        ∧ (loaderWithScene.loadScene demoAxisOf ⟨⟨0, 0⟩, 0, 1, .Z_Axis, ⟨0, 0⟩⟩
            (.arr [otherDescription, demoScene [plainVolume],
              demoScene [geometryWithTransforms []]]) "demo").1 = .ok ()
        ∧ (loaderWithScene.loadScene demoAxisOf ⟨⟨0, 0⟩, 0, 1, .Z_Axis, ⟨0, 0⟩⟩
            (.arr [otherDescription, demoScene [plainVolume],
              demoScene [geometryWithTransforms []]]) "demo").2.m_scene = some scene)
      ∧ ∃ err, (loaderWithScene.loadScene demoAxisOf ⟨⟨0, 0⟩, 0, 1, .Z_Axis, ⟨0, 0⟩⟩
          (.arr [otherDescription, demoScene [plainVolume],
            demoScene [geometryWithTransforms []]]) "absent").1 = .error err :=
  ⟨by decide,
    ((loadScene_loads_first_match demoAxisOf ⟨⟨0, 0⟩, 0, 1, .Z_Axis, ⟨0, 0⟩⟩ loaderWithScene
      (.arr [otherDescription, demoScene [plainVolume], demoScene [geometryWithTransforms []]])
      "demo" (by decide)).1 [otherDescription] (demoScene [plainVolume])
      [demoScene [geometryWithTransforms []]] rfl (by decide) (by decide)).elim
      (fun scene h => ⟨scene, h.1, h.2.1, h.2.2.1⟩),
    ((loadScene_loads_first_match demoAxisOf ⟨⟨0, 0⟩, 0, 1, .Z_Axis, ⟨0, 0⟩⟩ loaderWithScene
      (.arr [otherDescription, demoScene [plainVolume], demoScene [geometryWithTransforms []]])
      "absent" (by decide)).2.1).mpr (by decide)⟩

/-! ## What a volume dataset is not asked for (C26) -/

theorem parseVisibility_congr {a b : List (String × Json)}
    (h2d : a.lookup "view2d" = b.lookup "view2d") (h3d : a.lookup "view3d" = b.lookup "view3d") :
    parseVisibility (.obj a) = parseVisibility (.obj b) := by
  unfold parseVisibility
  simp only [isFalseMember_obj, h2d, h3d]

theorem parseVolumeNode_ignores_extras {members members2 dmembers dmembers2 : List (String × Json)}
    (hsame : SameButDataset members members2)
    (hds : members.lookup "dataset" = some (.obj dmembers))
    (hds2 : members2.lookup "dataset" = some (.obj dmembers2))
    (hextras : SameButTransformsAndColor dmembers dmembers2) (p : SceneParser) :
    p.parseVolumeNode (.obj members) = p.parseVolumeNode (.obj members2) := by
  have hvis : parseVisibility (.obj members) = parseVisibility (.obj members2) :=
    parseVisibility_congr (hsame "view2d" (by decide)) (hsame "view3d" (by decide))
  unfold SceneParser.parseVolumeNode SceneParser.parseVolumeDataset
  simp only [Json.get_obj, Json.isMember_obj, hvis, hds, hds2, Option.getD_some,
    hsame "name" (by decide), hsame "tf" (by decide),
    hextras "source" (by decide) (by decide), bind, Except.bind]

theorem parseSceneNode_ignores_extras {members members2 dmembers dmembers2 : List (String × Json)}
    (htype : members.lookup "type" = some (.str "volume"))
    (hsame : SameButDataset members members2)
    (hds : members.lookup "dataset" = some (.obj dmembers))
    (hds2 : members2.lookup "dataset" = some (.obj dmembers2))
    (hextras : SameButTransformsAndColor dmembers dmembers2) (p : SceneParser) :
    p.parseSceneNode (.obj members) = p.parseSceneNode (.obj members2) := by
  have htype2 : members2.lookup "type" = some (.str "volume") := by
    rw [← hsame "type" (by decide)]; exact htype
  unfold SceneParser.parseSceneNode
  simp only [Json.get_obj, htype, htype2, Option.getD_some, Json.asString, bind, Except.bind]
  exact parseVolumeNode_ignores_extras hsame hds hds2 hextras _

/-- Replacing an entry of the `scene` array by one that every parser reads to the same outcome
does not change the outcome of the loop. -/
theorem parseSceneNodes_congr {e e2 : Json}
    (hnode : ∀ p : SceneParser, p.parseSceneNode e = p.parseSceneNode e2)
    (pre post : List Json) (p : SceneParser) :
    p.parseSceneNodes (pre ++ e :: post) = p.parseSceneNodes (pre ++ e2 :: post) := by
  induction pre generalizing p with
  | nil =>
    simp only [List.nil_append]
    unfold SceneParser.parseSceneNodes
    rw [hnode p]
  | cons e0 rest ih =>
    simp only [List.cons_append]
    unfold SceneParser.parseSceneNodes
    cases h : p.parseSceneNode e0 with
    | error err => rfl
    | ok r =>
      obtain ⟨n, p1⟩ := r
      simp only
      rw [ih p1]

/-- Two descriptions that differ in the `scene` array only, the loop having the same outcome on
the two arrays: when the second description parses, the first parses to the same Scene. -/
theorem parseDescription_of_same_loop {top top2 : List (String × Json)} {es es2 : List Json}
    {scene2 : Scene} (htop : SameButScene top top2)
    (hloop : ∀ p : SceneParser, p.parseSceneNodes es = p.parseSceneNodes es2)
    (hscene : top.lookup "scene" = some (.arr es))
    (hscene2 : top2.lookup "scene" = some (.arr es2))
    (h : parseDescription (.obj top2) = .ok scene2) :
    parseDescription (.obj top) = .ok scene2 := by
  obtain ⟨p2, q2, hnew2, hparse2⟩ := parseDescription_ok h
  have hnew := new_sameButScene htop hnew2
  have hroot2 := new_root hnew2
  unfold SceneParser.parseScene at hparse2
  simp only [bind_ok_iff, pure_ok_iff] at hparse2
  obtain ⟨metadata, h1, hasUrl, h2, url, h3, sceneJson, h4, ⟨nodes, q1⟩, h5, h6⟩ := hparse2
  cases h6
  rw [hroot2] at h1 h2 h3 h4
  rw [Json.get_obj, hscene2] at h4
  cases h4
  have h5es : SceneParser.parseSceneNodes { p2 with m_sceneName := metadata.name } es2
      = .ok (nodes, q1) := h5
  have h5root := parseSceneNodes_root (r := .obj top) h5es
  rw [← hloop] at h5root
  unfold parseDescription
  rw [hnew]
  simp only [bind, Except.bind]
  have hparse : (withRoot (.obj top) p2).parseScene
      = .ok (⟨metadata, nodes, q1.m_variables, url⟩,
          { withRoot (.obj top) q1 with m_variables := [] }) := by
    unfold SceneParser.parseScene
    simp only [bind_ok_iff, pure_ok_iff]
    have hr : (withRoot (.obj top) p2).m_root = .obj top := rfl
    rw [hr]
    refine ⟨metadata, by rw [parseMetadata_sameButScene htop]; exact h1, hasUrl, ?_, url, ?_,
      .arr es, by rw [Json.get_obj, hscene]; rfl, (nodes, withRoot (.obj top) q1), h5root, rfl⟩
    · rw [Json.isMember_obj, htop "webViewURL" (by decide)]
      exact h2
    · rw [Json.get_obj, htop "webViewURL" (by decide)]
      exact h3
  rw [hparse]
  rfl

theorem sameButDataset_volumeMembers (a b : Json) :
    SameButDataset (volumeMembers a) (volumeMembers b) := by
  intro key hkey
  have hne : (key == "dataset") = false := by simpa using hkey
  simp [volumeMembers, List.lookup, hne]

theorem sameButTransformsAndColor_brokenExtras :
    SameButTransformsAndColor (volumeDatasetMembers brokenExtras) (volumeDatasetMembers []) := by
  intro key htransforms hcolor
  have hne1 : (key == "transforms") = false := by simpa using htransforms
  have hne2 : (key == "color") = false := by simpa using hcolor
  simp [volumeDatasetMembers, brokenExtras, List.lookup, hne1, hne2]

/-- Claim C26: for a volume entry, the parser reads nothing of the dataset but its `source`:
two volume entries that differ only in the `transforms` and `color` members of their dataset
objects (present or absent, of any shape) are parsed to the same outcome by every parser, and
a description with the one parses to the same Scene as the description with the other. So a
volume dataset with an undeclared transform name, a matrix of the wrong length or a colour of
the wrong length parses as if those fields were absent. -/
theorem volume_dataset_extras_are_ignored
    (members members2 dmembers dmembers2 : List (String × Json))
    (htype : members.lookup "type" = some (.str "volume"))
    (hsame : SameButDataset members members2)
    (hds : members.lookup "dataset" = some (.obj dmembers))
    (hds2 : members2.lookup "dataset" = some (.obj dmembers2))
    (hextras : SameButTransformsAndColor dmembers dmembers2) :
    (∀ p : SceneParser, p.parseSceneNode (.obj members) = p.parseSceneNode (.obj members2))
      ∧ ∀ (top top2 : List (String × Json)) (pre post : List Json) (scene2 : Scene),
        SameButScene top top2
        → top.lookup "scene" = some (.arr (pre ++ .obj members :: post))
        → top2.lookup "scene" = some (.arr (pre ++ .obj members2 :: post))
        → parseDescription (.obj top2) = .ok scene2
        → parseDescription (.obj top) = .ok scene2 := by
  have hnode := parseSceneNode_ignores_extras htype hsame hds hds2 hextras
  exact ⟨hnode, fun top top2 pre post scene2 htop hscene hscene2 hparse =>
    parseDescription_of_same_loop htop (parseSceneNodes_congr hnode pre post) hscene hscene2
      hparse⟩

/-- Claim C26 at a concrete input: the volume `v` whose dataset carries a `transforms` list
with the undeclared name `missing` and a matrix of fifteen numbers, and a `color` of three
numbers, parses to the scene of the plain volume `v`. -/
theorem volume_dataset_extras_are_ignored_witness :
    parseDescription (.obj (demoMembers
        [.obj (volumeMembers (.obj (volumeDatasetMembers [])))])) = .ok plainVolumeScene
      ∧ parseDescription (.obj (demoMembers
        [.obj (volumeMembers (.obj (volumeDatasetMembers brokenExtras)))]))
        = .ok plainVolumeScene :=
  ⟨by decide,
    (volume_dataset_extras_are_ignored
      (volumeMembers (.obj (volumeDatasetMembers brokenExtras)))
      (volumeMembers (.obj (volumeDatasetMembers [])))
      (volumeDatasetMembers brokenExtras) (volumeDatasetMembers [])
      (by decide) (sameButDataset_volumeMembers _ _) (by decide) (by decide)
      sameButTransformsAndColor_brokenExtras).2
      (demoMembers [.obj (volumeMembers (.obj (volumeDatasetMembers brokenExtras)))])
      (demoMembers [.obj (volumeMembers (.obj (volumeDatasetMembers [])))])
      [] [] plainVolumeScene (sameButScene_demo _ _) rfl rfl (by decide)⟩

/-! ## Variables numbered from a running counter -/

theorem numberedFrom_bounds {vars : Variables} {start n : Nat} (h : NumberedFrom vars start n) :
    ∀ i ∈ vars.indices, start ≤ i ∧ i < start + n := by
  intro i hi
  exact List.mem_range'_1.mp ((h.2.2.mem_iff (a := i)).mp hi)

theorem numberedFrom_count {vars : Variables} {start n : Nat} (h : NumberedFrom vars start n) :
    vars.count = n := by
  have := h.2.2.length_eq
  simp [Variables.indices] at this
  unfold Variables.count
  omega

theorem numberedFrom_empty (start : Nat) : NumberedFrom ⟨[], []⟩ start 0 :=
  ⟨List.Pairwise.nil, List.Pairwise.nil, by simp [Variables.indices]⟩

theorem numberedFrom_push_float {vars : Variables} {start n : Nat}
    (h : NumberedFrom vars start n) (var : FloatVariable) (hvar : var.info.index = start + n) :
    NumberedFrom ⟨vars.floatVariables ++ [var], vars.enumVariables⟩ start (n + 1) := by
  have hlt := numberedFrom_bounds h
  obtain ⟨hf, he, hp⟩ := h
  refine ⟨?_, he, ?_⟩
  · simp only [List.map_append, List.map_cons, List.map_nil]
    rw [List.pairwise_append]
    refine ⟨hf, List.pairwise_singleton _ _, fun a ha b hb => ?_⟩
    rw [List.mem_singleton] at hb
    rw [hb, hvar]
    exact (hlt a (List.mem_append_left _ ha)).2
  · unfold Variables.indices at hp ⊢
    simp only [List.map_append, List.map_cons, List.map_nil, hvar]
    rw [List.range'_1_concat]
    have h1 : (List.map (fun v => v.info.index) vars.floatVariables ++ [start + n]
        ++ List.map (fun v => v.info.index) vars.enumVariables).Perm
        ((List.map (fun v => v.info.index) vars.floatVariables
        ++ List.map (fun v => v.info.index) vars.enumVariables) ++ [start + n]) := by
      rw [List.append_assoc, List.append_assoc]
      exact List.Perm.append_left _ List.perm_append_comm
    exact h1.trans (List.Perm.append_right _ hp)

theorem numberedFrom_push_enum {vars : Variables} {start n : Nat}
    (h : NumberedFrom vars start n) (var : EnumVariable) (hvar : var.info.index = start + n) :
    NumberedFrom ⟨vars.floatVariables, vars.enumVariables ++ [var]⟩ start (n + 1) := by
  have hlt := numberedFrom_bounds h
  obtain ⟨hf, he, hp⟩ := h
  refine ⟨hf, ?_, ?_⟩
  · simp only [List.map_append, List.map_cons, List.map_nil]
    rw [List.pairwise_append]
    refine ⟨he, List.pairwise_singleton _ _, fun a ha b hb => ?_⟩
    rw [List.mem_singleton] at hb
    rw [hb, hvar]
    exact (hlt a (List.mem_append_right _ ha)).2
  · unfold Variables.indices at hp ⊢
    simp only [List.map_append, List.map_cons, List.map_nil, hvar]
    rw [List.range'_1_concat, ← List.append_assoc]
    exact List.Perm.append_right _ hp

theorem parseParam_registeredFrom {start : Nat} {p q : SceneParser} {paramNode : Json}
    (hreg : RegisteredFrom start p) (hknown : KnownVariableType paramNode)
    (h : p.parseParam paramNode = .ok q) : RegisteredFrom start q := by
  obtain ⟨⟨_, _, hname, _, _⟩, _⟩ := parseParam_frame h
  unfold SceneParser.parseParam at h
  simp only [bind_ok_iff, pure_ok_iff] at h
  obtain ⟨type, htype, p1, h1, hq⟩ := h
  subst hq
  obtain ⟨vars, n, hvars, hcounter, hnum⟩ := hreg
  unfold RegisteredFrom
  show ∃ vars n, p1.m_variables.find? p1.m_nodeName = some vars
    ∧ p1.m_varIndex + 1 = start + n ∧ NumberedFrom vars start n
  have hname1 : p1.m_nodeName = p.m_nodeName := hname
  rw [hname1]
  split at h1
  · obtain ⟨var, vars2, hidx, hv2, hq, hi, _⟩ := parseFloatVariable_ok h1
    rw [hvars] at hv2
    cases hv2
    exact ⟨_, n + 1, hq, by rw [hi, hcounter]; rfl,
      numberedFrom_push_float hnum var (hidx.trans hcounter)⟩
  · split at h1
    · obtain ⟨var, vars2, hidx, hv2, hq, hi, _⟩ := parseEnumVariable_ok h1
      rw [hvars] at hv2
      cases hv2
      exact ⟨_, n + 1, hq, by rw [hi, hcounter]; rfl,
        numberedFrom_push_enum hnum var (hidx.trans hcounter)⟩
    · rename_i hnf hne
      rcases hknown with h | h
      · rw [htype] at h; cases h; simp [Json.eqString] at hnf
      · rw [htype] at h; cases h; simp [Json.eqString] at hne

theorem parseParamsLoop_registeredFrom {start : Nat} {p q : SceneParser} {nodes : List Json}
    (hreg : RegisteredFrom start p) (hknown : ∀ v ∈ nodes, KnownVariableType v)
    (h : p.parseParamsLoop nodes = .ok q) : RegisteredFrom start q := by
  induction nodes generalizing p with
  | nil => cases h; exact hreg
  | cons node rest ih =>
    unfold SceneParser.parseParamsLoop at h
    cases h1 : p.parseParam node with
    | error e => rw [h1] at h; cases h
    | ok p1 =>
      rw [h1] at h
      exact ih (parseParam_registeredFrom hreg (hknown node (List.mem_cons_self _ _)) h1)
        (fun v hv => hknown v (List.mem_cons_of_mem _ hv)) h

theorem variablesRead_download {source : Json} (h : typeTag source = .ok "download") :
    variablesRead source = [] := by
  unfold variablesRead
  rw [h]
  rfl

theorem variablesRead_python {source : Json} {vs : List Json}
    (h : typeTag source = .ok "python") (hvs : sourceVariables source = .ok vs) :
    variablesRead source = vs := by
  unfold variablesRead
  rw [h, hvs]
  rfl

/-- What a successful `parseProvider` does with the counter and the entry of the node: a
download source leaves the counter and an empty entry; a python source advances the counter by
the length of its `variables` list and leaves an entry whose variables, when all entries of the
list have a known type, are numbered from the counter as it was. -/
theorem parseProvider_from {p q : SceneParser} {node : Json} {provider : DataProvider}
    (h : p.parseProvider node = .ok (provider, q)) :
    q.m_varIndex = p.m_varIndex + (variablesRead node).length
      ∧ ((typeTag node = .ok "download"
            ∧ q.m_variables.find? p.m_nodeName = some ⟨[], []⟩)
        ∨ (typeTag node = .ok "python" ∧ ∃ vs, sourceVariables node = .ok vs
            ∧ ((∀ v ∈ vs, KnownVariableType v)
              → ∃ vars, q.m_variables.find? p.m_nodeName = some vars
                ∧ NumberedFrom vars p.m_varIndex vs.length))) := by
  unfold SceneParser.parseProvider at h
  simp only [bind_ok_iff] at h
  obtain ⟨t, ht, type, htype, h⟩ := h
  have htag : typeTag node = .ok type := by
    unfold typeTag; simp only [bind_ok_iff]; exact ⟨t, ht, htype⟩
  split at h
  · rename_i hd
    have hd2 : type = "download" := by simpa using hd
    simp only [bind_ok_iff, pure_ok_iff] at h
    obtain ⟨_, _, h⟩ := h
    cases h
    have hdown : typeTag node = .ok "download" := hd2 ▸ htag
    rw [variablesRead_download hdown]
    exact ⟨rfl, Or.inl ⟨hdown, Map.find?_insert_self _ _ _⟩⟩
  · split at h
    · rename_i _ hp
      have hp2 : type = "python" := by simpa using hp
      have hpy : typeTag node = .ok "python" := hp2 ▸ htag
      obtain ⟨varsJson, hv, hloop⟩ := parsePython_ok h
      have hvs : sourceVariables node = .ok varsJson.elems := by
        unfold sourceVariables
        simp only [bind_ok_iff, pure_ok_iff]
        exact ⟨varsJson, hv, rfl⟩
      obtain ⟨⟨_, _, hname, _, _⟩, hcounter⟩ := parseParamsLoop_frame hloop
      rw [variablesRead_python hpy hvs]
      refine ⟨hcounter, Or.inr ⟨hpy, varsJson.elems, hvs, fun hknown => ?_⟩⟩
      have hreg0 : RegisteredFrom p.m_varIndex
          { p with m_variables := Map.insert p.m_nodeName ⟨[], []⟩ p.m_variables } :=
        ⟨⟨[], []⟩, 0, Map.find?_insert_self _ _ _, rfl, numberedFrom_empty _⟩
      obtain ⟨vars, n, hfind, hn, hnum⟩ := parseParamsLoop_registeredFrom hreg0 hknown hloop
      have hname1 : q.m_nodeName = p.m_nodeName := hname
      rw [hname1] at hfind
      have hlen : n = varsJson.elems.length := by
        have hc : q.m_varIndex = p.m_varIndex + varsJson.elems.length := hcounter
        omega
      rw [hlen] at hnum
      exact ⟨vars, hfind, hnum⟩
    · cases h

/-! ## The transfer function of a volume node (C23) -/

theorem typeTag_download_ne_python {source : Json} (hd : typeTag source = .ok "download")
    (hp : typeTag source = .ok "python") : False := by
  rw [hd] at hp
  exact absurd hp (by decide)

/-- A round of the loop of `parseScene` on a volume entry with a `tf` field: the entry of the
node is the one the second run of `parseProvider` leaves, numbered from the counter the first
run has left. -/
theorem parseSceneNode_tf {p q : SceneParser} {e : Json} {n : SceneNode}
    (h : p.parseSceneNode e = .ok (n, q)) (htag : typeTag e = .ok "volume")
    (htf : e.isMember "tf" = .ok true) :
    ∃ datasetJson source tfJson tfSource, e.get "dataset" = .ok datasetJson
      ∧ datasetJson.get "source" = .ok source ∧ e.get "tf" = .ok tfJson
      ∧ tfJson.get "source" = .ok tfSource
      ∧ ((typeTag tfSource = .ok "download"
            ∧ q.m_variables.find? n.name = some ⟨[], []⟩)
        ∨ (typeTag tfSource = .ok "python" ∧ ∃ vs, sourceVariables tfSource = .ok vs
            ∧ ((∀ v ∈ vs, KnownVariableType v)
              → ∃ vars, q.m_variables.find? n.name = some vars
                ∧ NumberedFrom vars (variablesRead source).length vs.length))) := by
  rcases parseSceneNode_ok h with ⟨hgeo, _⟩ | ⟨_, hv⟩
  · rw [htag] at hgeo
    exact absurd hgeo (by decide)
  · obtain ⟨name, visibility, dataset, tf, datasetJson, source, p1, hname, hvis, hn, hds, hsrc,
      hprov, hcase⟩ := parseVolumeNode_ok hv
    rcases hcase with ⟨hno, _⟩ | ⟨_, tfJson, tfSource, provider, ht, hts, hp2⟩
    · rw [htf] at hno
      cases hno
    · obtain ⟨_, ⟨_, _, f3, _, _⟩, _⟩ := parseProvider_ok hprov
      obtain ⟨_, ⟨_, _, g3, _, _⟩, _⟩ := parseProvider_ok hp2
      have hp1name : p1.m_nodeName = name := f3
      have hqname : q.m_nodeName = name := g3.trans hp1name
      rw [hqname] at hn
      subst hn
      have hcounter : p1.m_varIndex = (variablesRead source).length := by
        have h1 := (parseProvider_from hprov).1
        have h0 : p1.m_varIndex = 0 + (variablesRead source).length := h1
        omega
      obtain ⟨_, hentry⟩ := parseProvider_from hp2
      rw [hp1name, hcounter] at hentry
      exact ⟨datasetJson, source, tfJson, tfSource, hds, hsrc, ht, hts, hentry⟩

theorem parseSceneNodes_append {p q : SceneParser} {pre rest : List Json}
    {ns : List SceneNode} (h : p.parseSceneNodes (pre ++ rest) = .ok (ns, q)) :
    ∃ ns1 p1 ns2, p.parseSceneNodes pre = .ok (ns1, p1)
      ∧ p1.parseSceneNodes rest = .ok (ns2, q) ∧ ns = ns1 ++ ns2 := by
  induction pre generalizing p ns with
  | nil => exact ⟨[], p, ns, rfl, h, rfl⟩
  | cons e0 more ih =>
    rw [List.cons_append] at h
    obtain ⟨n, p0, ns0, h1, h2, rfl⟩ := parseSceneNodes_cons h
    obtain ⟨ns1, p1, ns2, hpre, hrest, rfl⟩ := ih h2
    refine ⟨n :: ns1, p1, ns2, ?_, hrest, rfl⟩
    unfold SceneParser.parseSceneNodes
    rw [h1]
    simp only
    rw [hpre]

/-- Claim C23, counterexample: the volume `v` of `volumeWithStrayVariables` has a `tf` field;
the `variables` list of its dataset source has one entry, but the source is a download and the
list is not read, so the variable `y` of the transfer function carries the index 0, not 1. -/
theorem unread_variables_do_not_count :
    parseDescription (demoScene [volumeWithStrayVariables]) = .ok strayVariablesScene
      ∧ volumeWithStrayVariables.isMember "tf" = .ok true
      ∧ (datasetVariables volumeWithStrayVariables).length = 1
      ∧ strayVariablesScene.m_variables.find? "v"
        = some ⟨[⟨"y", none, ⟨0, 0, 1, 1⟩, 0⟩], []⟩
      ∧ (⟨[⟨"y", none, ⟨0, 0, 1, 1⟩, 0⟩], []⟩ : Variables).indices = [0]
      ∧ ¬ NumberedFrom ⟨[⟨"y", none, ⟨0, 0, 1, 1⟩, 0⟩], []⟩ 1 1 := by
  decide

/-- Claim C23, amended: when a description parses, then for every volume entry with a `tf`
field after which no entry of the same name is listed, the variable entry of the Scene under
the name of the node is the one the second run of `parseProvider` has left: it is empty when
the tf source is a download, and when the tf source is a python source whose `variables`
entries have the types `float` or `enum`, it holds as many variables as that list has entries,
with indices that start at the number of entries the first run has read from the `variables`
list of the dataset source (all of them for a python source, none for a download source) and
increase in declaration order. -/
theorem tf_source_replaces_variables (root : Json) (scene : Scene)
    (hparse : parseDescription root = .ok scene)
    (sceneJson : Json) (hscene : root.get "scene" = .ok sceneJson)
    (pre : List Json) (e : Json) (post : List Json)
    (hsplit : sceneJson.elems = pre ++ e :: post)
    (hlast : ∀ e2 ∈ post, entryName e2 ≠ entryName e)
    (htag : typeTag e = .ok "volume") (htf : e.isMember "tf" = .ok true) :
    ∃ name datasetJson source tfJson tfSource, entryName e = .ok name
      ∧ (∃ n ∈ scene.m_nodes, n.name = name)
      ∧ e.get "dataset" = .ok datasetJson ∧ datasetJson.get "source" = .ok source
      ∧ e.get "tf" = .ok tfJson ∧ tfJson.get "source" = .ok tfSource
      ∧ (typeTag tfSource = .ok "download"
          → scene.m_variables.find? name = some ⟨[], []⟩)
      ∧ (typeTag tfSource = .ok "python"
          → ∃ vs, sourceVariables tfSource = .ok vs
            ∧ ((∀ v ∈ vs, KnownVariableType v)
              → ∃ vars, scene.m_variables.find? name = some vars
                ∧ vars.count = vs.length
                ∧ NumberedFrom vars (variablesRead source).length vs.length)) := by
  obtain ⟨sceneJson2, p1, q1, hget, _, hloop, hvars⟩ := parseDescription_loop hparse
  rw [hscene] at hget
  cases hget
  rw [hsplit] at hloop
  obtain ⟨ns1, p2, ns2, _, hrest, hns⟩ := parseSceneNodes_append hloop
  obtain ⟨n, p3, ns3, hnode, hpost, hns2⟩ := parseSceneNodes_cons hrest
  have hname : entryName e = .ok n.name := (parseSceneNode_spec hnode).1.1
  have hkeep : q1.m_variables.find? n.name = p3.m_variables.find? n.name :=
    (parseSceneNodes_registry hpost).1 n.name (fun e2 h2 => hname ▸ hlast e2 h2)
  obtain ⟨datasetJson, source, tfJson, tfSource, hds, hsrc, ht, hts, hentry⟩ :=
    parseSceneNode_tf hnode htag htf
  refine ⟨n.name, datasetJson, source, tfJson, tfSource, hname, ⟨n, ?_, rfl⟩, hds, hsrc, ht,
    hts, fun hdown => ?_, fun hpy => ?_⟩
  · rw [hns, hns2]
    exact List.mem_append_right _ (List.mem_cons_self _ _)
  · rcases hentry with ⟨_, hempty⟩ | ⟨hpy, _⟩
    · rw [hvars, hkeep]
      exact hempty
    · exact absurd hpy (fun hp => typeTag_download_ne_python hdown hp)
  · rcases hentry with ⟨hdown, _⟩ | ⟨_, vs, hvs, hnumbered⟩
    · exact absurd hpy (fun hp => typeTag_download_ne_python hdown hp)
    · refine ⟨vs, hvs, fun hknown => ?_⟩
      obtain ⟨vars, hfind, hnum⟩ := hnumbered hknown
      exact ⟨vars, by rw [hvars, hkeep]; exact hfind, numberedFrom_count hnum, hnum⟩

/-- Claim C23, amended, at a concrete input: the volume `v` whose dataset source and tf source
are python sources with one float variable each; the Scene records the variable `y` of the tf
source only, with the index 1. -/
theorem tf_source_replaces_variables_witness :
    parseDescription (demoScene [volumeEntryTwoSources]) = .ok twoSourcesScene
      ∧ twoSourcesScene.m_variables.find? "v" = some ⟨[⟨"y", none, ⟨1, 0, 1, 1⟩, 0⟩], []⟩
      ∧ ∃ name datasetJson source tfJson tfSource, entryName volumeEntryTwoSources = .ok name
        ∧ (∃ n ∈ twoSourcesScene.m_nodes, n.name = name)
        ∧ volumeEntryTwoSources.get "dataset" = .ok datasetJson
        ∧ datasetJson.get "source" = .ok source
        ∧ volumeEntryTwoSources.get "tf" = .ok tfJson ∧ tfJson.get "source" = .ok tfSource
        ∧ (typeTag tfSource = .ok "download"
            → twoSourcesScene.m_variables.find? name = some ⟨[], []⟩)
        ∧ (typeTag tfSource = .ok "python"
            → ∃ vs, sourceVariables tfSource = .ok vs
              ∧ ((∀ v ∈ vs, KnownVariableType v)
                → ∃ vars, twoSourcesScene.m_variables.find? name = some vars
                  ∧ vars.count = vs.length
                  ∧ NumberedFrom vars (variablesRead source).length vs.length)) :=
  ⟨by decide, by decide,
    tf_source_replaces_variables (demoScene [volumeEntryTwoSources]) twoSourcesScene
      (by decide) (.arr [volumeEntryTwoSources]) (by decide) [] volumeEntryTwoSources [] rfl
      (by decide) (by decide) (by decide)⟩

/-! ## The object a python provider shares with the registry -/

/-- A python provider made by `parseProvider` points to the object that the run has registered
under the name of the node: the content recorded in the provider is the registry entry. -/
theorem parseProvider_shared {p q : SceneParser} {node : Json} {provider : DataProvider}
    (h : p.parseProvider node = .ok (provider, q)) {sceneName fileName : String}
    {vars : Variables} (hprovider : provider = .python sceneName fileName vars) :
    q.m_variables.find? p.m_nodeName = some vars := by
  have hframe := (parseProvider_ok h).2.1
  have hname : q.m_nodeName = p.m_nodeName := hframe.2.2.1
  unfold SceneParser.parseProvider at h
  simp only [bind_ok_iff] at h
  obtain ⟨t, ht, type, htype, h⟩ := h
  split at h
  · unfold SceneParser.parseDownload at h
    simp only [bind_ok_iff, pure_ok_iff] at h
    obtain ⟨_, ⟨_, _, _, _, hd⟩, h⟩ := h
    cases h
    subst hd
    cases hprovider
  · split at h
    · unfold SceneParser.parsePython SceneParser.parseParams at h
      simp only [bind_ok_iff] at h
      obtain ⟨_, _, _, _, varsJson, _, p1, _, h⟩ := h
      split at h
      · rename_i vars2 hfind
        simp only [pure_ok_iff] at h
        cases h
        cases hprovider
        rw [← hname]
        exact hfind
      · cases h
    · cases h

/-- A round of the loop of `parseScene` leaves, under the name of the node, the object that the
last provider of the node points to. -/
theorem parseSceneNode_shared {p q : SceneParser} {e : Json} {n : SceneNode}
    (h : p.parseSceneNode e = .ok (n, q)) {sceneName fileName : String} {vars : Variables}
    (hprovider : n.lastProvider = .python sceneName fileName vars) :
    q.m_variables.find? n.name = some vars := by
  rcases parseSceneNode_ok h with ⟨_, hg⟩ | ⟨_, hv⟩
  · obtain ⟨name, visibility, dataset, datasetJson, _, _, hn, _, hparse⟩ :=
      parseGeometryNode_ok hg
    obtain ⟨source, _, _, hprov, _, _⟩ := parseGeometryDataset_ok hparse
    have hqname : q.m_nodeName = name := (parseProvider_ok hprov).2.1.2.2.1
    rw [hqname] at hn
    subst hn
    exact parseProvider_shared hprov hprovider
  · unfold SceneParser.parseVolumeNode at hv
    simp only [bind_ok_iff, pure_ok_iff] at hv
    obtain ⟨nameJson, _, name, _, visibility, _, datasetJson, _, ⟨dataset, p1⟩, h5,
      hasTf, _, ⟨tf, p2⟩, h7, h8⟩ := hv
    obtain ⟨hn, hq⟩ := Prod.mk.inj h8
    subst hq
    subst hn
    unfold SceneParser.parseVolumeDataset at h5
    simp only [bind_ok_iff, pure_ok_iff] at h5
    obtain ⟨source, _, ⟨provider, p3⟩, hp, h9⟩ := h5
    obtain ⟨hd, hp1⟩ := Prod.mk.inj h9
    subst hd
    subst hp1
    have hp3name : p3.m_nodeName = name := (parseProvider_ok hp).2.1.2.2.1
    cases hasTf with
    | false =>
      simp only [Bool.false_eq_true, if_false, pure_ok_iff] at h7
      obtain ⟨htf, hp2⟩ := Prod.mk.inj h7
      subst htf
      subst hp2
      have hshared := @parseProvider_shared _ _ _ _ hp sceneName fileName vars hprovider
      show p3.m_variables.find? p3.m_nodeName = some vars
      rw [hp3name]
      exact hshared
    | true =>
      simp only [if_true, bind_ok_iff] at h7
      obtain ⟨tfJson, _, h7⟩ := h7
      unfold SceneParser.parseTransferFunction at h7
      simp only [bind_ok_iff, pure_ok_iff] at h7
      obtain ⟨tfSource, _, ⟨provider2, p4⟩, hp2, h10⟩ := h7
      obtain ⟨htf, hp4⟩ := Prod.mk.inj h10
      subst htf
      subst hp4
      have hp4name : p4.m_nodeName = p3.m_nodeName := (parseProvider_ok hp2).2.1.2.2.1
      have hshared := @parseProvider_shared _ _ _ _ hp2 sceneName fileName vars hprovider
      show p4.m_variables.find? p4.m_nodeName = some vars
      rw [hp4name]
      exact hshared

theorem parseSceneNodes_shared {p q : SceneParser} {es : List Json} {ns : List SceneNode}
    (h : p.parseSceneNodes es = .ok (ns, q)) :
    ∀ (pre : List SceneNode) (n : SceneNode) (post : List SceneNode), ns = pre ++ n :: post
      → (∀ m ∈ post, m.name ≠ n.name)
      → ∀ (sceneName fileName : String) (vars : Variables),
        n.lastProvider = .python sceneName fileName vars
        → q.m_variables.find? n.name = some vars := by
  induction es generalizing p ns with
  | nil =>
    cases h
    intro pre n post hsplit
    cases pre <;> cases hsplit
  | cons e rest ih =>
    obtain ⟨n0, p1, ns1, h1, h2, rfl⟩ := parseSceneNodes_cons h
    intro pre n post hsplit hpost sceneName fileName vars hprovider
    cases pre with
    | nil =>
      simp only [List.nil_append, List.cons.injEq] at hsplit
      obtain ⟨hn, hns⟩ := hsplit
      subst hn
      subst hns
      have hkeep := (parseSceneNodes_registry h2).1 n0.name (fun e2 he2 hname => by
        obtain ⟨m, hm, hentry⟩ := forall₂_of_mem_left (parseSceneNodes_spec h2).1 he2
        have hm2 : entryName e2 = .ok m.name := hentry.1
        rw [hm2] at hname
        exact hpost m hm (Except.ok.inj hname))
      rw [hkeep]
      exact parseSceneNode_shared h1 hprovider
    | cons first more =>
      simp only [List.cons_append, List.cons.injEq] at hsplit
      obtain ⟨_, hns⟩ := hsplit
      exact ih h2 more n post hns hpost sceneName fileName vars hprovider

/-- In a scene the parser has made, the last provider of the last node of a name, when it is a
python provider, holds the content of the registry entry of that name: the two are one object,
and `Scene.setVariable` keeps them equal. -/
theorem parsed_scene_shares_registry {root : Json} {scene : Scene}
    (hparse : parseDescription root = .ok scene) (pre : List SceneNode) (n : SceneNode)
    (post : List SceneNode) (hsplit : scene.m_nodes = pre ++ n :: post)
    (hpost : ∀ m ∈ post, m.name ≠ n.name) (sceneName fileName : String) (vars : Variables)
    (hprovider : n.lastProvider = .python sceneName fileName vars) :
    scene.m_variables.find? n.name = some vars := by
  obtain ⟨sceneJson, p1, q1, _, _, hloop, hvars⟩ := parseDescription_loop hparse
  rw [hvars]
  exact parseSceneNodes_shared hloop pre n post hsplit hpost sceneName fileName vars hprovider

end Duality
